import Mathlib

/-!
# Copy-on-write fork and the system-call gate of the JOS teaching kernel

A shallow embedding of `lib/fork.c` (`get_pte`, `pgfault`, `duppage`, `fork`)
and `kern/syscall.c` (`sys_cputs`, `sys_env_destroy`, `syscall`).

Machine words are natural numbers; 32-bit wrap-around is written `% WORD`
where the C code can overflow.  Page-table entries are raw words, read with
the same masks the C code uses.
-/

set_option linter.unusedVariables false

namespace Jos

/-! ## Constants -/

/-- Modelled from the spec: the width of the "32-bit addressable memory
architecture"; `uint32_t` arithmetic is taken modulo this value. -/
def WORD : Nat := 4294967296

/-- Modelled from the spec: the page size of `inc/mmu.h` (not in src), the
x86 value 4096. -/
def PGSIZE : Nat := 4096

/-- Modelled from the spec: bytes mapped by one page-directory entry,
`PTSIZE` of `inc/mmu.h` (not in src): 1024 pages. -/
def PTSIZE : Nat := 4194304

/-- Modelled from the spec: the *present* flag, `PTE_P` of `inc/mmu.h`
(not in src). -/
def PTE_P : Nat := 0x001

/-- Modelled from the spec: the *writable* flag, `PTE_W` of `inc/mmu.h`
(not in src). -/
def PTE_W : Nat := 0x002

/-- Modelled from the spec: the *user-accessible* flag, `PTE_U` of
`inc/mmu.h` (not in src). -/
def PTE_U : Nat := 0x004

/-- Modelled from the spec: the *shared-always* flag, `PTE_SHARE` of
`inc/lib.h` (not in src). -/
def PTE_SHARE : Nat := 0x400

/-- The copy-on-write flag, `#define PTE_COW 0x800` in `lib/fork.c`. -/
def PTE_COW : Nat := 0x800

/-- The "absent" value, `#define NO_PTE 0xFFFFFFFF` in `lib/fork.c`. -/
def NO_PTE : Nat := 0xFFFFFFFF

/-- Modelled from the spec: the flag bits a caller may request from the
mapping operations, `PTE_SYSCALL` of `inc/mmu.h` (not in src):
present, writable, user and the three software-available bits. -/
def PTE_SYSCALL : Nat := 0xE07

/-- Modelled from the spec: the top of the user-mappable range, `UTOP` of
`inc/memlayout.h` (not in src). -/
def UTOP : Nat := 0xEEC00000

/-- Modelled from the spec: the top of the one-page exception stack,
`UXSTACKTOP` of `inc/memlayout.h` (not in src); it equals `UTOP`. -/
def UXSTACKTOP : Nat := 0xEEC00000

/-- Modelled from the spec: the "reserved scratch virtual address", `PFTEMP`
of `inc/memlayout.h` (not in src). -/
def PFTEMP : Nat := 0x7FF000

/-- Modelled from the spec: the write bit of the fault-cause word, `FEC_WR`
of `inc/mmu.h` (not in src). -/
def FEC_WR : Nat := 0x2

/-- Modelled from the spec: the size of the environment table, `NENV` of
`inc/env.h` (not in src). -/
def NENV : Nat := 1024

/-- Modelled from the spec: environment status *free*, of `inc/env.h`
(not in src). -/
def ENV_FREE : Nat := 0

/-- Modelled from the spec: environment status *dying*, of `inc/env.h`
(not in src). -/
def ENV_DYING : Nat := 1

/-- Modelled from the spec: environment status *runnable*, of `inc/env.h`
(not in src). -/
def ENV_RUNNABLE : Nat := 2

/-- Modelled from the spec: environment status *running*, of `inc/env.h`
(not in src). -/
def ENV_RUNNING : Nat := 3

/-- Modelled from the spec: environment status *not runnable*, of
`inc/env.h` (not in src). -/
def ENV_NOT_RUNNABLE : Nat := 4

/-- Modelled from the spec: the `BadEnv` error number, `E_BAD_ENV` of
`inc/error.h` (not in src). -/
def E_BAD_ENV : Int := 2

/-- Modelled from the spec: the `InvalidArgument` error number, `E_INVAL` of
`inc/error.h` (not in src). -/
def E_INVAL : Int := 3

/-- Modelled from the spec: the `NoMemory` error number, `E_NO_MEM` of
`inc/error.h` (not in src). -/
def E_NO_MEM : Int := 4

/-- Modelled from the spec: the error number for an exhausted environment
table, `E_NO_FREE_ENV` of `inc/error.h` (not in src). -/
def E_NO_FREE_ENV : Int := 5

/-- Modelled from the spec: operation ids of the dispatch gate, the first
four enumerators of `inc/syscall.h` (not in src). -/
def SYS_cputs : Nat := 0

/-- Modelled from the spec: see `SYS_cputs`. -/
def SYS_cgetc : Nat := 1

/-- Modelled from the spec: see `SYS_cputs`. -/
def SYS_getenvid : Nat := 2

/-- Modelled from the spec: see `SYS_cputs`. -/
def SYS_env_destroy : Nat := 3

/-- Modelled from the spec: the number of operation ids, the last enumerator
`NSYSCALLS` of `inc/syscall.h` (not in src); the enumeration of the tree that
holds `PTE_SHARE` has fourteen operations before it. -/
def NSYSCALLS : Nat := 14

/-! ## Address arithmetic (macros of `inc/mmu.h` and `inc/types.h`) -/

/-- Modelled from the spec: page number of an address, `PGNUM(la)`, the
address shifted right by 12. -/
def PGNUM (va : Nat) : Nat := va / PGSIZE

/-- Modelled from the spec: page-directory index of an address, `PDX(la)`,
bits 22..31. -/
def PDX (va : Nat) : Nat := va / PTSIZE % 1024

/-- Modelled from the spec: the frame address held in an entry,
`PTE_ADDR(pte)`, the entry with its low 12 bits cleared. -/
def PTE_ADDR (pte : Nat) : Nat := pte &&& 0xFFFFF000

/-- Modelled from the spec: the flag set held in an entry, its low 12 bits. -/
def PTE_FLAGS (pte : Nat) : Nat := pte &&& 0xFFF

/-- Modelled from the spec: `ROUNDDOWN(a, n)` of `inc/types.h` (not in src). -/
def ROUNDDOWN (a n : Nat) : Nat := a - a % n

/-- Modelled from the spec: `ROUNDUP(a, n)` of `inc/types.h` (not in src),
computed in `uint32_t`: the addition wraps. -/
def ROUNDUP (a n : Nat) : Nat := ROUNDDOWN ((a + n - 1) % WORD) n

/-- Modelled from the spec: `page2pa` of `kern/pmap.h` (not in src): the
physical address of frame number `n`, the number shifted left by 12 in a
32-bit word. -/
def page2pa (n : Nat) : Nat := n * PGSIZE % WORD

/-- Pointwise update of a table. -/
def upd {β : Type} (f : Nat → β) (i : Nat) (v : β) : Nat → β :=
  fun j => if j = i then v else f j

/-! ## Machine state -/

/-- An environment: the kernel's record of it, its two-level page table as
the environment itself sees it through `uvpd` and `uvpt`, and the two
user-level globals the fork library keeps (`thisenv`, `_pgfault_handler`). -/
structure Env where
  env_id : Nat
  env_parent_id : Nat
  env_status : Nat
  env_pgfault_upcall : Nat
  env_pgdir : Nat → Nat
  env_pgtab : Nat → Nat
  thisenv : Nat
  pgfault_handler : Nat

/-- A privileged operation requested through the dispatch gate. -/
inductive Call where
  | page_alloc (envid va perm : Nat)
  | page_map (srcenv srcva dstenv dstva perm : Nat)
  | env_set_pgfault_upcall (envid entry : Nat)
  | env_set_status (envid status : Nat)
  | exofork
  | getenvid
  deriving DecidableEq, Repr

/-- What the kernel writes to the console. -/
inductive ConsoleEvent where
  | syscallno (n : Nat)
  | memory_error
  | exiting (envid : Nat)
  | destroying (by_env envid : Nat)
  | puts (s len : Nat)
  deriving DecidableEq, Repr

/-- The whole machine: the environment table (by slot), the slot of the
running environment, physical memory (frame address, then offset), the
allocator's free frames (by frame number), the log of privileged operations
requested so far, what the kernel has written to the console and the
console input not yet read. -/
structure Machine where
  envs : Nat → Env
  curenv : Nat
  phys : Nat → Nat → Nat
  page_free_list : List Nat
  trace : List Call
  console : List ConsoleEvent
  console_in : List Nat

/-- Result of running user-level code. -/
inductive Outcome where
  | returned (r : Int) (s : Machine)
  | panicked (s : Machine)
  | faulted (s : Machine)

/-- Machine state in which the run ended. -/
def Outcome.state : Outcome → Machine
  | .returned _ s => s
  | .panicked s => s
  | .faulted s => s

/-- Return value, when the code returned. -/
def Outcome.ret : Outcome → Option Int
  | .returned r _ => some r
  | _ => none

/-- Whether the run ended in `panic`. -/
def Outcome.isPanic : Outcome → Bool
  | .panicked _ => true
  | _ => false

/-- Whether the run ended in a nested, unhandled fault. -/
def Outcome.isFault : Outcome → Bool
  | .faulted _ => true
  | _ => false

/-- The running environment. -/
def Machine.cur (s : Machine) : Env := s.envs s.curenv

/-- Replace one slot of the environment table. -/
def Machine.setEnv (s : Machine) (i : Nat) (e : Env) : Machine :=
  { s with envs := upd s.envs i e }

/-- Append one privileged operation to the log. -/
def Machine.log (s : Machine) (c : Call) : Machine :=
  { s with trace := s.trace ++ [c] }

/-! ## The Address-Space View (`lib/fork.c`) -/

/-- The function `get_pte` of `lib/fork.c`:
`uvpd[PDX(va)] & PTE_P ? uvpt[PGNUM(va)] : NO_PTE`. -/
def get_pte (s : Machine) (va : Nat) : Nat :=
  if s.cur.env_pgdir (PDX va) &&& PTE_P ≠ 0 then s.cur.env_pgtab (PGNUM va) else NO_PTE

/-! ## The privileged operations

`kern/syscall.c` under src dispatches only the console and destroy
operations; the page and environment operations that `lib/fork.c` calls are
modelled from section 4.2 of the specification. -/

/-- Modelled from the spec: `envid2env` of `kern/env.c` (not in src), the
environment-table lookup "with generation-tag comparison"; id 0 is "a
reserved alias resolved to the caller"; with `checkperm` the target must be
the caller or a child of the caller.  Returns the slot, or `none` for
`BadEnv`. -/
def envid2env (s : Machine) (envid : Nat) (checkperm : Bool) : Option Nat :=
  if envid = 0 then some s.curenv
  else
    let i := envid % NENV
    if (s.envs i).env_status = ENV_FREE ∨ (s.envs i).env_id ≠ envid then none
    else if checkperm = true ∧ i ≠ s.curenv ∧ (s.envs i).env_parent_id ≠ s.cur.env_id then none
    else some i

/-- Modelled from the spec: `page_insert` of `kern/pmap.c` (not in src):
install entry `pte` for `va`.  When no page table covers `va` a new, empty
one is installed first, so every other entry under that directory slot
reads 0. -/
def page_insert (e : Env) (va pte : Nat) : Env :=
  if e.env_pgdir (PDX va) &&& PTE_P ≠ 0 then
    { e with env_pgtab := upd e.env_pgtab (PGNUM va) pte }
  else
    { e with
      env_pgdir := upd e.env_pgdir (PDX va) (PTE_P ||| PTE_W ||| PTE_U)
      env_pgtab := fun pn =>
        if pn = PGNUM va then pte
        else if PDX (pn * PGSIZE) = PDX va then 0
        else e.env_pgtab pn }

/-- Modelled from the spec: whether `va` has a present mapping in `e`
(`page_lookup` of `kern/pmap.c`, not in src). -/
def mapped (e : Env) (va : Nat) : Bool :=
  decide (e.env_pgdir (PDX va) &&& PTE_P ≠ 0) && decide (e.env_pgtab (PGNUM va) &&& PTE_P ≠ 0)

/-- Modelled from the spec: `allocate_page(env, vaddr, flags)`, the kernel
side of `sys_page_alloc` (not in src).  "Allocates one fresh zero-filled
physical frame and maps it at vaddr in env with flags.  Fails with BadEnv if
env does not exist or the caller lacks rights over it; fails with NoMemory
if frames are exhausted; fails with InvalidArgument if vaddr is unaligned to
the page size or outside the user-mappable range, or if flags requests
unsupported bits."  Frames are taken from the head of the free list (a list
of frame numbers); the return of a frame to the allocator is outside this
model. -/
def sys_page_alloc (s : Machine) (envid va perm : Nat) : Int × Machine :=
  let s0 := s.log (Call.page_alloc envid va perm)
  match envid2env s0 envid true with
  | none => (-E_BAD_ENV, s0)
  | some i =>
    if UTOP ≤ va ∨ va % PGSIZE ≠ 0 then (-E_INVAL, s0)
    else if perm &&& PTE_SYSCALL ≠ perm then (-E_INVAL, s0)
    else
      match s0.page_free_list with
      | [] => (-E_NO_MEM, s0)
      | f :: rest =>
        (0, { s0 with
              envs := upd s0.envs i (page_insert (s0.envs i) va (page2pa f ||| perm))
              phys := upd s0.phys (page2pa f) (fun _ => 0)
              page_free_list := rest })

/-- Modelled from the spec: `map_page(src_env, src_vaddr, dst_env,
dst_vaddr, flags)`, the kernel side of `sys_page_map` (not in src).  "Maps
the physical frame currently backing src_vaddr in src_env into dst_env at
dst_vaddr with flags.  Fails with BadEnv for invalid environments,
InvalidArgument if the source mapping is absent or flags would elevate
permission beyond what the source grants (e.g., requesting writable on a
read-only source), or if addresses are misaligned/out of range." -/
def sys_page_map (s : Machine) (srcenvid srcva dstenvid dstva perm : Nat) : Int × Machine :=
  let s0 := s.log (Call.page_map srcenvid srcva dstenvid dstva perm)
  match envid2env s0 srcenvid true, envid2env s0 dstenvid true with
  | some i, some j =>
    if UTOP ≤ srcva ∨ srcva % PGSIZE ≠ 0 ∨ UTOP ≤ dstva ∨ dstva % PGSIZE ≠ 0 then (-E_INVAL, s0)
    else if mapped (s0.envs i) srcva = false then (-E_INVAL, s0)
    else if perm &&& PTE_W ≠ 0 ∧ (s0.envs i).env_pgtab (PGNUM srcva) &&& PTE_W = 0 then
      (-E_INVAL, s0)
    else
      (0, { s0 with
            envs := upd s0.envs j
              (page_insert (s0.envs j) dstva
                (PTE_ADDR ((s0.envs i).env_pgtab (PGNUM srcva)) ||| perm)) })
  | _, _ => (-E_BAD_ENV, s0)

/-- Modelled from the spec: `set_page_fault_upcall(env, entry_point)`, the
kernel side of `sys_env_set_pgfault_upcall` (not in src): "records the
fault-handler entry for env.  Idempotent; last write wins." -/
def sys_env_set_pgfault_upcall (s : Machine) (envid entry : Nat) : Int × Machine :=
  let s0 := s.log (Call.env_set_pgfault_upcall envid entry)
  match envid2env s0 envid true with
  | none => (-E_BAD_ENV, s0)
  | some i => (0, { s0 with envs := upd s0.envs i { s0.envs i with env_pgfault_upcall := entry } })

/-- Modelled from the spec: `set_status(env, status)`, the kernel side of
`sys_env_set_status` (not in src): "transitions env between
runnable/not-runnable.  Fails with InvalidArgument on an unrecognized status
value." -/
def sys_env_set_status (s : Machine) (envid status : Nat) : Int × Machine :=
  let s0 := s.log (Call.env_set_status envid status)
  if status ≠ ENV_RUNNABLE ∧ status ≠ ENV_NOT_RUNNABLE then (-E_INVAL, s0)
  else
    match envid2env s0 envid true with
    | none => (-E_BAD_ENV, s0)
    | some i => (0, { s0 with envs := upd s0.envs i { s0.envs i with env_status := status } })

/-- Modelled from the spec: the "generation-tagged slot index" given to a
re-used slot (`env_alloc` of `kern/env.c`, not in src): the slot's previous
id advanced by one generation, never 0 and never negative as an `int32_t`. -/
def mkenvid (old slot : Nat) : Nat :=
  let g := (old + 4096) % WORD / NENV * NENV
  (if g = 0 ∨ 2147483648 ≤ g then 4096 else g) + slot

/-- Modelled from the spec: `duplicate_environment()`, the kernel side of
`sys_exofork` (not in src), as seen by the caller: "creates a new
environment ... sharing nothing of the caller's address space yet; returns
the new environment's identifier to the caller".  The new environment is
not runnable; the fork library's globals, which live in the caller's
memory image, start as the caller's. -/
def sys_exofork (s : Machine) : Int × Machine :=
  let s0 := s.log Call.exofork
  match (List.range NENV).find? (fun i => decide ((s0.envs i).env_status = ENV_FREE)) with
  | none => (-E_NO_FREE_ENV, s0)
  | some i =>
    let id := mkenvid (s0.envs i).env_id i
    (Int.ofNat id,
     { s0 with
       envs := upd s0.envs i
         { env_id := id
           env_parent_id := s0.cur.env_id
           env_status := ENV_NOT_RUNNABLE
           env_pgfault_upcall := 0
           env_pgdir := fun _ => 0
           env_pgtab := fun _ => 0
           thisenv := s0.cur.thisenv
           pgfault_handler := s0.cur.pgfault_handler } })

/-- The user-level stub `sys_getenvid` (`lib/syscall.c`, not in src), which
reaches `sys_getenvid` of `kern/syscall.c`: `return curenv->env_id`. -/
def sys_getenvid (s : Machine) : Int × Machine :=
  (Int.ofNat s.cur.env_id, s.log Call.getenvid)

/-- Modelled from the spec: a user-mode read of the page at `va` succeeds
when the page table exists and the entry is present and user-accessible. -/
def user_readable (e : Env) (va : Nat) : Bool :=
  mapped e va && decide (e.env_pgtab (PGNUM va) &&& PTE_U ≠ 0)

/-- Modelled from the spec: a user-mode write additionally needs the
writable flag. -/
def user_writable (e : Env) (va : Nat) : Bool :=
  user_readable e va && decide (e.env_pgtab (PGNUM va) &&& PTE_W ≠ 0)

/-- Modelled from the spec: `memcpy` of `lib/string.c` (not in src), for the
handler's page-to-page copy ("copy the full contents of the faulting page",
"exact per-byte contents"): the first `n` bytes of the page at `src` are
copied to the page at `dst`, both page-aligned, `n ≤ PGSIZE`.  `none` is a
fault taken by the copy itself (source unreadable or destination
unwritable). -/
def memcpy (s : Machine) (dst src n : Nat) : Option Machine :=
  if user_readable s.cur src = true ∧ user_writable s.cur dst = true then
    let fs := PTE_ADDR (s.cur.env_pgtab (PGNUM src))
    let fd := PTE_ADDR (s.cur.env_pgtab (PGNUM dst))
    some { s with phys := fun f off => if f = fd ∧ off < n then s.phys fs off else s.phys f off }
  else none

/-! ## `lib/fork.c` -/

/-- The function `pgfault` of `lib/fork.c`, run on the trap frame
`(utf_fault_va, utf_err)`.  The results of the three calls are ignored, as
in the source. -/
def pgfault (s : Machine) (utf_fault_va utf_err : Nat) : Outcome :=
  let addr := utf_fault_va
  let pte := get_pte s addr
  let isWrite : Bool := decide (utf_err &&& FEC_WR ≠ 0)
  let isCOW : Bool := decide (pte &&& PTE_COW ≠ 0)
  if !isWrite || !isCOW then Outcome.panicked s
  else
    let remap_va := ROUNDDOWN addr PGSIZE
    let s1 := (sys_page_alloc s 0 PFTEMP (PTE_W ||| PTE_U ||| PTE_P)).2
    match memcpy s1 PFTEMP remap_va PGSIZE with
    | none => Outcome.faulted s1
    | some s2 =>
      Outcome.returned 0 (sys_page_map s2 0 PFTEMP 0 remap_va (PTE_U ||| PTE_P ||| PTE_W)).2

/-- The function `duppage` of `lib/fork.c`; `pn * PGSIZE` is computed in
`unsigned`. -/
def duppage (s : Machine) (envid pn : Nat) : Outcome :=
  let va := pn * PGSIZE % WORD
  let pte := get_pte s va
  if pte = NO_PTE ∨ pte &&& PTE_P = 0 then Outcome.returned 0 s
  else if pte &&& PTE_SHARE ≠ 0 then
    let r := sys_page_map s 0 va envid va (PTE_P ||| PTE_U ||| PTE_W ||| PTE_SHARE)
    if r.1 < 0 then Outcome.panicked r.2 else Outcome.returned 0 r.2
  else if pte &&& PTE_W ≠ 0 ∨ pte &&& PTE_COW ≠ 0 then
    let r := sys_page_map s 0 va envid va (PTE_U ||| PTE_COW ||| PTE_P)
    if r.1 < 0 then Outcome.panicked r.2
    else
      let r2 := sys_page_map r.2 0 va 0 va (PTE_U ||| PTE_COW ||| PTE_P)
      if r2.1 < 0 then Outcome.panicked r2.2 else Outcome.returned 0 r2.2
  else
    let r := sys_page_map s 0 va envid va (PTE_U ||| PTE_P)
    if r.1 < 0 then Outcome.panicked r.2 else Outcome.returned 0 r.2

/-- Modelled from the spec: `set_pgfault_handler` of `lib/pgfault.c` (not in
src), which "registers a user-level handler and a dedicated exception
stack": the first time through it allocates the exception-stack page of the
caller and registers the assembly entry point `upcall` with the kernel,
panicking when either fails; it then records `handler` in the library's
global `_pgfault_handler`. -/
def set_pgfault_handler (s : Machine) (handler upcall : Nat) : Outcome :=
  if s.cur.pgfault_handler = 0 then
    let r := sys_page_alloc s 0 (UXSTACKTOP - PGSIZE) (PTE_W ||| PTE_U ||| PTE_P)
    if r.1 < 0 then Outcome.panicked r.2
    else
      let r2 := sys_env_set_pgfault_upcall r.2 0 upcall
      if r2.1 < 0 then Outcome.panicked r2.2
      else Outcome.returned 0 (r2.2.setEnv r2.2.curenv { r2.2.cur with pgfault_handler := handler })
  else Outcome.returned 0 (s.setEnv s.curenv { s.cur with pgfault_handler := handler })

/-- The loop `for (va = 0; va < UXSTACKTOP - PGSIZE; va += PGSIZE)
duppage(child_eid, va / PGSIZE);` of `fork`, from address `va` on.  The
value `duppage` returns is ignored; a panic ends the run. -/
def fork_loop (child : Nat) (va : Nat) (s : Machine) : Outcome :=
  if h : va < UXSTACKTOP - PGSIZE then
    match duppage s child (va / PGSIZE) with
    | Outcome.returned _ s1 => fork_loop child ((va + PGSIZE) % WORD) s1
    | Outcome.panicked s1 => Outcome.panicked s1
    | Outcome.faulted s1 => Outcome.faulted s1
  else Outcome.returned 0 s
termination_by UXSTACKTOP - PGSIZE - va
decreasing_by
  simp only [UXSTACKTOP, PGSIZE, WORD] at h ⊢
  omega

/-- The loop `for (int i = 0; i < 1024; ++i)` of the child branch of `fork`,
from index `i` on: `thisenv` is set to the first slot whose id is the one
`sys_getenvid()` reports. -/
def fix_thisenv (i : Nat) (s : Machine) : Machine :=
  if h : i < 1024 then
    let r := sys_getenvid s
    if Int.ofNat (r.2.envs i).env_id = r.1 then
      r.2.setEnv r.2.curenv { r.2.cur with thisenv := i }
    else fix_thisenv (i + 1) r.2
  else s
termination_by 1024 - i

/-- The body of `fork` of `lib/fork.c` after `child_eid = sys_exofork()`, run
by the environment in which that call returned `child_eid`.  The results of
the three calls that follow the loop are ignored, as in the source;
`thisenv->env_pgfault_upcall` is read from the environment table at the slot
the global `thisenv` names. -/
def fork_after (child_eid : Int) (s : Machine) : Outcome :=
  if child_eid > 0 then
    match fork_loop child_eid.toNat 0 s with
    | Outcome.returned _ s1 =>
      let s2 := (sys_page_alloc s1 child_eid.toNat (UXSTACKTOP - PGSIZE)
        (PTE_P ||| PTE_U ||| PTE_W)).2
      let s3 := (sys_env_set_pgfault_upcall s2 child_eid.toNat
        (s2.envs s2.cur.thisenv).env_pgfault_upcall).2
      let s4 := (sys_env_set_status s3 child_eid.toNat ENV_RUNNABLE).2
      Outcome.returned child_eid s4
    | Outcome.panicked s1 => Outcome.panicked s1
    | Outcome.faulted s1 => Outcome.faulted s1
  else Outcome.returned child_eid (fix_thisenv 0 s)

/-- The function `fork` of `lib/fork.c`, as run by the calling environment;
`pgfault_entry` and `upcall_entry` are the addresses of `pgfault` and of the
assembly entry point.  The new environment later continues as
`fork_after 0`. -/
def fork (s : Machine) (pgfault_entry upcall_entry : Nat) : Outcome :=
  match set_pgfault_handler s pgfault_entry upcall_entry with
  | Outcome.returned _ s0 => fork_after (sys_exofork s0).1 (sys_exofork s0).2
  | Outcome.panicked s0 => Outcome.panicked s0
  | Outcome.faulted s0 => Outcome.faulted s0

/-! ## `kern/syscall.c` -/

namespace Kern

/-- Result of running kernel code on behalf of the calling environment:
either it returns a value to the caller, or the caller has been destroyed
and control passes to the scheduler. -/
inductive KOutcome where
  | returned (r : Int) (s : Machine)
  | noreturn (s : Machine)

/-- Machine state in which the kernel code ended. -/
def KOutcome.state : KOutcome → Machine
  | .returned _ s => s
  | .noreturn s => s

/-- Value handed back to the calling environment, if any. -/
def KOutcome.ret : KOutcome → Option Int
  | .returned r _ => some r
  | .noreturn _ => none

/-- Modelled from the spec: `cprintf` of `kern/printf.c` (not in src), as the
event it adds to the console. -/
def cprintf (s : Machine) (e : ConsoleEvent) : Machine :=
  { s with console := s.console ++ [e] }

/-- Modelled from the spec: `pgdir_walk(pgdir, va, 0)` of `kern/pmap.c` (not
in src): a pointer to the entry for `va` when a page table covers it, `NULL`
(here `none`) otherwise; the entry is returned whether or not it is
present. -/
def pgdir_walk (e : Env) (va : Nat) : Option Nat :=
  if e.env_pgdir (PDX va) &&& PTE_P ≠ 0 then some (e.env_pgtab (PGNUM va)) else none

/-- Modelled from the spec: `env_free` of `kern/env.c` (not in src):
"releases all resources owned by env and marks it free". -/
def env_free (s : Machine) (i : Nat) : Machine :=
  { s with
    envs := upd s.envs i
      { s.envs i with env_status := ENV_FREE, env_pgdir := fun _ => 0, env_pgtab := fun _ => 0 } }

/-- Modelled from the spec: `env_destroy` of `kern/env.c` (not in src): the
environment is freed; when it is the running environment control does not
come back to the caller ("terminates the calling environment
immediately"). -/
def env_destroy (s : Machine) (i : Nat) : KOutcome :=
  if i = s.curenv then KOutcome.noreturn (env_free s i) else KOutcome.returned 0 (env_free s i)

/-- Modelled from the spec: `cons_getc` of `kern/console.c` (not in src):
the next input character, or 0 when none is waiting. -/
def cons_getc (s : Machine) : Int × Machine :=
  match s.console_in with
  | [] => (0, s)
  | c :: rest => (Int.ofNat c, { s with console_in := rest })

/-- The test `pte == NULL || (*pte & PTE_U) == 0` of `sys_cputs`. -/
def cputs_violation (e : Env) (va : Nat) : Bool :=
  match pgdir_walk e va with
  | none => true
  | some pte => decide (pte &&& PTE_U = 0)

/-- The `for` loop of `sys_cputs`, with `va += PGSIZE` in `uint32_t`.  The
second component lists the page addresses examined, in order.  `none`: the
fuel ran out. -/
def sys_cputs_loop (end_va : Nat) : Nat → Nat → Machine → List Nat → Option (KOutcome × List Nat)
  | 0, _, _, _ => none
  | fuel + 1, va, s, seen =>
    if va < end_va then
      if cputs_violation s.cur va = true then
        match env_destroy (cprintf s ConsoleEvent.memory_error) s.curenv with
        | KOutcome.noreturn s1 => some (KOutcome.noreturn s1, seen ++ [va])
        | KOutcome.returned _ s1 =>
          sys_cputs_loop end_va fuel ((va + PGSIZE) % WORD) s1 (seen ++ [va])
      else sys_cputs_loop end_va fuel ((va + PGSIZE) % WORD) s (seen ++ [va])
    else some (KOutcome.returned 0 s, seen)

/-- The function `sys_cputs` of `kern/syscall.c`; `(uint32_t)s + len` and
`ROUNDUP` wrap at 32 bits. -/
def sys_cputs (fuel : Nat) (s : Machine) (str len : Nat) : Option (KOutcome × List Nat) :=
  let s_start := str
  let s_end := (str + len) % WORD
  let start_va := ROUNDDOWN s_start PGSIZE
  let end_va := ROUNDUP s_end PGSIZE
  match sys_cputs_loop end_va fuel start_va s [] with
  | none => none
  | some (KOutcome.noreturn s1, seen) => some (KOutcome.noreturn s1, seen)
  | some (KOutcome.returned _ s1, seen) =>
    some (KOutcome.returned 0 (cprintf s1 (ConsoleEvent.puts str len)), seen)

/-- The function `sys_cgetc` of `kern/syscall.c`. -/
def sys_cgetc (s : Machine) : Int × Machine := cons_getc s

/-- The function `sys_getenvid` of `kern/syscall.c`. -/
def sys_getenvid (s : Machine) : Int := Int.ofNat s.cur.env_id

/-- The function `sys_env_destroy` of `kern/syscall.c`. -/
def sys_env_destroy (s : Machine) (envid : Nat) : KOutcome :=
  match envid2env s envid true with
  | none => KOutcome.returned (-E_BAD_ENV) s
  | some i =>
    let s1 :=
      if i = s.curenv then cprintf s (ConsoleEvent.exiting s.cur.env_id)
      else cprintf s (ConsoleEvent.destroying s.cur.env_id (s.envs i).env_id)
    match env_destroy s1 i with
    | KOutcome.noreturn s2 => KOutcome.noreturn s2
    | KOutcome.returned _ s2 => KOutcome.returned 0 s2

/-- The function `syscall` of `kern/syscall.c`.  Every operation id other
than the four cases falls to `default`. -/
def syscall (fuel : Nat) (s : Machine) (syscallno a1 a2 a3 a4 a5 : Nat) : Option KOutcome :=
  let s0 := cprintf s (ConsoleEvent.syscallno syscallno)
  if syscallno = SYS_cputs then
    match sys_cputs fuel s0 a1 a2 with
    | none => none
    | some (KOutcome.noreturn s1, _) => some (KOutcome.noreturn s1)
    | some (KOutcome.returned _ s1, _) => some (KOutcome.returned 0 s1)
  else if syscallno = SYS_cgetc then
    some (KOutcome.returned (sys_cgetc s0).1 (sys_cgetc s0).2)
  else if syscallno = SYS_getenvid then
    some (KOutcome.returned (sys_getenvid s0) s0)
  else if syscallno = SYS_env_destroy then
    match sys_env_destroy s0 a1 with
    | KOutcome.noreturn s1 => some (KOutcome.noreturn s1)
    | KOutcome.returned _ s1 => some (KOutcome.returned 0 s1)
  else some (KOutcome.returned (-E_INVAL) s0)

end Kern

/-! ## Predicates used to state the properties -/

/-- Environment `e` maps the page at `va` to frame `frame` with flag set
exactly `flags`. -/
def maps_frame (e : Env) (va frame flags : Nat) : Prop :=
  mapped e va = true ∧ PTE_ADDR (e.env_pgtab (PGNUM va)) = frame ∧
    PTE_FLAGS (e.env_pgtab (PGNUM va)) = flags

instance (e : Env) (va frame flags : Nat) : Decidable (maps_frame e va frame flags) := by
  unfold maps_frame; infer_instance

/-- The state a successful `sys_page_map` leaves. -/
def page_map_post (s : Machine) (i j srcenvid srcva dstenvid dstva perm : Nat) : Machine :=
  { s with
    trace := s.trace ++ [Call.page_map srcenvid srcva dstenvid dstva perm]
    envs := upd s.envs j
      (page_insert (s.envs j) dstva (PTE_ADDR ((s.envs i).env_pgtab (PGNUM srcva)) ||| perm)) }

/-- The state a successful `sys_page_alloc` leaves, `f` being the frame
number taken from the free list and `rest` the frames left. -/
def page_alloc_post (s : Machine) (i envid va perm f : Nat) (rest : List Nat) : Machine :=
  { s with
    trace := s.trace ++ [Call.page_alloc envid va perm]
    envs := upd s.envs i (page_insert (s.envs i) va (page2pa f ||| perm))
    phys := upd s.phys (page2pa f) (fun _ => 0)
    page_free_list := rest }

/-- The state a successful `sys_exofork` leaves, `i` being the slot taken. -/
def exofork_post (s : Machine) (i : Nat) : Machine :=
  { s with
    trace := s.trace ++ [Call.exofork]
    envs := upd s.envs i
      { env_id := mkenvid (s.envs i).env_id i
        env_parent_id := s.cur.env_id
        env_status := ENV_NOT_RUNNABLE
        env_pgfault_upcall := 0
        env_pgdir := fun _ => 0
        env_pgtab := fun _ => 0
        thisenv := s.cur.thisenv
        pgfault_handler := s.cur.pgfault_handler } }

/-- The state `duppage` leaves for the page at `va` when its mapping calls
succeed, `j` being the slot of the target environment. -/
def dup_post (s : Machine) (j child va : Nat) : Machine :=
  if get_pte s va = NO_PTE ∨ get_pte s va &&& PTE_P = 0 then s
  else if get_pte s va &&& PTE_SHARE ≠ 0 then
    page_map_post s s.curenv j 0 va child va (PTE_P ||| PTE_U ||| PTE_W ||| PTE_SHARE)
  else if get_pte s va &&& PTE_W ≠ 0 ∨ get_pte s va &&& PTE_COW ≠ 0 then
    page_map_post (page_map_post s s.curenv j 0 va child va (PTE_U ||| PTE_COW ||| PTE_P))
      s.curenv s.curenv 0 va 0 va (PTE_U ||| PTE_COW ||| PTE_P)
  else page_map_post s s.curenv j 0 va child va (PTE_U ||| PTE_P)

/-- No entry of the environment has both the writable and the copy-on-write
flag. -/
def noWC (e : Env) : Prop :=
  ∀ pn, ¬ (e.env_pgtab pn &&& PTE_W ≠ 0 ∧ e.env_pgtab pn &&& PTE_COW ≠ 0)

/-- What the mapping, allocation and registration operations keep: the
running slot, the identity of every environment, and the absence of
writable+copy-on-write entries wherever it held. -/
def Keeps (s t : Machine) : Prop :=
  t.curenv = s.curenv ∧
  ∀ i, (t.envs i).env_id = (s.envs i).env_id ∧ (noWC (s.envs i) → noWC (t.envs i))

/-- Two states with the same memory, free frames, running slot, and the same
page tables and ids in every environment. -/
def SameTables (s t : Machine) : Prop :=
  t.page_free_list = s.page_free_list ∧ t.phys = s.phys ∧ t.curenv = s.curenv ∧
  ∀ k, (t.envs k).env_pgdir = (s.envs k).env_pgdir ∧
    (t.envs k).env_pgtab = (s.envs k).env_pgtab ∧ (t.envs k).env_id = (s.envs k).env_id

/-- The allocator's contract ("fresh" frames): the free frames are pairwise
distinct and no present mapping of any environment references one. -/
def frames_fresh (s : Machine) : Prop :=
  (s.page_free_list.map page2pa).Nodup ∧
  ∀ n ∈ s.page_free_list, ∀ i va, mapped (s.envs i) va = true →
    PTE_ADDR ((s.envs i).env_pgtab (PGNUM va)) ≠ page2pa n

/-! ## The calls `fork` makes -/

/-- The page numbers the loop of `fork` hands to `duppage` from address `va`
on, in the order of the calls: the loop `fork_loop` with the argument of
each call recorded; a `duppage` that does not return ends the list. -/
def fork_loop_calls (child : Nat) (va : Nat) (s : Machine) : List Nat :=
  if h : va < UXSTACKTOP - PGSIZE then
    va / PGSIZE ::
      (match duppage s child (va / PGSIZE) with
       | Outcome.returned _ s1 => fork_loop_calls child ((va + PGSIZE) % WORD) s1
       | Outcome.panicked _ => []
       | Outcome.faulted _ => [])
  else []
termination_by UXSTACKTOP - PGSIZE - va
decreasing_by
  simp only [UXSTACKTOP, PGSIZE, WORD] at h ⊢
  omega

/-- The page numbers a run of `fork` hands to `duppage`, in order: those of
the loop on the parent branch, none on the other branch. -/
def fork_calls (s : Machine) (pgfault_entry upcall_entry : Nat) : List Nat :=
  match set_pgfault_handler s pgfault_entry upcall_entry with
  | Outcome.returned _ s0 =>
    if (sys_exofork s0).1 > 0 then
      fork_loop_calls (sys_exofork s0).1.toNat 0 (sys_exofork s0).2
    else []
  | Outcome.panicked _ => []
  | Outcome.faulted _ => []

/-- The state the three calls that follow the loop of `fork` leave
(`sys_page_alloc`, `sys_env_set_pgfault_upcall`, `sys_env_set_status`),
their results ignored as in the source. -/
def fork_tail (child : Nat) (s1 : Machine) : Machine :=
  (sys_env_set_status
    (sys_env_set_pgfault_upcall
      (sys_page_alloc s1 child (UXSTACKTOP - PGSIZE) (PTE_P ||| PTE_U ||| PTE_W)).2 child
      ((sys_page_alloc s1 child (UXSTACKTOP - PGSIZE) (PTE_P ||| PTE_U ||| PTE_W)).2.envs
        (sys_page_alloc s1 child (UXSTACKTOP - PGSIZE)
          (PTE_P ||| PTE_U ||| PTE_W)).2.cur.thisenv).env_pgfault_upcall).2
    child ENV_RUNNABLE).2

/-- Two states with the same running slot and, in every environment, the
same kernel record and library globals apart from the page tables. -/
def SameRegs (s t : Machine) : Prop :=
  t.curenv = s.curenv ∧
  ∀ k, (t.envs k).env_id = (s.envs k).env_id ∧
    (t.envs k).env_parent_id = (s.envs k).env_parent_id ∧
    (t.envs k).env_status = (s.envs k).env_status ∧
    (t.envs k).env_pgfault_upcall = (s.envs k).env_pgfault_upcall ∧
    (t.envs k).thisenv = (s.envs k).thisenv ∧
    (t.envs k).pgfault_handler = (s.envs k).pgfault_handler

/-- A mapping request of the kind `duppage` issues for target `child`: the
caller's page at an address below the exception stack, mapped at the same
address into `child` or into the caller itself. -/
def dup_call (child : Nat) (x : Call) : Prop :=
  ∃ va dst perm, x = Call.page_map 0 va dst va perm ∧ va < UXSTACKTOP - PGSIZE ∧
    (dst = child ∨ dst = 0)

/-- What a returning run of the loop of `fork` for target `child` does to
the machine: only page tables and the log change, the log grows by mapping
requests of `duppage`, and the allocator's contract survives. -/
def LoopRel (child : Nat) (s t : Machine) : Prop :=
  SameRegs s t ∧ t.phys = s.phys ∧ t.page_free_list = s.page_free_list ∧
  (frames_fresh s → frames_fresh t) ∧
  ∃ L, t.trace = s.trace ++ L ∧ ∀ x, x ∈ L → dup_call child x

/-! ## Sample machines -/

/-- An unused environment slot. -/
def env0 : Env :=
  { env_id := 0, env_parent_id := 0, env_status := ENV_FREE, env_pgfault_upcall := 0,
    env_pgdir := fun _ => 0, env_pgtab := fun _ => 0, thisenv := 0, pgfault_handler := 0 }

/-- A running environment, id 0x1000, whose only mapping is page number
`pn` over frame 0x5000 with flag set `flags`. -/
def parentEnv (pn flags : Nat) : Env :=
  { env0 with
    env_id := 0x1000, env_status := ENV_RUNNING, env_pgfault_upcall := 0x801000
    pgfault_handler := 0x802000
    env_pgdir := upd (fun _ => 0) (pn / 1024) (PTE_P ||| PTE_W ||| PTE_U)
    env_pgtab := upd (fun _ => 0) pn (0x5000 ||| flags) }

/-- A freshly duplicated child of `parentEnv`, id 0x1001, with an empty
address space. -/
def childEnv : Env :=
  { env0 with env_id := 0x1001, env_parent_id := 0x1000, env_status := ENV_NOT_RUNNABLE }

/-- A machine running `parentEnv pn flags` in slot 0 with `childEnv` in
slot 1, three free frames, and recognisable bytes in frame 0x5000. -/
def sampleMachine (pn flags : Nat) : Machine :=
  { envs := upd (upd (fun _ => env0) 0 (parentEnv pn flags)) 1 childEnv
    curenv := 0
    phys := fun f off => if f = 0x5000 then off % 251 + 1 else 0
    page_free_list := [9, 10, 11]
    trace := []
    console := []
    console_in := [] }

/-- The sample machine whose page 0x800000 is present, user and writable. -/
def sampleW : Machine := sampleMachine 0x800 (PTE_P ||| PTE_U ||| PTE_W)

/-- The sample machine after the handler's allocation at `PFTEMP`. -/
def sampleFault1 : Machine :=
  page_alloc_post (sampleMachine 0x800 (PTE_P ||| PTE_U ||| PTE_COW)) 0 0 PFTEMP
    (PTE_W ||| PTE_U ||| PTE_P) 9 [10, 11]

/-- The sample machine after the handler's copy of page 0x800000. -/
def sampleFault2 : Machine :=
  { sampleFault1 with
    phys := fun f off =>
      if f = PTE_ADDR (sampleFault1.cur.env_pgtab (PGNUM PFTEMP)) ∧ off < PGSIZE then
        sampleFault1.phys (PTE_ADDR (sampleFault1.cur.env_pgtab (PGNUM 0x800000))) off
      else sampleFault1.phys f off }

/-- The sample machine after the handler's final mapping. -/
def sampleFault3 : Machine :=
  page_map_post sampleFault2 0 0 0 PFTEMP 0 0x800000 (PTE_U ||| PTE_P ||| PTE_W)

/-- The sample machine `sampleW` with the allocator exhausted: no free
frame. -/
def sampleNoFrames : Machine := { sampleW with page_free_list := [] }

/-- The sample machine whose running environment maps nothing but its own
exception-stack page. -/
def sampleStackOnly : Machine := sampleMachine 0xEEBFF (PTE_P ||| PTE_U ||| PTE_W)

/-! ## Basic facts about entries, tables and the privileged operations -/

theorem and_or_mask (p m q c : Nat) :
    ((p &&& m) ||| q) &&& c = (p &&& (m &&& c)) ||| (q &&& c) := by
  rw [Nat.and_comm _ c, Nat.and_or_distrib_left, Nat.and_comm c, Nat.and_comm c, Nat.and_assoc]

/-- Installing flags `q` (low 12 bits only) over a frame keeps the frame. -/
theorem PTE_ADDR_insert (p q : Nat) (hq : q &&& 0xFFFFF000 = 0) :
    PTE_ADDR (PTE_ADDR p ||| q) = PTE_ADDR p := by
  unfold PTE_ADDR
  rw [and_or_mask, hq]
  show (p &&& 0xFFFFF000) ||| 0 = _
  simp

/-- A flag `c` of the low 12 bits of an installed entry is the flag of the
requested permissions. -/
theorem flag_insert (p q c : Nat) (hc : 0xFFFFF000 &&& c = 0) :
    (PTE_ADDR p ||| q) &&& c = q &&& c := by
  unfold PTE_ADDR
  rw [and_or_mask, hc]
  simp

theorem PTE_FLAGS_insert (p q : Nat) : PTE_FLAGS (PTE_ADDR p ||| q) = q &&& 0xFFF := by
  unfold PTE_FLAGS
  exact flag_insert p q 0xFFF rfl

/-- A page-aligned frame address with flags on top: the frame is kept. -/
theorem PTE_ADDR_frame (f q : Nat) (hf : PTE_ADDR f = f) (hq : q &&& 0xFFFFF000 = 0) :
    PTE_ADDR (f ||| q) = f := by
  rw [← hf, PTE_ADDR_insert f q hq]

theorem flag_frame (f q c : Nat) (hf : PTE_ADDR f = f) (hc : 0xFFFFF000 &&& c = 0) :
    (f ||| q) &&& c = q &&& c := by
  rw [← hf, flag_insert f q c hc]

@[simp] theorem upd_same {β : Type} (f : Nat → β) (i : Nat) (v : β) : upd f i v i = v := by
  simp [upd]

theorem upd_other {β : Type} (f : Nat → β) (i j : Nat) (v : β) (h : j ≠ i) :
    upd f i v j = f j := by
  simp [upd, h]

@[simp] theorem page_insert_env_id (e : Env) (va p : Nat) :
    (page_insert e va p).env_id = e.env_id := by
  unfold page_insert; split <;> rfl

@[simp] theorem page_insert_env_parent_id (e : Env) (va p : Nat) :
    (page_insert e va p).env_parent_id = e.env_parent_id := by
  unfold page_insert; split <;> rfl

@[simp] theorem page_insert_env_status (e : Env) (va p : Nat) :
    (page_insert e va p).env_status = e.env_status := by
  unfold page_insert; split <;> rfl

@[simp] theorem page_insert_env_pgfault_upcall (e : Env) (va p : Nat) :
    (page_insert e va p).env_pgfault_upcall = e.env_pgfault_upcall := by
  unfold page_insert; split <;> rfl

@[simp] theorem page_insert_thisenv (e : Env) (va p : Nat) :
    (page_insert e va p).thisenv = e.thisenv := by
  unfold page_insert; split <;> rfl

@[simp] theorem page_insert_pgfault_handler (e : Env) (va p : Nat) :
    (page_insert e va p).pgfault_handler = e.pgfault_handler := by
  unfold page_insert; split <;> rfl

/-- After an insertion the entry for the page is the inserted word. -/
@[simp] theorem page_insert_pgtab_self (e : Env) (va p : Nat) :
    (page_insert e va p).env_pgtab (PGNUM va) = p := by
  unfold page_insert; split <;> simp

/-- After an insertion the page table for the page exists. -/
theorem page_insert_pgdir_self (e : Env) (va p : Nat) :
    (page_insert e va p).env_pgdir (PDX va) &&& PTE_P ≠ 0 := by
  unfold page_insert; split
  · assumption
  · simp only [upd_same]; decide

theorem PDX_PGNUM (va : Nat) : PDX (PGNUM va * PGSIZE) = PDX va := by
  unfold PDX PGNUM PTSIZE PGSIZE; omega

theorem mapped_page_insert (e : Env) (va p : Nat) (hp : p &&& PTE_P ≠ 0) :
    mapped (page_insert e va p) va = true := by
  simp [mapped, page_insert_pgdir_self, hp]

/-- The environment lookup reads only ids, parents, statuses and the running
slot. -/
theorem envid2env_congr (s t : Machine) (x : Nat) (cp : Bool) (hc : t.curenv = s.curenv)
    (h : ∀ i, (t.envs i).env_status = (s.envs i).env_status ∧
      (t.envs i).env_id = (s.envs i).env_id ∧
      (t.envs i).env_parent_id = (s.envs i).env_parent_id) :
    envid2env t x cp = envid2env s x cp := by
  unfold envid2env Machine.cur
  simp only [hc, (h _).1, (h _).2.1, (h _).2.2]

theorem envid2env_zero (s : Machine) (cp : Bool) : envid2env s 0 cp = some s.curenv := by
  simp [envid2env]

@[simp] theorem envid2env_log (s : Machine) (c : Call) (x : Nat) (cp : Bool) :
    envid2env (s.log c) x cp = envid2env s x cp :=
  envid2env_congr s (s.log c) x cp rfl (fun _ => ⟨rfl, rfl, rfl⟩)

/-- When the mapping call does not fail, its checks all passed and it left
`page_map_post`. -/
theorem sys_page_map_ok (s : Machine) (a sva b dva perm : Nat)
    (h : 0 ≤ (sys_page_map s a sva b dva perm).1) :
    ∃ i j, envid2env s a true = some i ∧ envid2env s b true = some j ∧
      sva < UTOP ∧ sva % PGSIZE = 0 ∧ dva < UTOP ∧ dva % PGSIZE = 0 ∧
      mapped (s.envs i) sva = true ∧
      ¬ (perm &&& PTE_W ≠ 0 ∧ (s.envs i).env_pgtab (PGNUM sva) &&& PTE_W = 0) ∧
      sys_page_map s a sva b dva perm = (0, page_map_post s i j a sva b dva perm) := by
  unfold sys_page_map at h ⊢
  simp only [envid2env_log] at h ⊢
  cases hi : envid2env s a true with
  | none => simp [hi, E_BAD_ENV] at h
  | some i =>
    cases hj : envid2env s b true with
    | none => simp [hi, hj, E_BAD_ENV] at h
    | some j =>
      simp only [hi, hj] at h ⊢
      by_cases c1 : UTOP ≤ sva ∨ sva % PGSIZE ≠ 0 ∨ UTOP ≤ dva ∨ dva % PGSIZE ≠ 0
      · simp [c1, E_INVAL] at h
      · by_cases c2 : mapped ((s.log (Call.page_map a sva b dva perm)).envs i) sva = false
        · simp [c1, c2, E_INVAL] at h
        · by_cases c3 : perm &&& PTE_W ≠ 0 ∧
              ((s.log (Call.page_map a sva b dva perm)).envs i).env_pgtab (PGNUM sva) &&& PTE_W = 0
          · simp [c1, c2, c3, E_INVAL] at h
          · refine ⟨i, j, rfl, rfl, ?_, ?_, ?_, ?_, ?_, c3, ?_⟩
            · omega
            · omega
            · omega
            · omega
            · simpa using c2
            · simp only [c1, c2, c3, if_false]
              rfl

/-- When all its checks pass the mapping call succeeds. -/
theorem sys_page_map_eq (s : Machine) (a sva b dva perm i j : Nat)
    (hi : envid2env s a true = some i) (hj : envid2env s b true = some j)
    (h1 : sva < UTOP) (h2 : sva % PGSIZE = 0) (h3 : dva < UTOP) (h4 : dva % PGSIZE = 0)
    (h5 : mapped (s.envs i) sva = true)
    (h6 : ¬ (perm &&& PTE_W ≠ 0 ∧ (s.envs i).env_pgtab (PGNUM sva) &&& PTE_W = 0)) :
    sys_page_map s a sva b dva perm = (0, page_map_post s i j a sva b dva perm) := by
  unfold sys_page_map
  simp only [envid2env_log, hi, hj]
  have c1 : ¬ (UTOP ≤ sva ∨ sva % PGSIZE ≠ 0 ∨ UTOP ≤ dva ∨ dva % PGSIZE ≠ 0) := by omega
  have c2 : ¬ (mapped ((s.log (Call.page_map a sva b dva perm)).envs i) sva = false) := by
    simpa [Machine.log] using h5
  have c3 : ¬ (perm &&& PTE_W ≠ 0 ∧
      ((s.log (Call.page_map a sva b dva perm)).envs i).env_pgtab (PGNUM sva) &&& PTE_W = 0) := h6
  simp only [c1, c2, c3, if_false]
  rfl

theorem get_pte_of_not_share (s : Machine) (va : Nat) (hS : get_pte s va &&& PTE_SHARE = 0) :
    s.cur.env_pgdir (PDX va) &&& PTE_P ≠ 0 ∧ get_pte s va = s.cur.env_pgtab (PGNUM va) ∧
      get_pte s va ≠ NO_PTE := by
  unfold get_pte at hS ⊢
  by_cases hd : s.cur.env_pgdir (PDX va) &&& PTE_P ≠ 0
  · rw [if_pos hd] at hS ⊢
    refine ⟨hd, rfl, ?_⟩
    intro h
    rw [h] at hS
    exact absurd hS (by decide)
  · rw [if_neg hd] at hS
    exact absurd hS (by decide)

theorem maps_frame_insert (e : Env) (va p q : Nat) (hq : q &&& 0xFFFFF000 = 0)
    (hp : q &&& PTE_P ≠ 0) :
    maps_frame (page_insert e va (PTE_ADDR p ||| q)) va (PTE_ADDR p) (q &&& 0xFFF) := by
  refine ⟨mapped_page_insert _ _ _ ?_, ?_, ?_⟩
  · rw [flag_insert p q PTE_P rfl]; exact hp
  · rw [page_insert_pgtab_self, PTE_ADDR_insert p q hq]
  · rw [page_insert_pgtab_self, PTE_FLAGS_insert]

/-! ## Properties of `duppage` -/

/-- C1: for a page whose entry in the parent is present, not shared-always,
and writable or copy-on-write, `duppage` (when the kernel accepts the
mapping into the child) first maps the parent's frame into the child at the
same address with flags exactly present+user+copy-on-write, then re-maps the
same frame in the parent at the same address with the same flags (also when
the page was already copy-on-write), and returns 0 with both referencing the
same frame. -/
theorem duppage_cow_maps_child_then_parent (s : Machine) (envid pn va : Nat)
    (hva : va = pn * PGSIZE % WORD)
    (hP : get_pte s va &&& PTE_P ≠ 0)
    (hS : get_pte s va &&& PTE_SHARE = 0)
    (hW : get_pte s va &&& PTE_W ≠ 0 ∨ get_pte s va &&& PTE_COW ≠ 0)
    (hok : 0 ≤ (sys_page_map s 0 va envid va (PTE_U ||| PTE_COW ||| PTE_P)).1) :
    ∃ child s1 s2,
      envid2env s envid true = some child ∧
      sys_page_map s 0 va envid va (PTE_U ||| PTE_COW ||| PTE_P) = (0, s1) ∧
      maps_frame (s1.envs child) va (PTE_ADDR (get_pte s va)) (PTE_P ||| PTE_U ||| PTE_COW) ∧
      sys_page_map s1 0 va 0 va (PTE_U ||| PTE_COW ||| PTE_P) = (0, s2) ∧
      duppage s envid pn = Outcome.returned 0 s2 ∧
      s2.trace = s.trace ++ [Call.page_map 0 va envid va (PTE_U ||| PTE_COW ||| PTE_P),
        Call.page_map 0 va 0 va (PTE_U ||| PTE_COW ||| PTE_P)] ∧
      s2.curenv = s.curenv ∧
      maps_frame (s2.envs child) va (PTE_ADDR (get_pte s va)) (PTE_P ||| PTE_U ||| PTE_COW) ∧
      maps_frame s2.cur va (PTE_ADDR (get_pte s va)) (PTE_P ||| PTE_U ||| PTE_COW) ∧
      s2.cur.env_pgtab (PGNUM va) &&& PTE_W = 0 ∧
      (s2.envs child).env_pgtab (PGNUM va) &&& PTE_W = 0 := by
  obtain ⟨hd, hpte, hne⟩ := get_pte_of_not_share s va hS
  obtain ⟨i, j, hi, hj, h1, h2, -, -, h5, -, heq⟩ := sys_page_map_ok _ _ _ _ _ _ hok
  have hic : i = s.curenv := by
    rw [envid2env_zero] at hi; exact (Option.some.inj hi).symm
  subst hic
  -- the state after the first call
  have hs1c : (page_map_post s s.curenv j 0 va envid va (PTE_U ||| PTE_COW ||| PTE_P)).curenv
      = s.curenv := rfl
  have hchild1 : maps_frame
      ((page_map_post s s.curenv j 0 va envid va (PTE_U ||| PTE_COW ||| PTE_P)).envs j) va
      (PTE_ADDR (get_pte s va)) (PTE_P ||| PTE_U ||| PTE_COW) := by
    rw [hpte]
    simp only [page_map_post, upd_same]
    exact maps_frame_insert _ _ _ _ rfl (by decide)
  -- the parent's entry as the second call reads it
  have hsrc : maps_frame
      ((page_map_post s s.curenv j 0 va envid va (PTE_U ||| PTE_COW ||| PTE_P)).envs s.curenv) va
      (PTE_ADDR (get_pte s va))
      (PTE_FLAGS (((page_map_post s s.curenv j 0 va envid va
        (PTE_U ||| PTE_COW ||| PTE_P)).envs s.curenv).env_pgtab (PGNUM va))) := by
    by_cases hjc : j = s.curenv
    · subst hjc
      exact ⟨hchild1.1, hchild1.2.1, rfl⟩
    · have : (page_map_post s s.curenv j 0 va envid va (PTE_U ||| PTE_COW ||| PTE_P)).envs
          s.curenv = s.envs s.curenv := by
        simp only [page_map_post]
        exact upd_other _ _ _ _ (fun h => hjc h.symm)
      rw [this]
      exact ⟨h5, by rw [hpte]; rfl, rfl⟩
  have heq2 := sys_page_map_eq
    (page_map_post s s.curenv j 0 va envid va (PTE_U ||| PTE_COW ||| PTE_P))
    0 va 0 va (PTE_U ||| PTE_COW ||| PTE_P) s.curenv s.curenv
    (envid2env_zero _ _) (envid2env_zero _ _) h1 h2 h1 h2 hsrc.1
    (fun h => h.1 (by decide))
  have hpar2 : maps_frame
      ((page_map_post (page_map_post s s.curenv j 0 va envid va (PTE_U ||| PTE_COW ||| PTE_P))
        s.curenv s.curenv 0 va 0 va (PTE_U ||| PTE_COW ||| PTE_P)).envs s.curenv) va
      (PTE_ADDR (get_pte s va)) (PTE_P ||| PTE_U ||| PTE_COW) := by
    rw [← hsrc.2.1]
    simp only [page_map_post, upd_same]
    exact maps_frame_insert _ _ _ _ rfl (by decide)
  have hchild2 : maps_frame
      ((page_map_post (page_map_post s s.curenv j 0 va envid va (PTE_U ||| PTE_COW ||| PTE_P))
        s.curenv s.curenv 0 va 0 va (PTE_U ||| PTE_COW ||| PTE_P)).envs j) va
      (PTE_ADDR (get_pte s va)) (PTE_P ||| PTE_U ||| PTE_COW) := by
    by_cases hjc : j = s.curenv
    · subst hjc; exact hpar2
    · have : (page_map_post (page_map_post s s.curenv j 0 va envid va
          (PTE_U ||| PTE_COW ||| PTE_P)) s.curenv s.curenv 0 va 0 va
          (PTE_U ||| PTE_COW ||| PTE_P)).envs j
          = (page_map_post s s.curenv j 0 va envid va (PTE_U ||| PTE_COW ||| PTE_P)).envs j := by
        conv_lhs => simp only [page_map_post]
        exact upd_other _ _ _ _ hjc
      rw [this]; exact hchild1
  have hnw : ∀ e : Env, maps_frame e va (PTE_ADDR (get_pte s va)) (PTE_P ||| PTE_U ||| PTE_COW) →
      e.env_pgtab (PGNUM va) &&& PTE_W = 0 := by
    intro e he
    have h := he.2.2
    unfold PTE_FLAGS at h
    have : e.env_pgtab (PGNUM va) &&& PTE_W = (e.env_pgtab (PGNUM va) &&& 0xFFF) &&& PTE_W := by
      rw [Nat.and_assoc]; rfl
    rw [this, h]; rfl
  refine ⟨j, _, _, hj, heq, hchild1, heq2, ?_, ?_, rfl, hchild2, hpar2, hnw _ hpar2,
    hnw _ hchild2⟩
  · unfold duppage
    simp only [← hva]
    have c1 : ¬ (get_pte s va = NO_PTE ∨ get_pte s va &&& PTE_P = 0) := by
      intro h; rcases h with h | h
      · exact hne h
      · exact hP h
    simp only [c1, if_false, hS, ne_eq, not_true_eq_false, hW, if_true, heq, heq2]
    simp
  · simp [page_map_post]

theorem duppage_cow_maps_child_then_parent_witness :
    get_pte (sampleMachine 0x800 (PTE_P ||| PTE_U ||| PTE_COW)) 0x800000 &&& PTE_P ≠ 0 ∧
    get_pte (sampleMachine 0x800 (PTE_P ||| PTE_U ||| PTE_COW)) 0x800000 &&& PTE_SHARE = 0 ∧
    0 ≤ (sys_page_map (sampleMachine 0x800 (PTE_P ||| PTE_U ||| PTE_COW)) 0 0x800000 0x1001 0x800000
      (PTE_U ||| PTE_COW ||| PTE_P)).1 ∧
    ∃ child s1 s2,
      envid2env (sampleMachine 0x800 (PTE_P ||| PTE_U ||| PTE_COW)) 0x1001 true = some child ∧
      sys_page_map (sampleMachine 0x800 (PTE_P ||| PTE_U ||| PTE_COW)) 0 0x800000 0x1001 0x800000
        (PTE_U ||| PTE_COW ||| PTE_P) = (0, s1) ∧
      maps_frame (s1.envs child) 0x800000
        (PTE_ADDR (get_pte (sampleMachine 0x800 (PTE_P ||| PTE_U ||| PTE_COW)) 0x800000))
        (PTE_P ||| PTE_U ||| PTE_COW) ∧
      sys_page_map s1 0 0x800000 0 0x800000 (PTE_U ||| PTE_COW ||| PTE_P) = (0, s2) ∧
      duppage (sampleMachine 0x800 (PTE_P ||| PTE_U ||| PTE_COW)) 0x1001 0x800 = Outcome.returned 0 s2 ∧
      s2.trace = (sampleMachine 0x800 (PTE_P ||| PTE_U ||| PTE_COW)).trace ++
        [Call.page_map 0 0x800000 0x1001 0x800000 (PTE_U ||| PTE_COW ||| PTE_P),
         Call.page_map 0 0x800000 0 0x800000 (PTE_U ||| PTE_COW ||| PTE_P)] ∧
      s2.curenv = (sampleMachine 0x800 (PTE_P ||| PTE_U ||| PTE_COW)).curenv ∧
      maps_frame (s2.envs child) 0x800000
        (PTE_ADDR (get_pte (sampleMachine 0x800 (PTE_P ||| PTE_U ||| PTE_COW)) 0x800000))
        (PTE_P ||| PTE_U ||| PTE_COW) ∧
      maps_frame s2.cur 0x800000
        (PTE_ADDR (get_pte (sampleMachine 0x800 (PTE_P ||| PTE_U ||| PTE_COW)) 0x800000))
        (PTE_P ||| PTE_U ||| PTE_COW) ∧
      s2.cur.env_pgtab (PGNUM 0x800000) &&& PTE_W = 0 ∧
      (s2.envs child).env_pgtab (PGNUM 0x800000) &&& PTE_W = 0 :=
  ⟨by decide, by decide, by decide,
   duppage_cow_maps_child_then_parent (sampleMachine 0x800 (PTE_P ||| PTE_U ||| PTE_COW)) 0x1001 0x800
     0x800000 (by decide) (by decide) (by decide) (Or.inr (by decide)) (by decide)⟩

/-- C2 (the code diverges): a present, user, shared-always page that is not
writable.  `duppage` asks for present+user+writable+shared whatever the
parent's flags are, so the requested flags differ from the parent's; the
kernel refuses the elevation to writable and `duppage` panics, leaving the
child without a mapping of the page. -/
theorem duppage_share_readonly_diverges :
    PTE_FLAGS (get_pte (sampleMachine 0x800 (PTE_P ||| PTE_U ||| PTE_SHARE)) 0x800000)
      = PTE_P ||| PTE_U ||| PTE_SHARE ∧
    (duppage (sampleMachine 0x800 (PTE_P ||| PTE_U ||| PTE_SHARE)) 0x1001 0x800).state.trace
      = [Call.page_map 0 0x800000 0x1001 0x800000 (PTE_P ||| PTE_U ||| PTE_W ||| PTE_SHARE)] ∧
    PTE_P ||| PTE_U ||| PTE_W ||| PTE_SHARE ≠ PTE_P ||| PTE_U ||| PTE_SHARE ∧
    (sys_page_map (sampleMachine 0x800 (PTE_P ||| PTE_U ||| PTE_SHARE)) 0 0x800000 0x1001 0x800000
      (PTE_P ||| PTE_U ||| PTE_W ||| PTE_SHARE)).1 = -E_INVAL ∧
    (duppage (sampleMachine 0x800 (PTE_P ||| PTE_U ||| PTE_SHARE)) 0x1001 0x800).isPanic = true ∧
    mapped ((duppage (sampleMachine 0x800 (PTE_P ||| PTE_U ||| PTE_SHARE)) 0x1001
      0x800).state.envs 1) 0x800000 = false := by
  decide

/-! ## Properties of `pgfault` -/

/-- C3 (the code diverges): a write fault at an address that has no page
table.  `get_pte` answers `NO_PTE`, whose bits include the copy-on-write
bit, so the handler does not panic: it allocates the scratch page and then
faults again while copying from the unmapped page. -/
theorem pgfault_no_page_table_diverges :
    (sampleMachine 0x800 (PTE_P ||| PTE_U ||| PTE_COW)).cur.env_pgdir (PDX 0x10000000) &&& PTE_P
      = 0 ∧
    get_pte (sampleMachine 0x800 (PTE_P ||| PTE_U ||| PTE_COW)) 0x10000000 = NO_PTE ∧
    (pgfault (sampleMachine 0x800 (PTE_P ||| PTE_U ||| PTE_COW)) 0x10000000 FEC_WR).isPanic
      = false ∧
    (pgfault (sampleMachine 0x800 (PTE_P ||| PTE_U ||| PTE_COW)) 0x10000000 FEC_WR).isFault
      = true ∧
    (pgfault (sampleMachine 0x800 (PTE_P ||| PTE_U ||| PTE_COW)) 0x10000000 FEC_WR).state.trace
      = [Call.page_alloc 0 PFTEMP (PTE_W ||| PTE_U ||| PTE_P)] ∧
    (pgfault (sampleMachine 0x800 (PTE_P ||| PTE_U ||| PTE_COW)) 0x10000000
      FEC_WR).state.page_free_list = [10, 11] ∧
    maps_frame (pgfault (sampleMachine 0x800 (PTE_P ||| PTE_U ||| PTE_COW)) 0x10000000
      FEC_WR).state.cur PFTEMP (page2pa 9) (PTE_P ||| PTE_U ||| PTE_W) := by
  decide

/-- Frame addresses are page-aligned 32-bit words. -/
theorem PTE_ADDR_page2pa (n : Nat) : PTE_ADDR (page2pa n) = page2pa n := by
  unfold PTE_ADDR page2pa
  have h1 : n * PGSIZE % WORD &&& 0xFFFFFFFF = n * PGSIZE % WORD := by
    have := Nat.and_pow_two_sub_one_eq_mod (n * PGSIZE % WORD) 32
    rw [show (2:Nat) ^ 32 - 1 = 0xFFFFFFFF from rfl] at this
    rw [this]
    exact Nat.mod_eq_of_lt (Nat.mod_lt _ (by decide))
  have h2 : n * PGSIZE % WORD &&& 0xFFF = 0 := by
    have := Nat.and_pow_two_sub_one_eq_mod (n * PGSIZE % WORD) 12
    rw [show (2:Nat) ^ 12 - 1 = 0xFFF from rfl] at this
    rw [this]
    unfold PGSIZE WORD
    omega
  have h3 : n * PGSIZE % WORD &&& (0xFFFFF000 ||| 0xFFF) = n * PGSIZE % WORD := h1
  rw [Nat.and_or_distrib_left, h2, Nat.or_zero] at h3
  exact h3

theorem PTE_ADDR_alloc (n q : Nat) (hq : q &&& 0xFFFFF000 = 0) :
    PTE_ADDR (page2pa n ||| q) = page2pa n :=
  PTE_ADDR_frame _ _ (PTE_ADDR_page2pa n) hq

theorem flag_alloc (n q c : Nat) (hc : 0xFFFFF000 &&& c = 0) :
    (page2pa n ||| q) &&& c = q &&& c :=
  flag_frame _ _ _ (PTE_ADDR_page2pa n) hc

theorem PGNUM_ROUNDDOWN (a : Nat) : PGNUM (ROUNDDOWN a PGSIZE) = PGNUM a := by
  unfold PGNUM ROUNDDOWN PGSIZE; omega

theorem PDX_ROUNDDOWN (a : Nat) : PDX (ROUNDDOWN a PGSIZE) = PDX a := by
  unfold PDX ROUNDDOWN PGSIZE PTSIZE; omega

theorem ROUNDDOWN_mod (a : Nat) : ROUNDDOWN a PGSIZE % PGSIZE = 0 := by
  unfold ROUNDDOWN PGSIZE; omega

theorem ROUNDDOWN_le (a : Nat) : ROUNDDOWN a PGSIZE ≤ a := by
  unfold ROUNDDOWN; omega

/-- When the allocation call does not fail, its checks all passed and it
left `page_alloc_post`. -/
theorem sys_page_alloc_ok (s : Machine) (a va perm : Nat)
    (h : 0 ≤ (sys_page_alloc s a va perm).1) :
    ∃ i f rest, envid2env s a true = some i ∧ va < UTOP ∧ va % PGSIZE = 0 ∧
      perm &&& PTE_SYSCALL = perm ∧ s.page_free_list = f :: rest ∧
      sys_page_alloc s a va perm = (0, page_alloc_post s i a va perm f rest) := by
  unfold sys_page_alloc at h ⊢
  simp only [envid2env_log] at h ⊢
  cases hi : envid2env s a true with
  | none => simp [hi, E_BAD_ENV] at h
  | some i =>
    simp only [hi] at h ⊢
    by_cases c1 : UTOP ≤ va ∨ va % PGSIZE ≠ 0
    · simp [c1, E_INVAL] at h
    · by_cases c2 : perm &&& PTE_SYSCALL ≠ perm
      · simp [c1, c2, E_INVAL] at h
      · cases hf : s.page_free_list with
        | nil =>
          have : (s.log (Call.page_alloc a va perm)).page_free_list = [] := hf
          simp [c1, c2, this, E_NO_MEM] at h
        | cons f rest =>
          have hf2 : (s.log (Call.page_alloc a va perm)).page_free_list = f :: rest := hf
          refine ⟨i, f, rest, rfl, by omega, by omega, by simpa using c2, rfl, ?_⟩
          simp only [c1, c2, if_false, hf2]
          rfl

/-- When all its checks pass the allocation call succeeds. -/
theorem sys_page_alloc_eq (s : Machine) (a va perm i f : Nat) (rest : List Nat)
    (hi : envid2env s a true = some i) (h1 : va < UTOP) (h2 : va % PGSIZE = 0)
    (h3 : perm &&& PTE_SYSCALL = perm) (h4 : s.page_free_list = f :: rest) :
    sys_page_alloc s a va perm = (0, page_alloc_post s i a va perm f rest) := by
  unfold sys_page_alloc
  simp only [envid2env_log, hi]
  have c1 : ¬ (UTOP ≤ va ∨ va % PGSIZE ≠ 0) := by omega
  have c2 : ¬ (perm &&& PTE_SYSCALL ≠ perm) := by simpa using h3
  have hf2 : (s.log (Call.page_alloc a va perm)).page_free_list = f :: rest := h4
  simp only [c1, c2, if_false, hf2]
  rfl

/-- A page other than the inserted one that is mapped after an insertion was
mapped before it, with the same entry. -/
theorem page_insert_mapped_other (e : Env) (va p va2 : Nat) (hne : PGNUM va2 ≠ PGNUM va)
    (hm : mapped (page_insert e va p) va2 = true) :
    mapped e va2 = true ∧
      (page_insert e va p).env_pgtab (PGNUM va2) = e.env_pgtab (PGNUM va2) := by
  unfold page_insert at hm ⊢
  by_cases hd : e.env_pgdir (PDX va) &&& PTE_P ≠ 0
  · rw [if_pos hd] at hm ⊢
    simp only [mapped, upd, hne, if_false] at hm ⊢
    exact ⟨hm, trivial⟩
  · rw [if_neg hd] at hm ⊢
    simp only [mapped, hne, if_false, PDX_PGNUM] at hm ⊢
    by_cases hs : PDX va2 = PDX va
    · simp [hs] at hm
    · simp only [hs, if_false, upd] at hm ⊢
      exact ⟨hm, trivial⟩

/-- A page other than the inserted one that was mapped before an insertion
is mapped after it, with the same entry. -/
theorem page_insert_keeps_mapped (e : Env) (va p va2 : Nat) (hne : PGNUM va2 ≠ PGNUM va)
    (hm : mapped e va2 = true) :
    mapped (page_insert e va p) va2 = true ∧
      (page_insert e va p).env_pgtab (PGNUM va2) = e.env_pgtab (PGNUM va2) := by
  unfold page_insert
  by_cases hd : e.env_pgdir (PDX va) &&& PTE_P ≠ 0
  · rw [if_pos hd]
    simp only [mapped, upd, hne, if_false] at hm ⊢
    exact ⟨hm, trivial⟩
  · rw [if_neg hd]
    have hx : PDX va2 ≠ PDX va := by
      intro h
      simp only [mapped, Bool.and_eq_true, decide_eq_true_eq] at hm
      rw [h] at hm
      exact hd hm.1
    simp only [mapped, hne, if_false, PDX_PGNUM, hx, upd] at hm ⊢
    exact ⟨hm, trivial⟩

theorem memcpy_ok (s s2 : Machine) (dst src n : Nat) (h : memcpy s dst src n = some s2) :
    user_readable s.cur src = true ∧ user_writable s.cur dst = true ∧
    s2 = { s with
            phys := fun f off =>
              if f = PTE_ADDR (s.cur.env_pgtab (PGNUM dst)) ∧ off < n then
                s.phys (PTE_ADDR (s.cur.env_pgtab (PGNUM src))) off
              else s.phys f off } := by
  unfold memcpy at h
  split at h
  · rename_i hc
    exact ⟨hc.1, hc.2, (Option.some.inj h).symm⟩
  · simp at h

theorem get_pte_of_mapped (s : Machine) (va : Nat) (h : mapped s.cur va = true) :
    get_pte s va = s.cur.env_pgtab (PGNUM va) := by
  simp only [mapped, Bool.and_eq_true, decide_eq_true_eq] at h
  unfold get_pte
  rw [if_pos h.1]

theorem mapped_ROUNDDOWN (e : Env) (a : Nat) :
    mapped e (ROUNDDOWN a PGSIZE) = mapped e a := by
  simp only [mapped, PGNUM_ROUNDDOWN, PDX_ROUNDDOWN]

/-- The sample machines satisfy the allocator's contract. -/
theorem sampleMachine_fresh (pn flags : Nat) (hf : flags &&& 0xFFFFF000 = 0) :
    frames_fresh (sampleMachine pn flags) := by
  refine ⟨(by decide : [page2pa 9, page2pa 10, page2pa 11].Nodup), ?_⟩
  intro n hn i va hm
  have hn2 : n = 9 ∨ n = 10 ∨ n = 11 := by simpa [sampleMachine] using hn
  by_cases h1 : i = 1
  · subst h1
    exact absurd hm (by simp [sampleMachine, upd, childEnv, env0, mapped])
  · by_cases h0 : i = 0
    · subst h0
      by_cases hp : PGNUM va = pn
      · have he : ((sampleMachine pn flags).envs 0).env_pgtab (PGNUM va) = 0x5000 ||| flags := by
          simp [sampleMachine, upd, parentEnv, hp]
        rw [he, PTE_ADDR_frame 0x5000 flags rfl hf]
        rcases hn2 with h | h | h <;> subst h <;> decide
      · have he : ((sampleMachine pn flags).envs 0).env_pgtab (PGNUM va) = 0 := by
          simp [sampleMachine, upd, parentEnv, hp]
        simp [mapped, he] at hm
    · exact absurd hm (by simp [sampleMachine, upd, h0, h1, env0, mapped])

/-! ## Properties of `sys_cputs` -/

theorem ROUNDUP_lt_WORD (a : Nat) : ROUNDUP a PGSIZE < WORD := by
  unfold ROUNDUP ROUNDDOWN
  have : (a + PGSIZE - 1) % WORD < WORD := Nat.mod_lt _ (by decide)
  omega

/-- The loop of `sys_cputs`, started at `va` with `k` acceptable pages
followed by an offending one below the bound, examines exactly these `k + 1`
pages and ends with the caller destroyed. -/
theorem Kern.sys_cputs_loop_stops (end_va : Nat) (hend : end_va ≤ WORD) (s : Machine) (k : Nat) :
    ∀ (va fuel : Nat) (seen : List Nat), k < fuel → va + k * PGSIZE < end_va →
      Kern.cputs_violation s.cur (va + k * PGSIZE) = true →
      (∀ j, j < k → Kern.cputs_violation s.cur (va + j * PGSIZE) = false) →
      Kern.sys_cputs_loop end_va fuel va s seen =
        some (Kern.KOutcome.noreturn
          (Kern.env_free (Kern.cprintf s ConsoleEvent.memory_error) s.curenv),
          seen ++ (List.range (k + 1)).map (fun j => va + j * PGSIZE)) := by
  induction k with
  | zero =>
    intro va fuel seen hfuel hlt hbad _
    obtain ⟨n, rfl⟩ : ∃ n, fuel = n + 1 := ⟨fuel - 1, by omega⟩
    simp only [Nat.zero_mul, Nat.add_zero] at hlt hbad
    have hl : (List.range 1).map (fun j => va + j * PGSIZE) = [va] := by
      simp [List.range_succ]
    rw [hl]
    simp [Kern.sys_cputs_loop, hlt, hbad, Kern.env_destroy, Kern.cprintf]
  | succ k ih =>
    intro va fuel seen hfuel hlt hbad hok
    obtain ⟨n, rfl⟩ : ∃ n, fuel = n + 1 := ⟨fuel - 1, by omega⟩
    have hva : va < end_va := by
      have : 0 ≤ (k + 1) * PGSIZE := Nat.zero_le _
      omega
    have h0 : Kern.cputs_violation s.cur va = false := by
      have := hok 0 (Nat.succ_pos k)
      simpa using this
    have hstep : (va + PGSIZE) % WORD = va + PGSIZE := by
      apply Nat.mod_eq_of_lt
      have : PGSIZE ≤ (k + 1) * PGSIZE := Nat.le_mul_of_pos_left _ (Nat.succ_pos k)
      omega
    have hshift : ∀ j, va + PGSIZE + j * PGSIZE = va + (j + 1) * PGSIZE := by
      intro j; rw [Nat.succ_mul]; omega
    have := ih (va + PGSIZE) n (seen ++ [va]) (by omega)
      (by rw [hshift]; exact hlt) (by rw [hshift]; exact hbad)
      (by intro j hj; rw [hshift]; exact hok (j + 1) (by omega))
    rw [Kern.sys_cputs_loop, if_pos hva, h0]
    simp only [Bool.false_eq_true, if_false]
    have hlist : (seen ++ [va]) ++ (List.range (k + 1)).map (fun j => va + PGSIZE + j * PGSIZE)
        = seen ++ (List.range (k + 1 + 1)).map (fun j => va + j * PGSIZE) := by
      rw [List.range_succ_eq_map (k + 1), List.map_cons, List.map_map, List.append_assoc]
      have hf : ((fun j => va + j * PGSIZE) ∘ Nat.succ)
          = (fun j => va + PGSIZE + j * PGSIZE) := by
        funext j
        simp only [Function.comp]
        exact (hshift j).symm
      rw [hf]
      simp
    rw [hstep, this, hlist]

/-- Among the page-aligned addresses from `r` on, an offending one below `e`
has a first one. -/
theorem first_violation (P : Nat → Bool) (r e va : Nat) (hr : r % 4096 = 0) (h1 : r ≤ va)
    (h2 : va < e) (h3 : va % 4096 = 0) (hbad : P va = true) :
    ∃ k, r + k * 4096 ≤ va ∧ r + k * 4096 < e ∧ P (r + k * 4096) = true ∧
      ∀ j, j < k → P (r + j * 4096) = false := by
  have hex : ∃ k, r + k * 4096 ≤ va ∧ P (r + k * 4096) = true :=
    ⟨(va - r) / 4096, by omega, by
      have : r + (va - r) / 4096 * 4096 = va := by omega
      rw [this]; exact hbad⟩
  classical
  obtain ⟨hk1, hk2⟩ := Nat.find_spec hex
  refine ⟨Nat.find hex, hk1, by omega, hk2, ?_⟩
  intro j hj
  have hn := Nat.find_min hex hj
  cases hv : P (r + j * 4096) with
  | false => rfl
  | true =>
    exfalso
    apply hn
    refine ⟨?_, hv⟩
    have : j < Nat.find hex := hj
    omega

/-- Within the range the loop of `sys_cputs` walks, as the code computes it
in 32-bit arithmetic: when a page of that range fails the validation test,
the call destroys the calling environment at the first such page, does not
return to it, examines no further page, and never prints the buffer; the
only console output is the fixed memory-error line. -/
theorem Kern.sys_cputs_violation_no_output (s : Machine) (str len va : Nat)
    (h1 : ROUNDDOWN str PGSIZE ≤ va) (h2 : va < ROUNDUP ((str + len) % WORD) PGSIZE)
    (h3 : va % PGSIZE = 0) (hbad : Kern.cputs_violation s.cur va = true) :
    ∃ k, ROUNDDOWN str PGSIZE + k * PGSIZE ≤ va ∧
      Kern.cputs_violation s.cur (ROUNDDOWN str PGSIZE + k * PGSIZE) = true ∧
      (∀ j, j < k → Kern.cputs_violation s.cur (ROUNDDOWN str PGSIZE + j * PGSIZE) = false) ∧
      ∀ fuel, k < fuel →
        ∃ s1, Kern.sys_cputs fuel s str len =
            some (Kern.KOutcome.noreturn s1,
              (List.range (k + 1)).map (fun j => ROUNDDOWN str PGSIZE + j * PGSIZE)) ∧
          s1.console = s.console ++ [ConsoleEvent.memory_error] ∧
          (s1.envs s.curenv).env_status = ENV_FREE ∧
          ∀ a b, ConsoleEvent.puts a b ∈ s1.console → ConsoleEvent.puts a b ∈ s.console := by
  obtain ⟨k, hle, hlt, hkbad, hmin⟩ := first_violation (Kern.cputs_violation s.cur)
    (ROUNDDOWN str PGSIZE) (ROUNDUP ((str + len) % WORD) PGSIZE) va
    (ROUNDDOWN_mod str) h1 h2 h3 hbad
  refine ⟨k, hle, hkbad, hmin, ?_⟩
  intro fuel hfuel
  have hloop := Kern.sys_cputs_loop_stops (ROUNDUP ((str + len) % WORD) PGSIZE)
    (Nat.le_of_lt (ROUNDUP_lt_WORD _)) s k (ROUNDDOWN str PGSIZE) fuel []
    hfuel hlt hkbad hmin
  refine ⟨Kern.env_free (Kern.cprintf s ConsoleEvent.memory_error) s.curenv, ?_, rfl, ?_, ?_⟩
  · unfold Kern.sys_cputs
    simp only [hloop, List.nil_append]
  · simp [Kern.env_free]
  · intro a b hmem
    have hc : (Kern.env_free (Kern.cprintf s ConsoleEvent.memory_error) s.curenv).console
        = s.console ++ [ConsoleEvent.memory_error] := rfl
    rw [hc] at hmem
    simpa using hmem

theorem Kern.sys_cputs_violation_no_output_witness :
    ROUNDDOWN 0x800FF0 PGSIZE ≤ 0x801000 ∧
    0x801000 < ROUNDUP ((0x800FF0 + 0x20) % WORD) PGSIZE ∧
    Kern.cputs_violation (sampleMachine 0x800 (PTE_P ||| PTE_U ||| PTE_W)).cur 0x801000 = true ∧
    ∃ k, ROUNDDOWN 0x800FF0 PGSIZE + k * PGSIZE ≤ 0x801000 ∧
      Kern.cputs_violation (sampleMachine 0x800 (PTE_P ||| PTE_U ||| PTE_W)).cur
        (ROUNDDOWN 0x800FF0 PGSIZE + k * PGSIZE) = true ∧
      (∀ j, j < k → Kern.cputs_violation (sampleMachine 0x800 (PTE_P ||| PTE_U ||| PTE_W)).cur
        (ROUNDDOWN 0x800FF0 PGSIZE + j * PGSIZE) = false) ∧
      ∀ fuel, k < fuel →
        ∃ s1, Kern.sys_cputs fuel (sampleMachine 0x800 (PTE_P ||| PTE_U ||| PTE_W)) 0x800FF0 0x20 =
            some (Kern.KOutcome.noreturn s1,
              (List.range (k + 1)).map (fun j => ROUNDDOWN 0x800FF0 PGSIZE + j * PGSIZE)) ∧
          s1.console = (sampleMachine 0x800 (PTE_P ||| PTE_U ||| PTE_W)).console ++
            [ConsoleEvent.memory_error] ∧
          (s1.envs (sampleMachine 0x800 (PTE_P ||| PTE_U ||| PTE_W)).curenv).env_status
            = ENV_FREE ∧
          ∀ a b, ConsoleEvent.puts a b ∈ s1.console →
            ConsoleEvent.puts a b ∈ (sampleMachine 0x800 (PTE_P ||| PTE_U ||| PTE_W)).console :=
  ⟨by decide, by decide, by decide,
   Kern.sys_cputs_violation_no_output (sampleMachine 0x800 (PTE_P ||| PTE_U ||| PTE_W))
     0x800FF0 0x20 0x801000 (by decide) (by decide) (by decide) (by decide)⟩

/-- C7 (the code diverges): a 16-byte buffer at 0xFFFFF001.  Every byte of
the buffer lies in the page at 0xFFFFF000, which fails the validation test
of `sys_cputs` in the sample environment; but the loop bound wraps to 0, the
loop examines no page, the caller is not destroyed (it is still running and
the call returns to it) and the buffer is printed. -/
theorem Kern.sys_cputs_prints_invalid_buffer :
    (∀ a, 0xFFFFF001 ≤ a → a < 0xFFFFF001 + 0x10 → ROUNDDOWN a PGSIZE = 0xFFFFF000) ∧
    0xFFFFF001 + 0x10 ≤ WORD ∧
    Kern.cputs_violation sampleW.cur 0xFFFFF000 = true ∧
    ∀ fuel, 0 < fuel →
      (Kern.sys_cputs fuel sampleW 0xFFFFF001 0x10).map
        (fun r => (r.1.ret, r.2, r.1.state.console,
          (r.1.state.envs sampleW.curenv).env_status)) =
        some (some 0, [], [ConsoleEvent.puts 0xFFFFF001 0x10], ENV_RUNNING) := by
  refine ⟨?_, by decide, by decide, ?_⟩
  · intro a h1 h2
    unfold ROUNDDOWN PGSIZE
    omega
  · intro fuel hfuel
    obtain ⟨n, rfl⟩ : ∃ n, fuel = n + 1 := ⟨fuel - 1, by omega⟩
    rfl

/-- C8 (the code diverges): a 16-byte buffer at 0xFFFFF001.  The buffer lies
in the page at 0xFFFFF000, for which the caller has no user mapping, but
`ROUNDUP` wraps to 0, the loop bound is below the start, no page is examined
and the buffer is printed. -/
theorem Kern.sys_cputs_wrap_skips_validation :
    (0xFFFFF001 + 0x10) % WORD = 0xFFFFF011 ∧
    ROUNDDOWN 0xFFFFF001 PGSIZE = 0xFFFFF000 ∧
    ROUNDUP ((0xFFFFF001 + 0x10) % WORD) PGSIZE = 0 ∧
    Kern.cputs_violation (sampleMachine 0x800 (PTE_P ||| PTE_U ||| PTE_W)).cur 0xFFFFF000 = true ∧
    ∀ fuel, 0 < fuel →
      (Kern.sys_cputs fuel (sampleMachine 0x800 (PTE_P ||| PTE_U ||| PTE_W)) 0xFFFFF001 0x10).map
        (fun r => (r.2, r.1.ret, r.1.state.console)) =
        some ([], some 0, [ConsoleEvent.puts 0xFFFFF001 0x10]) := by
  refine ⟨by decide, by decide, by decide, by decide, ?_⟩
  intro fuel hfuel
  obtain ⟨n, rfl⟩ : ∃ n, fuel = n + 1 := ⟨fuel - 1, by omega⟩
  rfl

/-- C9 (the code diverges): one byte at 0x800000, whose page-table entry has
the user bit set and the present bit clear.  The test reads only `PTE_U`, so
the page passes, the caller is not destroyed and the buffer is printed. -/
theorem Kern.sys_cputs_accepts_not_present :
    Kern.pgdir_walk (sampleMachine 0x800 PTE_U).cur 0x800000 = some (0x5000 ||| PTE_U) ∧
    (0x5000 ||| PTE_U) &&& PTE_P = 0 ∧
    (0x5000 ||| PTE_U) &&& PTE_U ≠ 0 ∧
    ∀ fuel, 1 < fuel →
      (Kern.sys_cputs fuel (sampleMachine 0x800 PTE_U) 0x800000 1).map
        (fun r => (r.2, r.1.ret, r.1.state.console,
          (r.1.state.envs 0).env_status)) =
        some ([0x800000], some 0, [ConsoleEvent.puts 0x800000 1], ENV_RUNNING) := by
  refine ⟨by decide, by decide, by decide, ?_⟩
  intro fuel hfuel
  obtain ⟨n, rfl⟩ : ∃ n, fuel = n + 2 := ⟨fuel - 2, by omega⟩
  rfl

/-! ## Properties of the dispatcher -/

/-- C10 (the code diverges): `SYS_env_destroy` on an id that names no
environment.  `sys_env_destroy` answers `-E_BAD_ENV`, but `syscall` drops
that value and returns 0 although nothing was destroyed. -/
theorem Kern.syscall_env_destroy_drops_error :
    envid2env (Kern.cprintf (sampleMachine 0x800 (PTE_P ||| PTE_U ||| PTE_W))
      (ConsoleEvent.syscallno SYS_env_destroy)) 0x2002 true = none ∧
    (Kern.sys_env_destroy (Kern.cprintf (sampleMachine 0x800 (PTE_P ||| PTE_U ||| PTE_W))
      (ConsoleEvent.syscallno SYS_env_destroy)) 0x2002).ret = some (-E_BAD_ENV) ∧
    ∀ fuel, Kern.syscall fuel (sampleMachine 0x800 (PTE_P ||| PTE_U ||| PTE_W))
        SYS_env_destroy 0x2002 0 0 0 0 =
      some (Kern.KOutcome.returned 0
        (Kern.cprintf (sampleMachine 0x800 (PTE_P ||| PTE_U ||| PTE_W))
          (ConsoleEvent.syscallno SYS_env_destroy))) := by
  refine ⟨by decide, by decide, ?_⟩
  intro fuel
  rfl

/-! ## The loop of `fork` -/

theorem pgaddr_mod (pn : Nat) : pn * PGSIZE % WORD % PGSIZE = 0 := by
  unfold PGSIZE WORD; omega

theorem get_pte_present (s : Machine) (va : Nat)
    (h : ¬ (get_pte s va = NO_PTE ∨ get_pte s va &&& PTE_P = 0)) :
    mapped s.cur va = true ∧ get_pte s va = s.cur.env_pgtab (PGNUM va) := by
  have h1 : get_pte s va ≠ NO_PTE := fun e => h (Or.inl e)
  have h2 : get_pte s va &&& PTE_P ≠ 0 := fun e => h (Or.inr e)
  unfold get_pte at h1 h2 ⊢
  by_cases hd : s.cur.env_pgdir (PDX va) &&& PTE_P ≠ 0
  · rw [if_pos hd] at h1 h2 ⊢
    exact ⟨by simp [mapped, hd, h2], rfl⟩
  · rw [if_neg hd] at h1
    exact absurd rfl h1

/-- In the copy-on-write branch, once the mapping into the target has been
accepted the re-mapping of the caller's own page is accepted too. -/
theorem remap_self_ok (s : Machine) (j child va perm perm2 : Nat)
    (hm : mapped s.cur va = true) (h1 : va < UTOP) (h2 : va % PGSIZE = 0)
    (hq : perm &&& PTE_P ≠ 0) (hw : perm2 &&& PTE_W = 0) :
    sys_page_map (page_map_post s s.curenv j 0 va child va perm) 0 va 0 va perm2 =
      (0, page_map_post (page_map_post s s.curenv j 0 va child va perm)
        s.curenv s.curenv 0 va 0 va perm2) := by
  refine sys_page_map_eq _ 0 va 0 va perm2 s.curenv s.curenv (envid2env_zero _ _)
    (envid2env_zero _ _) h1 h2 h1 h2 ?_ (fun h => h.1 hw)
  by_cases hjc : j = s.curenv
  · subst hjc
    simp only [page_map_post, upd_same]
    exact mapped_page_insert _ _ _ (by rw [flag_insert _ _ PTE_P rfl]; exact hq)
  · have : (page_map_post s s.curenv j 0 va child va perm).envs s.curenv = s.envs s.curenv := by
      simp only [page_map_post]
      exact upd_other _ _ _ _ (fun h => hjc h.symm)
    rw [this]; exact hm

theorem ite_fst_zero {α β : Type} (x : α) (a b : β) :
    (if ((0 : Int), x).1 < 0 then a else b) = b :=
  if_neg (lt_irrefl _)

/-- The body of `duppage` with its local variables written out. -/
theorem duppage_def (s : Machine) (envid pn : Nat) :
    duppage s envid pn =
      if get_pte s (pn * PGSIZE % WORD) = NO_PTE ∨ get_pte s (pn * PGSIZE % WORD) &&& PTE_P = 0
      then Outcome.returned 0 s
      else if get_pte s (pn * PGSIZE % WORD) &&& PTE_SHARE ≠ 0 then
        if (sys_page_map s 0 (pn * PGSIZE % WORD) envid (pn * PGSIZE % WORD)
            (PTE_P ||| PTE_U ||| PTE_W ||| PTE_SHARE)).1 < 0
        then Outcome.panicked (sys_page_map s 0 (pn * PGSIZE % WORD) envid (pn * PGSIZE % WORD)
            (PTE_P ||| PTE_U ||| PTE_W ||| PTE_SHARE)).2
        else Outcome.returned 0 (sys_page_map s 0 (pn * PGSIZE % WORD) envid (pn * PGSIZE % WORD)
            (PTE_P ||| PTE_U ||| PTE_W ||| PTE_SHARE)).2
      else if get_pte s (pn * PGSIZE % WORD) &&& PTE_W ≠ 0 ∨
          get_pte s (pn * PGSIZE % WORD) &&& PTE_COW ≠ 0 then
        if (sys_page_map s 0 (pn * PGSIZE % WORD) envid (pn * PGSIZE % WORD)
            (PTE_U ||| PTE_COW ||| PTE_P)).1 < 0
        then Outcome.panicked (sys_page_map s 0 (pn * PGSIZE % WORD) envid (pn * PGSIZE % WORD)
            (PTE_U ||| PTE_COW ||| PTE_P)).2
        else
          if (sys_page_map (sys_page_map s 0 (pn * PGSIZE % WORD) envid (pn * PGSIZE % WORD)
              (PTE_U ||| PTE_COW ||| PTE_P)).2 0 (pn * PGSIZE % WORD) 0 (pn * PGSIZE % WORD)
              (PTE_U ||| PTE_COW ||| PTE_P)).1 < 0
          then Outcome.panicked (sys_page_map (sys_page_map s 0 (pn * PGSIZE % WORD) envid
              (pn * PGSIZE % WORD) (PTE_U ||| PTE_COW ||| PTE_P)).2 0 (pn * PGSIZE % WORD) 0
              (pn * PGSIZE % WORD) (PTE_U ||| PTE_COW ||| PTE_P)).2
          else Outcome.returned 0 (sys_page_map (sys_page_map s 0 (pn * PGSIZE % WORD) envid
              (pn * PGSIZE % WORD) (PTE_U ||| PTE_COW ||| PTE_P)).2 0 (pn * PGSIZE % WORD) 0
              (pn * PGSIZE % WORD) (PTE_U ||| PTE_COW ||| PTE_P)).2
      else
        if (sys_page_map s 0 (pn * PGSIZE % WORD) envid (pn * PGSIZE % WORD)
            (PTE_U ||| PTE_P)).1 < 0
        then Outcome.panicked (sys_page_map s 0 (pn * PGSIZE % WORD) envid (pn * PGSIZE % WORD)
            (PTE_U ||| PTE_P)).2
        else Outcome.returned 0 (sys_page_map s 0 (pn * PGSIZE % WORD) envid (pn * PGSIZE % WORD)
            (PTE_U ||| PTE_P)).2 := rfl

/-- What `duppage` leaves when it returns: either nothing was mapped, or the
target environment exists and the state is `dup_post`. -/
theorem duppage_returned (s : Machine) (child pn : Nat) (r : Int) (s1 : Machine)
    (h : duppage s child pn = Outcome.returned r s1) :
    r = 0 ∧ (s1 = s ∨ ∃ j, envid2env s child true = some j ∧
      mapped s.cur (pn * PGSIZE % WORD) = true ∧ pn * PGSIZE % WORD < UTOP ∧
      s1 = dup_post s j child (pn * PGSIZE % WORD)) := by
  rw [duppage_def] at h
  by_cases c0 : get_pte s (pn * PGSIZE % WORD) = NO_PTE ∨
      get_pte s (pn * PGSIZE % WORD) &&& PTE_P = 0
  · rw [if_pos c0] at h
    injection h with hr hs
    exact ⟨hr.symm, Or.inl hs.symm⟩
  · obtain ⟨hm, -⟩ := get_pte_present s _ c0
    rw [if_neg c0] at h
    by_cases c1 : get_pte s (pn * PGSIZE % WORD) &&& PTE_SHARE ≠ 0
    · rw [if_pos c1] at h
      split at h
      · exact Outcome.noConfusion h
      · rename_i hge
        obtain ⟨i, j, hi, hj, h1, -, -, -, -, -, heq⟩ := sys_page_map_ok _ _ _ _ _ _
          (Int.not_lt.mp hge)
        have hic : i = s.curenv := by
          rw [envid2env_zero] at hi; exact (Option.some.inj hi).symm
        subst hic
        rw [heq] at h
        injection h with hr hs
        refine ⟨hr.symm, Or.inr ⟨j, hj, hm, h1, ?_⟩⟩
        unfold dup_post
        rw [if_neg c0, if_pos c1]
        exact hs.symm
    · rw [if_neg c1] at h
      by_cases c2 : get_pte s (pn * PGSIZE % WORD) &&& PTE_W ≠ 0 ∨
          get_pte s (pn * PGSIZE % WORD) &&& PTE_COW ≠ 0
      · rw [if_pos c2] at h
        split at h
        · exact Outcome.noConfusion h
        · rename_i hge
          obtain ⟨i, j, hi, hj, h1, h2, -, -, -, -, heq⟩ := sys_page_map_ok _ _ _ _ _ _
            (Int.not_lt.mp hge)
          have hic : i = s.curenv := by
            rw [envid2env_zero] at hi; exact (Option.some.inj hi).symm
          subst hic
          rw [heq] at h
          rw [remap_self_ok s j child _ _ _ hm h1 h2 (by decide) (by decide)] at h
          rw [ite_fst_zero] at h
          injection h with hr hs
          refine ⟨hr.symm, Or.inr ⟨j, hj, hm, h1, ?_⟩⟩
          unfold dup_post
          rw [if_neg c0, if_neg c1, if_pos c2]
          exact hs.symm
      · rw [if_neg c2] at h
        split at h
        · exact Outcome.noConfusion h
        · rename_i hge
          obtain ⟨i, j, hi, hj, h1, -, -, -, -, -, heq⟩ := sys_page_map_ok _ _ _ _ _ _
            (Int.not_lt.mp hge)
          have hic : i = s.curenv := by
            rw [envid2env_zero] at hi; exact (Option.some.inj hi).symm
          subst hic
          rw [heq] at h
          injection h with hr hs
          refine ⟨hr.symm, Or.inr ⟨j, hj, hm, h1, ?_⟩⟩
          unfold dup_post
          rw [if_neg c0, if_neg c1, if_neg c2]
          exact hs.symm

/-- `duppage` returns 0 and leaves `dup_post` when the target environment
exists, the page lies below `UTOP`, and a shared page is writable. -/
theorem duppage_eq (s : Machine) (child pn j : Nat)
    (hj : envid2env s child true = some j) (hU : pn * PGSIZE % WORD < UTOP)
    (hsh : get_pte s (pn * PGSIZE % WORD) &&& PTE_SHARE ≠ 0 →
      get_pte s (pn * PGSIZE % WORD) &&& PTE_W ≠ 0) :
    duppage s child pn = Outcome.returned 0 (dup_post s j child (pn * PGSIZE % WORD)) := by
  rw [duppage_def]
  unfold dup_post
  by_cases c0 : get_pte s (pn * PGSIZE % WORD) = NO_PTE ∨
      get_pte s (pn * PGSIZE % WORD) &&& PTE_P = 0
  · rw [if_pos c0, if_pos c0]
  · obtain ⟨hm, hpte⟩ := get_pte_present s _ c0
    have hal := pgaddr_mod pn
    rw [if_neg c0, if_neg c0]
    by_cases c1 : get_pte s (pn * PGSIZE % WORD) &&& PTE_SHARE ≠ 0
    · rw [if_pos c1, if_pos c1]
      rw [sys_page_map_eq s 0 _ child _ _ s.curenv j (envid2env_zero _ _) hj hU hal hU hal hm
        (fun h => (hsh c1) (by rw [hpte]; exact h.2))]
      rw [ite_fst_zero]
    · rw [if_neg c1, if_neg c1]
      by_cases c2 : get_pte s (pn * PGSIZE % WORD) &&& PTE_W ≠ 0 ∨
          get_pte s (pn * PGSIZE % WORD) &&& PTE_COW ≠ 0
      · rw [if_pos c2, if_pos c2]
        rw [sys_page_map_eq s 0 _ child _ _ s.curenv j (envid2env_zero _ _) hj hU hal hU hal hm
          (fun h => h.1 (by decide))]
        rw [ite_fst_zero]
        rw [remap_self_ok s j child _ _ _ hm hU hal (by decide) (by decide)]
        rw [ite_fst_zero]
      · rw [if_neg c2, if_neg c2]
        rw [sys_page_map_eq s 0 _ child _ _ s.curenv j (envid2env_zero _ _) hj hU hal hU hal hm
          (fun h => h.1 (by decide))]
        rw [ite_fst_zero]

/-- Anything that every returning `duppage` preserves, the whole loop
preserves when it returns. -/
theorem fork_loop_preserves (child : Nat) (R : Machine → Machine → Prop)
    (hrefl : ∀ s, R s s) (htrans : ∀ a b c, R a b → R b c → R a c)
    (hstep : ∀ s pn r s1, duppage s child pn = Outcome.returned r s1 → R s s1) :
    ∀ (n va : Nat) (s : Machine) (r : Int) (s1 : Machine), UXSTACKTOP - PGSIZE - va ≤ n →
      fork_loop child va s = Outcome.returned r s1 → R s s1 := by
  intro n
  induction n with
  | zero =>
    intro va s r s1 hn h
    rw [fork_loop, dif_neg (by omega)] at h
    injection h with _ hs
    rw [← hs]; exact hrefl s
  | succ n ih =>
    intro va s r s1 hn h
    rw [fork_loop] at h
    by_cases hlt : va < UXSTACKTOP - PGSIZE
    · rw [dif_pos hlt] at h
      cases hd : duppage s child (va / PGSIZE) with
      | returned r0 s0 =>
        rw [hd] at h
        simp only [] at h
        have hdec : UXSTACKTOP - PGSIZE - (va + PGSIZE) % WORD ≤ n := by
          simp only [UXSTACKTOP, PGSIZE, WORD] at hlt hn ⊢
          omega
        exact htrans _ _ _ (hstep _ _ _ _ hd) (ih _ _ _ _ hdec h)
      | panicked s0 => rw [hd] at h; exact Outcome.noConfusion h
      | faulted s0 => rw [hd] at h; exact Outcome.noConfusion h
    · rw [dif_neg hlt] at h
      injection h with _ hs
      rw [← hs]; exact hrefl s

/-- The loop returns, with the invariant established at its bound, when
every `duppage` it runs returns and advances the invariant by one page. -/
theorem fork_loop_total (child : Nat) (I : Nat → Machine → Prop)
    (hstep : ∀ va s, va < UXSTACKTOP - PGSIZE → va % PGSIZE = 0 → I va s →
      ∃ s1, duppage s child (va / PGSIZE) = Outcome.returned 0 s1 ∧ I (va + PGSIZE) s1) :
    ∀ (n va : Nat) (s : Machine), va + n * PGSIZE = UXSTACKTOP - PGSIZE → I va s →
      ∃ s1, fork_loop child va s = Outcome.returned 0 s1 ∧ I (UXSTACKTOP - PGSIZE) s1 := by
  intro n
  induction n with
  | zero =>
    intro va s hn hI
    have hva : va = UXSTACKTOP - PGSIZE := by omega
    refine ⟨s, ?_, hva ▸ hI⟩
    rw [fork_loop, dif_neg (by omega)]
  | succ n ih =>
    intro va s hn hI
    have hlt : va < UXSTACKTOP - PGSIZE := by
      rw [Nat.succ_mul] at hn
      simp only [UXSTACKTOP, PGSIZE] at hn ⊢
      omega
    have hal : va % PGSIZE = 0 := by
      simp only [UXSTACKTOP, PGSIZE] at hn ⊢
      omega
    obtain ⟨s1, hd, hI1⟩ := hstep va s hlt hal hI
    have hw : (va + PGSIZE) % WORD = va + PGSIZE := by
      apply Nat.mod_eq_of_lt
      simp only [UXSTACKTOP, PGSIZE, WORD] at hlt ⊢
      omega
    obtain ⟨s2, hl, hI2⟩ := ih (va + PGSIZE) s1 (by rw [Nat.succ_mul] at hn; omega) hI1
    refine ⟨s2, ?_, hI2⟩
    rw [fork_loop, dif_pos hlt, hd]
    simp only []
    rw [hw]; exact hl

/-! ## The invariant "never writable and copy-on-write" -/

theorem Keeps.refl (s : Machine) : Keeps s s := ⟨rfl, fun _ => ⟨rfl, id⟩⟩

theorem noWC_page_insert (e : Env) (va p : Nat) (h : noWC e)
    (hp : ¬ (p &&& PTE_W ≠ 0 ∧ p &&& PTE_COW ≠ 0)) : noWC (page_insert e va p) := by
  intro pn
  unfold page_insert
  by_cases hd : e.env_pgdir (PDX va) &&& PTE_P ≠ 0
  · rw [if_pos hd]
    by_cases hpn : pn = PGNUM va
    · simp only [upd, hpn, if_true]; exact hp
    · simp only [upd, hpn, if_false]; exact h pn
  · rw [if_neg hd]
    by_cases hpn : pn = PGNUM va
    · simp only [hpn, if_true]; exact hp
    · simp only [hpn, if_false]
      by_cases hx : PDX (pn * PGSIZE) = PDX va
      · simp only [hx, if_true]; exact fun h => h.1 rfl
      · simp only [hx, if_false]; exact h pn

theorem noWC_of_perm (p q : Nat) (hq : ¬ (q &&& PTE_W ≠ 0 ∧ q &&& PTE_COW ≠ 0)) :
    ¬ ((PTE_ADDR p ||| q) &&& PTE_W ≠ 0 ∧ (PTE_ADDR p ||| q) &&& PTE_COW ≠ 0) := by
  rw [flag_insert p q PTE_W rfl, flag_insert p q PTE_COW rfl]; exact hq

theorem noWC_of_perm_alloc (n q : Nat) (hq : ¬ (q &&& PTE_W ≠ 0 ∧ q &&& PTE_COW ≠ 0)) :
    ¬ ((page2pa n ||| q) &&& PTE_W ≠ 0 ∧ (page2pa n ||| q) &&& PTE_COW ≠ 0) := by
  rw [flag_alloc n q PTE_W rfl, flag_alloc n q PTE_COW rfl]; exact hq

theorem Keeps.trans (a b c : Machine) (h1 : Keeps a b) (h2 : Keeps b c) : Keeps a c :=
  ⟨h2.1.trans h1.1, fun i =>
    ⟨((h2.2 i).1).trans ((h1.2 i).1), fun h => (h2.2 i).2 ((h1.2 i).2 h)⟩⟩

theorem Keeps_log (s : Machine) (c : Call) : Keeps s (s.log c) := ⟨rfl, fun _ => ⟨rfl, id⟩⟩

theorem Keeps_page_map_post (s : Machine) (i j a sva b dva perm : Nat)
    (hq : ¬ (perm &&& PTE_W ≠ 0 ∧ perm &&& PTE_COW ≠ 0)) :
    Keeps s (page_map_post s i j a sva b dva perm) := by
  refine ⟨rfl, fun k => ?_⟩
  by_cases hk : k = j
  · subst hk
    simp only [page_map_post, upd_same, page_insert_env_id, true_and]
    exact fun h => noWC_page_insert _ _ _ h (noWC_of_perm _ _ hq)
  · simp only [page_map_post, upd_other _ _ _ _ hk, true_and]
    exact id

theorem Keeps_page_alloc_post (s : Machine) (i a va perm f : Nat) (rest : List Nat)
    (hq : ¬ (perm &&& PTE_W ≠ 0 ∧ perm &&& PTE_COW ≠ 0)) :
    Keeps s (page_alloc_post s i a va perm f rest) := by
  refine ⟨rfl, fun k => ?_⟩
  by_cases hk : k = i
  · subst hk
    simp only [page_alloc_post, upd_same, page_insert_env_id, true_and]
    exact fun h => noWC_page_insert _ _ _ h (noWC_of_perm_alloc _ _ hq)
  · simp only [page_alloc_post, upd_other _ _ _ _ hk, true_and]
    exact id

/-- Whatever `sys_page_map` answers, it leaves either the logged state or
`page_map_post`. -/
theorem sys_page_map_cases (s : Machine) (a sva b dva perm : Nat) :
    (sys_page_map s a sva b dva perm).2 = s.log (Call.page_map a sva b dva perm) ∨
    ∃ i j, envid2env s a true = some i ∧ envid2env s b true = some j ∧
      mapped (s.envs i) sva = true ∧
      (sys_page_map s a sva b dva perm).2 = page_map_post s i j a sva b dva perm := by
  by_cases h : 0 ≤ (sys_page_map s a sva b dva perm).1
  · obtain ⟨i, j, hi, hj, -, -, -, -, hm, -, heq⟩ := sys_page_map_ok _ _ _ _ _ _ h
    exact Or.inr ⟨i, j, hi, hj, hm, by rw [heq]⟩
  · left
    unfold sys_page_map at h ⊢
    simp only [envid2env_log] at h ⊢
    cases hi : envid2env s a true with
    | none => simp [hi]
    | some i =>
      cases hj : envid2env s b true with
      | none => simp [hi, hj]
      | some j =>
        simp only [hi, hj] at h ⊢
        split
        · rfl
        · split
          · rfl
          · split
            · rfl
            · rename_i c1 c2 c3
              simp only [c1, c2, c3, if_false] at h
              exact absurd (le_refl (0 : Int)) h

/-- Whatever `sys_page_alloc` answers, it leaves either the logged state or
`page_alloc_post`. -/
theorem sys_page_alloc_cases (s : Machine) (a va perm : Nat) :
    (sys_page_alloc s a va perm).2 = s.log (Call.page_alloc a va perm) ∨
    ∃ i f rest, envid2env s a true = some i ∧ s.page_free_list = f :: rest ∧
      va < UTOP ∧ va % PGSIZE = 0 ∧
      (sys_page_alloc s a va perm).2 = page_alloc_post s i a va perm f rest := by
  by_cases h : 0 ≤ (sys_page_alloc s a va perm).1
  · obtain ⟨i, f, rest, hi, h1, h2, -, hf, heq⟩ := sys_page_alloc_ok _ _ _ _ h
    exact Or.inr ⟨i, f, rest, hi, hf, h1, h2, by rw [heq]⟩
  · left
    unfold sys_page_alloc at h ⊢
    simp only [envid2env_log] at h ⊢
    cases hi : envid2env s a true with
    | none => simp [hi]
    | some i =>
      simp only [hi] at h ⊢
      split
      · rfl
      · split
        · rfl
        · rename_i c1 c2
          cases hf : (s.log (Call.page_alloc a va perm)).page_free_list with
          | nil => rfl
          | cons f rest =>
            simp only [c1, c2, if_false, hf] at h
            exact absurd (le_refl (0 : Int)) h

theorem Keeps_sys_page_map (s : Machine) (a sva b dva perm : Nat)
    (hq : ¬ (perm &&& PTE_W ≠ 0 ∧ perm &&& PTE_COW ≠ 0)) :
    Keeps s (sys_page_map s a sva b dva perm).2 := by
  rcases sys_page_map_cases s a sva b dva perm with h | ⟨i, j, -, -, -, h⟩
  · rw [h]; exact Keeps_log _ _
  · rw [h]; exact Keeps_page_map_post _ _ _ _ _ _ _ _ hq

theorem Keeps_sys_page_alloc (s : Machine) (a va perm : Nat)
    (hq : ¬ (perm &&& PTE_W ≠ 0 ∧ perm &&& PTE_COW ≠ 0)) :
    Keeps s (sys_page_alloc s a va perm).2 := by
  rcases sys_page_alloc_cases s a va perm with h | ⟨i, f, rest, -, -, -, -, h⟩
  · rw [h]; exact Keeps_log _ _
  · rw [h]; exact Keeps_page_alloc_post _ _ _ _ _ _ _ hq

theorem Keeps_sys_env_set_pgfault_upcall (s : Machine) (a entry : Nat) :
    Keeps s (sys_env_set_pgfault_upcall s a entry).2 := by
  unfold sys_env_set_pgfault_upcall
  simp only [envid2env_log]
  cases hi : envid2env s a true with
  | none => exact Keeps_log _ _
  | some i =>
    refine ⟨rfl, fun k => ?_⟩
    by_cases hk : k = i
    · subst hk; simp only [upd_same]; exact ⟨rfl, id⟩
    · simp only [upd_other _ _ _ _ hk]; exact ⟨rfl, id⟩

theorem Keeps_sys_env_set_status (s : Machine) (a st : Nat) :
    Keeps s (sys_env_set_status s a st).2 := by
  unfold sys_env_set_status
  simp only [envid2env_log]
  split
  · exact Keeps_log _ _
  · cases hi : envid2env s a true with
    | none => exact Keeps_log _ _
    | some i =>
      refine ⟨rfl, fun k => ?_⟩
      by_cases hk : k = i
      · subst hk; simp only [upd_same]; exact ⟨rfl, id⟩
      · simp only [upd_other _ _ _ _ hk]; exact ⟨rfl, id⟩

theorem Keeps_dup_post (s : Machine) (j child va : Nat) : Keeps s (dup_post s j child va) := by
  unfold dup_post
  split
  · exact Keeps.refl s
  · split
    · exact Keeps_page_map_post _ _ _ _ _ _ _ _ (by decide)
    · split
      · exact Keeps.trans _ _ _ (Keeps_page_map_post _ _ _ _ _ _ _ _ (by decide))
          (Keeps_page_map_post _ _ _ _ _ _ _ _ (by decide))
      · exact Keeps_page_map_post _ _ _ _ _ _ _ _ (by decide)

theorem Keeps_duppage (s : Machine) (child pn : Nat) (r : Int) (s1 : Machine)
    (h : duppage s child pn = Outcome.returned r s1) : Keeps s s1 := by
  rcases (duppage_returned s child pn r s1 h).2 with h1 | ⟨j, -, -, -, h1⟩
  · rw [h1]; exact Keeps.refl s
  · rw [h1]; exact Keeps_dup_post _ _ _ _

theorem Keeps_fork_loop (child va : Nat) (s : Machine) (r : Int) (s1 : Machine)
    (h : fork_loop child va s = Outcome.returned r s1) : Keeps s s1 :=
  fork_loop_preserves child Keeps Keeps.refl Keeps.trans (Keeps_duppage · child)
    (UXSTACKTOP - PGSIZE - va) va s r s1 (le_refl _) h

theorem mkenvid_pos (old i : Nat) : 0 < mkenvid old i := by
  unfold mkenvid NENV WORD
  simp only []
  split <;> omega

theorem mkenvid_mod (old i : Nat) (hi : i < NENV) : mkenvid old i % NENV = i := by
  unfold mkenvid
  unfold NENV at hi ⊢
  unfold WORD
  simp only []
  split <;> omega

theorem find_cases (l : List Nat) (p : Nat → Bool) :
    (l.find? p = none ∧ ∀ x, x ∈ l → p x = false) ∨
    ∃ i, i ∈ l ∧ p i = true ∧ l.find? p = some i := by
  cases hf : l.find? p with
  | none =>
    left
    refine ⟨rfl, fun x hx => ?_⟩
    have := List.find?_eq_none.mp hf x hx
    simpa using this
  | some i => exact Or.inr ⟨i, List.mem_of_find?_eq_some hf, List.find?_some hf, rfl⟩

/-- Whatever `sys_exofork` answers: either no slot is free and nothing but
the log changes, or the first free slot becomes the new environment, whose
positive id is returned. -/
theorem sys_exofork_cases (s : Machine) :
    (sys_exofork s = (-E_NO_FREE_ENV, s.log Call.exofork) ∧
      ∀ i, i < NENV → (s.envs i).env_status ≠ ENV_FREE) ∨
    ∃ i, i < NENV ∧ (s.envs i).env_status = ENV_FREE ∧
      sys_exofork s = (Int.ofNat (mkenvid (s.envs i).env_id i), exofork_post s i) := by
  rcases find_cases (List.range NENV)
      (fun i => decide (((s.log Call.exofork).envs i).env_status = ENV_FREE)) with
    ⟨hf, hall⟩ | ⟨i, hi, hp, hf⟩
  · left
    refine ⟨?_, ?_⟩
    · unfold sys_exofork
      simp only [hf]
    · intro i hi
      have := hall i (List.mem_range.mpr hi)
      simpa [Machine.log] using this
  · right
    refine ⟨i, List.mem_range.mp hi, by simpa [Machine.log] using hp, ?_⟩
    unfold sys_exofork
    simp only [hf]
    rfl

theorem noWC_empty (e : Env) (h : e.env_pgtab = fun _ => 0) : noWC e := by
  intro pn
  rw [h]
  show ¬ ((0 : Nat) &&& PTE_W ≠ 0 ∧ (0 : Nat) &&& PTE_COW ≠ 0)
  exact fun h => h.1 (Nat.zero_and _)

/-- The duplication keeps the running slot and the invariant of every slot;
when it succeeds the new environment sits in the slot its id names and has
no entry at all. -/
theorem sys_exofork_noWC (s : Machine) :
    (sys_exofork s).2.curenv = s.curenv ∧
    (∀ k, noWC (s.envs k) → noWC ((sys_exofork s).2.envs k)) ∧
    (0 < (sys_exofork s).1 →
      ((sys_exofork s).2.envs ((sys_exofork s).1.toNat % NENV)).env_id = (sys_exofork s).1.toNat ∧
      noWC ((sys_exofork s).2.envs ((sys_exofork s).1.toNat % NENV))) := by
  rcases sys_exofork_cases s with ⟨h, -⟩ | ⟨i, hi, -, h⟩
  · rw [h]
    refine ⟨rfl, fun k hk => hk, fun hpos => ?_⟩
    exact absurd hpos (show ¬ (0 : Int) < -E_NO_FREE_ENV by decide)
  · rw [h]
    refine ⟨rfl, fun k hk => ?_, fun _ => ?_⟩
    · by_cases hki : k = i
      · subst hki
        simp only [exofork_post, upd_same]
        exact noWC_empty _ rfl
      · simp only [exofork_post, upd_other _ _ _ _ hki]
        exact hk
    · have ht : (Int.ofNat (mkenvid (s.envs i).env_id i)).toNat = mkenvid (s.envs i).env_id i :=
        rfl
      show ((exofork_post s i).envs ((Int.ofNat (mkenvid (s.envs i).env_id i)).toNat % NENV)).env_id
          = (Int.ofNat (mkenvid (s.envs i).env_id i)).toNat ∧
        noWC ((exofork_post s i).envs ((Int.ofNat (mkenvid (s.envs i).env_id i)).toNat % NENV))
      rw [ht, mkenvid_mod _ _ hi]
      simp only [exofork_post, upd_same]
      exact ⟨trivial, noWC_empty _ rfl⟩

theorem Keeps_setEnv_handler (s : Machine) (v : Nat) :
    Keeps s (s.setEnv s.curenv { s.cur with pgfault_handler := v }) := by
  refine ⟨rfl, fun k => ?_⟩
  have he : ∀ e : Env, noWC e → noWC { e with pgfault_handler := v } := fun e h => h
  by_cases hk : k = s.curenv
  · subst hk
    show ((upd s.envs s.curenv { s.cur with pgfault_handler := v }) s.curenv).env_id = _ ∧
      (_ → noWC ((upd s.envs s.curenv { s.cur with pgfault_handler := v }) s.curenv))
    rw [upd_same]; exact ⟨rfl, he _⟩
  · show ((upd s.envs s.curenv { s.cur with pgfault_handler := v }) k).env_id = _ ∧
      (_ → noWC ((upd s.envs s.curenv { s.cur with pgfault_handler := v }) k))
    rw [upd_other _ _ _ _ hk]; exact ⟨rfl, id⟩

theorem Keeps_set_pgfault_handler (s : Machine) (h u : Nat) (r : Int) (s0 : Machine)
    (hr : set_pgfault_handler s h u = Outcome.returned r s0) : Keeps s s0 := by
  unfold set_pgfault_handler at hr
  split at hr
  · simp only [] at hr
    split at hr
    · exact Outcome.noConfusion hr
    · split at hr
      · exact Outcome.noConfusion hr
      · injection hr with _ hs
        rw [← hs]
        exact Keeps.trans _ _ _ (Keeps.trans _ _ _ (Keeps_sys_page_alloc s _ _ _ (by decide))
          (Keeps_sys_env_set_pgfault_upcall _ _ _)) (Keeps_setEnv_handler _ _)
  · injection hr with _ hs
    rw [← hs]
    exact Keeps_setEnv_handler _ _

/-- The loop only ever returns 0. -/
theorem fork_loop_ret_zero (child : Nat) :
    ∀ (n va : Nat) (s : Machine) (r : Int) (s1 : Machine),
      UXSTACKTOP - PGSIZE - va ≤ n → fork_loop child va s = Outcome.returned r s1 → r = 0 := by
  intro n
  induction n with
  | zero =>
    intro va s r s1 hle h
    rw [fork_loop, dif_neg (by omega)] at h
    injection h with hr _
    exact hr.symm
  | succ n ih =>
    intro va s r s1 hle h
    rw [fork_loop] at h
    by_cases hlt : va < UXSTACKTOP - PGSIZE
    · rw [dif_pos hlt] at h
      cases hd : duppage s child (va / PGSIZE) with
      | returned r1 s2 =>
        rw [hd] at h
        simp only [] at h
        refine ih _ _ _ _ ?_ h
        simp only [UXSTACKTOP, PGSIZE, WORD] at hlt hle ⊢
        omega
      | panicked s2 => rw [hd] at h; exact Outcome.noConfusion h
      | faulted s2 => rw [hd] at h; exact Outcome.noConfusion h
    · rw [dif_neg hlt] at h
      injection h with hr _
      exact hr.symm

/-- The parent branch of `fork`: when it returns, the loop returned and the
three calls after it were made. -/
theorem fork_after_returned (c : Int) (hc : 0 < c) (s : Machine) (r : Int) (s4 : Machine)
    (h : fork_after c s = Outcome.returned r s4) :
    r = c ∧ ∃ s1, fork_loop c.toNat 0 s = Outcome.returned 0 s1 ∧
      s4 = (sys_env_set_status
        (sys_env_set_pgfault_upcall
          (sys_page_alloc s1 c.toNat (UXSTACKTOP - PGSIZE) (PTE_P ||| PTE_U ||| PTE_W)).2 c.toNat
          (((sys_page_alloc s1 c.toNat (UXSTACKTOP - PGSIZE) (PTE_P ||| PTE_U ||| PTE_W)).2.envs
            (sys_page_alloc s1 c.toNat (UXSTACKTOP - PGSIZE)
              (PTE_P ||| PTE_U ||| PTE_W)).2.cur.thisenv).env_pgfault_upcall)).2
        c.toNat ENV_RUNNABLE).2 := by
  unfold fork_after at h
  rw [if_pos hc] at h
  cases hl : fork_loop c.toNat 0 s with
  | returned r0 s1 =>
    rw [hl] at h
    simp only [] at h
    injection h with hr hs
    have hr0 : r0 = 0 := fork_loop_ret_zero c.toNat _ 0 s r0 s1 (le_refl _) hl
    subst hr0
    exact ⟨hr.symm, s1, rfl, hs.symm⟩
  | panicked s1 => rw [hl] at h; exact Outcome.noConfusion h
  | faulted s1 => rw [hl] at h; exact Outcome.noConfusion h

theorem Keeps_fork_after (c : Int) (hc : 0 < c) (s : Machine) (r : Int) (s4 : Machine)
    (h : fork_after c s = Outcome.returned r s4) : Keeps s s4 := by
  obtain ⟨-, s1, hl, hs⟩ := fork_after_returned c hc s r s4 h
  rw [hs]
  exact Keeps.trans _ _ _ (Keeps.trans _ _ _ (Keeps.trans _ _ _ (Keeps_fork_loop _ _ _ _ _ hl)
    (Keeps_sys_page_alloc _ _ _ _ (by decide))) (Keeps_sys_env_set_pgfault_upcall _ _ _))
    (Keeps_sys_env_set_status _ _ _)

theorem Keeps_pgfault (s : Machine) (A err : Nat) : Keeps s (pgfault s A err).state := by
  unfold pgfault
  simp only []
  split
  · exact Keeps.refl s
  · have h1 := Keeps_sys_page_alloc s 0 PFTEMP (PTE_W ||| PTE_U ||| PTE_P) (by decide)
    cases hm : memcpy (sys_page_alloc s 0 PFTEMP (PTE_W ||| PTE_U ||| PTE_P)).2 PFTEMP
        (ROUNDDOWN A PGSIZE) PGSIZE with
    | none => exact h1
    | some s2 =>
      obtain ⟨-, -, hs2⟩ := memcpy_ok _ _ _ _ _ hm
      have h2 : Keeps (sys_page_alloc s 0 PFTEMP (PTE_W ||| PTE_U ||| PTE_P)).2 s2 := by
        rw [hs2]; exact ⟨rfl, fun _ => ⟨rfl, id⟩⟩
      exact Keeps.trans _ _ _ (Keeps.trans _ _ _ h1 h2)
        (Keeps_sys_page_map _ _ _ _ _ _ (by decide))

/-- C5: if no entry of the calling environment is both writable and
copy-on-write, then after `fork` returns a child id to the parent no entry of
the parent or of the child is both, and after any run of `pgfault` no entry
of the faulting environment (the scratch page included) is both. -/
theorem never_writable_and_cow (s : Machine) (pgfault_entry upcall_entry : Nat)
    (hinv : noWC s.cur) :
    (∀ r s1, fork s pgfault_entry upcall_entry = Outcome.returned r s1 → 0 < r →
      s1.curenv = s.curenv ∧ noWC s1.cur ∧
      (s1.envs (r.toNat % NENV)).env_id = r.toNat ∧ noWC (s1.envs (r.toNat % NENV))) ∧
    (∀ A err, (pgfault s A err).state.curenv = s.curenv ∧ noWC (pgfault s A err).state.cur) := by
  constructor
  · intro r s1 hf hr
    unfold fork at hf
    cases hh : set_pgfault_handler s pgfault_entry upcall_entry with
    | returned r0 s0 =>
      rw [hh] at hf
      simp only [] at hf
      have k0 := Keeps_set_pgfault_handler s _ _ r0 s0 hh
      obtain ⟨e1, e2, e3⟩ := sys_exofork_noWC s0
      by_cases hpos : 0 < (sys_exofork s0).1
      · have hr2 := (fork_after_returned _ hpos _ _ _ hf).1
        have k1 := Keeps_fork_after _ hpos _ _ _ hf
        obtain ⟨c1, c2⟩ := e3 hpos
        rw [hr2]
        refine ⟨?_, ?_, ?_, ?_⟩
        · rw [k1.1, e1, k0.1]
        · have : s1.cur = s1.envs s.curenv := by
            simp only [Machine.cur]; rw [k1.1, e1, k0.1]
          rw [this]
          exact (k1.2 _).2 (e2 _ ((k0.2 _).2 hinv))
        · rw [(k1.2 _).1]; exact c1
        · exact (k1.2 _).2 c2
      · unfold fork_after at hf
        rw [if_neg hpos] at hf
        injection hf with hr3 _
        rw [← hr3] at hr
        exact absurd hr hpos
    | panicked s0 => rw [hh] at hf; exact Outcome.noConfusion hf
    | faulted s0 => rw [hh] at hf; exact Outcome.noConfusion hf
  · intro A err
    have k := Keeps_pgfault s A err
    refine ⟨k.1, ?_⟩
    have : (pgfault s A err).state.cur = (pgfault s A err).state.envs s.curenv := by
      simp only [Machine.cur]; rw [k.1]
    rw [this]
    exact (k.2 _).2 hinv

theorem sampleMachine_noWC (pn flags : Nat)
    (hf : ¬ (flags &&& PTE_W ≠ 0 ∧ flags &&& PTE_COW ≠ 0)) :
    noWC (sampleMachine pn flags).cur := by
  intro k
  by_cases hk : k = pn
  · subst hk
    have he : (sampleMachine k flags).cur.env_pgtab k = 0x5000 ||| flags := by
      simp [sampleMachine, Machine.cur, upd, parentEnv]
    rw [he, flag_frame 0x5000 flags PTE_W rfl rfl, flag_frame 0x5000 flags PTE_COW rfl rfl]
    exact hf
  · have he : (sampleMachine pn flags).cur.env_pgtab k = 0 := by
      simp [sampleMachine, Machine.cur, upd, parentEnv, hk]
    rw [he]
    exact fun h => h.1 (Nat.zero_and _)

theorem never_writable_and_cow_witness :
    noWC (sampleMachine 0x800 (PTE_P ||| PTE_U ||| PTE_W)).cur ∧
    (∀ r s1, fork (sampleMachine 0x800 (PTE_P ||| PTE_U ||| PTE_W)) 0x802000 0x801000
        = Outcome.returned r s1 → 0 < r →
      s1.curenv = (sampleMachine 0x800 (PTE_P ||| PTE_U ||| PTE_W)).curenv ∧ noWC s1.cur ∧
      (s1.envs (r.toNat % NENV)).env_id = r.toNat ∧ noWC (s1.envs (r.toNat % NENV))) ∧
    (∀ A err,
      (pgfault (sampleMachine 0x800 (PTE_P ||| PTE_U ||| PTE_W)) A err).state.curenv
        = (sampleMachine 0x800 (PTE_P ||| PTE_U ||| PTE_W)).curenv ∧
      noWC (pgfault (sampleMachine 0x800 (PTE_P ||| PTE_U ||| PTE_W)) A err).state.cur) :=
  ⟨sampleMachine_noWC _ _ (by decide),
   never_writable_and_cow (sampleMachine 0x800 (PTE_P ||| PTE_U ||| PTE_W)) 0x802000 0x801000
     (sampleMachine_noWC _ _ (by decide))⟩

/-! ## The allocator's contract is kept -/

/-- A page mapped after an insertion is the inserted one or was mapped
before with the same entry. -/
theorem page_insert_mapped_cases (e : Env) (va p va2 : Nat)
    (hm : mapped (page_insert e va p) va2 = true) :
    (PGNUM va2 = PGNUM va ∧ (page_insert e va p).env_pgtab (PGNUM va2) = p) ∨
    (mapped e va2 = true ∧
      (page_insert e va p).env_pgtab (PGNUM va2) = e.env_pgtab (PGNUM va2)) := by
  by_cases hne : PGNUM va2 = PGNUM va
  · left
    refine ⟨hne, ?_⟩
    rw [hne]; exact page_insert_pgtab_self e va p
  · exact Or.inr (page_insert_mapped_other e va p va2 hne hm)

/-- The contract survives any change that adds no mapping and frees no
frame. -/
theorem frames_fresh_mono (s t : Machine) (hfree : t.page_free_list = s.page_free_list)
    (hmap : ∀ k va, mapped (t.envs k) va = true → mapped (s.envs k) va = true ∧
      (t.envs k).env_pgtab (PGNUM va) = (s.envs k).env_pgtab (PGNUM va))
    (h : frames_fresh s) : frames_fresh t := by
  refine ⟨by rw [hfree]; exact h.1, ?_⟩
  intro n hn k va hm
  obtain ⟨hm0, he⟩ := hmap k va hm
  rw [he]
  exact h.2 n (by rw [← hfree]; exact hn) k va hm0

theorem frames_fresh_page_map_post (s : Machine) (i j a sva b dva perm : Nat)
    (hq : perm &&& 0xFFFFF000 = 0) (hsrc : mapped (s.envs i) sva = true)
    (h : frames_fresh s) : frames_fresh (page_map_post s i j a sva b dva perm) := by
  refine ⟨h.1, ?_⟩
  intro n hn k va hm
  have hn0 : n ∈ s.page_free_list := hn
  by_cases hk : k = j
  · subst hk
    simp only [page_map_post, upd_same] at hm ⊢
    rcases page_insert_mapped_cases _ _ _ _ hm with ⟨-, he⟩ | ⟨hm0, he⟩
    · rw [he, PTE_ADDR_insert _ _ hq]
      exact h.2 n hn0 i sva hsrc
    · rw [he]
      exact h.2 n hn0 k va hm0
  · simp only [page_map_post, upd_other _ _ _ _ hk] at hm ⊢
    exact h.2 n hn0 k va hm

theorem frames_fresh_page_alloc_post (s : Machine) (i a va perm f : Nat) (rest : List Nat)
    (hq : perm &&& 0xFFFFF000 = 0) (hfl : s.page_free_list = f :: rest)
    (h : frames_fresh s) : frames_fresh (page_alloc_post s i a va perm f rest) := by
  have hnd : (page2pa f :: rest.map page2pa).Nodup := by
    have := h.1
    rw [hfl, List.map_cons] at this
    exact this
  refine ⟨(List.nodup_cons.mp hnd).2, ?_⟩
  intro n hn k va2 hm
  have hn1 : n ∈ rest := hn
  have hn0 : n ∈ s.page_free_list := by rw [hfl]; exact List.mem_cons_of_mem _ hn1
  by_cases hk : k = i
  · subst hk
    simp only [page_alloc_post, upd_same] at hm ⊢
    rcases page_insert_mapped_cases _ _ _ _ hm with ⟨-, he⟩ | ⟨hm0, he⟩
    · rw [he, PTE_ADDR_alloc _ _ hq]
      intro heq
      have hmem : page2pa n ∈ rest.map page2pa := List.mem_map_of_mem page2pa hn1
      rw [← heq] at hmem
      exact (List.nodup_cons.mp hnd).1 hmem
    · rw [he]
      exact h.2 n hn0 k va2 hm0
  · simp only [page_alloc_post, upd_other _ _ _ _ hk] at hm ⊢
    exact h.2 n hn0 k va2 hm

/-! ## The fault handler's private copy -/

/-- The handler's run on a write fault at `A`, on a present, user,
copy-on-write page below `UTOP`, with a free frame `f` at hand: it returns,
the page of `A` is mapped writable over `f` (holding the old bytes unless the
page is the scratch page itself), nothing else in memory or in other
environments changes, and the allocator's contract still holds. -/
theorem pgfault_run (s : Machine) (A err f : Nat) (rest : List Nat)
    (hw : err &&& FEC_WR ≠ 0)
    (hm : mapped s.cur A = true)
    (hcow : s.cur.env_pgtab (PGNUM A) &&& PTE_COW ≠ 0)
    (hu : s.cur.env_pgtab (PGNUM A) &&& PTE_U ≠ 0)
    (hU : ROUNDDOWN A PGSIZE < UTOP)
    (hfl : s.page_free_list = f :: rest)
    (hfresh : frames_fresh s) :
    ∃ s3, pgfault s A err = Outcome.returned 0 s3 ∧
      s3.curenv = s.curenv ∧
      (∀ i, i ≠ s.curenv → s3.envs i = s.envs i) ∧
      maps_frame s3.cur (ROUNDDOWN A PGSIZE) (page2pa f) (PTE_W ||| PTE_P ||| PTE_U) ∧
      page2pa f ≠ PTE_ADDR (s.cur.env_pgtab (PGNUM A)) ∧
      get_pte s3 A &&& PTE_COW = 0 ∧
      (ROUNDDOWN A PGSIZE ≠ PFTEMP → ∀ off, off < PGSIZE →
        s3.phys (page2pa f) off = s.phys (PTE_ADDR (s.cur.env_pgtab (PGNUM A))) off) ∧
      (∀ fr off, fr ≠ page2pa f → s3.phys fr off = s.phys fr off) ∧
      s3.page_free_list = rest ∧
      frames_fresh s3 ∧
      (pgfault s3 A err).isPanic = true := by
  have hne : ROUNDDOWN A PGSIZE ≠ PFTEMP → PGNUM (ROUNDDOWN A PGSIZE) ≠ PGNUM PFTEMP := by
    intro hA h
    apply hA
    have h0 : ROUNDDOWN A PGSIZE % 4096 = 0 := ROUNDDOWN_mod A
    have h9 : ROUNDDOWN A PGSIZE / 4096 = 0x7FF000 / 4096 := h
    show ROUNDDOWN A PGSIZE = 0x7FF000
    omega
  have hmr : mapped s.cur (ROUNDDOWN A PGSIZE) = true := by rw [mapped_ROUNDDOWN]; exact hm
  have hpte : get_pte s A = s.cur.env_pgtab (PGNUM A) := get_pte_of_mapped s A hm
  -- the allocation
  have heq1 := sys_page_alloc_eq s 0 PFTEMP (PTE_W ||| PTE_U ||| PTE_P) s.curenv f rest
    (envid2env_zero _ _) (by decide) (by decide) (by decide) hfl
  have hcur1 : (page_alloc_post s s.curenv 0 PFTEMP (PTE_W ||| PTE_U ||| PTE_P) f rest).cur
      = page_insert s.cur PFTEMP (page2pa f ||| (PTE_W ||| PTE_U ||| PTE_P)) := by
    simp [Machine.cur, page_alloc_post]
  have hdst : (page_alloc_post s s.curenv 0 PFTEMP (PTE_W ||| PTE_U ||| PTE_P) f rest).cur.env_pgtab
      (PGNUM PFTEMP) = page2pa f ||| (PTE_W ||| PTE_U ||| PTE_P) := by
    rw [hcur1, page_insert_pgtab_self]
  have hsrc : ROUNDDOWN A PGSIZE ≠ PFTEMP →
      (page_alloc_post s s.curenv 0 PFTEMP (PTE_W ||| PTE_U ||| PTE_P) f rest).cur.env_pgtab
      (PGNUM (ROUNDDOWN A PGSIZE)) = s.cur.env_pgtab (PGNUM A) := by
    intro hA
    rw [hcur1, (page_insert_keeps_mapped s.cur PFTEMP _ (ROUNDDOWN A PGSIZE) (hne hA) hmr).2,
      PGNUM_ROUNDDOWN]
  have hmd : mapped (page_alloc_post s s.curenv 0 PFTEMP (PTE_W ||| PTE_U ||| PTE_P) f rest).cur
      PFTEMP = true := by
    rw [hcur1]
    exact mapped_page_insert _ _ _ (by rw [flag_alloc _ _ PTE_P rfl]; decide)
  have hfd : PTE_ADDR ((page_alloc_post s s.curenv 0 PFTEMP (PTE_W ||| PTE_U ||| PTE_P) f
      rest).cur.env_pgtab (PGNUM PFTEMP)) = page2pa f := by
    rw [hdst]; exact PTE_ADDR_alloc _ _ rfl
  -- the copy
  have hread : user_readable (page_alloc_post s s.curenv 0 PFTEMP (PTE_W ||| PTE_U ||| PTE_P) f
      rest).cur (ROUNDDOWN A PGSIZE) = true := by
    simp only [user_readable, Bool.and_eq_true, decide_eq_true_eq]
    by_cases hA : ROUNDDOWN A PGSIZE = PFTEMP
    · rw [hA]
      refine ⟨hmd, ?_⟩
      rw [hdst, flag_alloc _ _ PTE_U rfl]; decide
    · refine ⟨?_, ?_⟩
      · rw [hcur1]
        exact (page_insert_keeps_mapped s.cur PFTEMP _ (ROUNDDOWN A PGSIZE) (hne hA) hmr).1
      · rw [hsrc hA]; exact hu
  have hwrite : user_writable (page_alloc_post s s.curenv 0 PFTEMP (PTE_W ||| PTE_U ||| PTE_P) f
      rest).cur PFTEMP = true := by
    simp only [user_writable, user_readable, Bool.and_eq_true, decide_eq_true_eq]
    refine ⟨⟨hmd, ?_⟩, ?_⟩
    · rw [hdst, flag_alloc _ _ PTE_U rfl]; decide
    · rw [hdst, flag_alloc _ _ PTE_W rfl]; decide
  obtain ⟨s2, heq2⟩ : ∃ s2, memcpy (page_alloc_post s s.curenv 0 PFTEMP
      (PTE_W ||| PTE_U ||| PTE_P) f rest) PFTEMP (ROUNDDOWN A PGSIZE) PGSIZE = some s2 := by
    unfold memcpy
    rw [if_pos ⟨hread, hwrite⟩]
    exact ⟨_, rfl⟩
  obtain ⟨-, -, hs2⟩ := memcpy_ok _ _ _ _ _ heq2
  rw [hfd] at hs2
  have hc2 : s2.curenv = s.curenv := by rw [hs2]; rfl
  have he2 : s2.envs = (page_alloc_post s s.curenv 0 PFTEMP (PTE_W ||| PTE_U ||| PTE_P) f
      rest).envs := by rw [hs2]
  have hcur2 : s2.envs s.curenv
      = page_insert s.cur PFTEMP (page2pa f ||| (PTE_W ||| PTE_U ||| PTE_P)) := by
    rw [he2, ← hcur1]; rfl
  -- the mapping
  have heq3 := sys_page_map_eq s2 0 PFTEMP 0 (ROUNDDOWN A PGSIZE) (PTE_U ||| PTE_P ||| PTE_W)
    s.curenv s.curenv (by rw [envid2env_zero, hc2]) (by rw [envid2env_zero, hc2]) (by decide)
    (by decide) hU (ROUNDDOWN_mod A) (by rw [hcur2, ← hcur1]; exact hmd)
    (by
      intro h
      have := h.2
      rw [hcur2, page_insert_pgtab_self, flag_alloc _ _ PTE_W rfl] at this
      exact absurd this (by decide))
  have hent : (page_map_post s2 s.curenv s.curenv 0 PFTEMP 0 (ROUNDDOWN A PGSIZE)
      (PTE_U ||| PTE_P ||| PTE_W)).cur
      = page_insert (s2.envs s.curenv) (ROUNDDOWN A PGSIZE)
        (PTE_ADDR ((s2.envs s.curenv).env_pgtab (PGNUM PFTEMP)) ||| (PTE_U ||| PTE_P ||| PTE_W)) := by
    show upd s2.envs s.curenv _ s2.curenv = _
    rw [hc2, upd_same]
  have hfd2 : PTE_ADDR ((s2.envs s.curenv).env_pgtab (PGNUM PFTEMP)) = page2pa f := by
    rw [hcur2, page_insert_pgtab_self]; exact PTE_ADDR_alloc _ _ rfl
  have hmf : maps_frame (page_map_post s2 s.curenv s.curenv 0 PFTEMP 0 (ROUNDDOWN A PGSIZE)
      (PTE_U ||| PTE_P ||| PTE_W)).cur (ROUNDDOWN A PGSIZE) (page2pa f)
      (PTE_W ||| PTE_P ||| PTE_U) := by
    rw [hent, ← hfd2]
    exact maps_frame_insert _ _ _ _ rfl (by decide)
  have hgp : get_pte (page_map_post s2 s.curenv s.curenv 0 PFTEMP 0 (ROUNDDOWN A PGSIZE)
      (PTE_U ||| PTE_P ||| PTE_W)) A &&& PTE_COW = 0 := by
    have hm3 : mapped (page_map_post s2 s.curenv s.curenv 0 PFTEMP 0 (ROUNDDOWN A PGSIZE)
        (PTE_U ||| PTE_P ||| PTE_W)).cur A = true := by
      rw [← mapped_ROUNDDOWN]; exact hmf.1
    rw [get_pte_of_mapped _ A hm3, ← PGNUM_ROUNDDOWN, hent, page_insert_pgtab_self]
    rw [flag_insert _ _ PTE_COW rfl]
    rfl
  have hfr : page2pa f ≠ PTE_ADDR (s.cur.env_pgtab (PGNUM A)) := by
    intro h
    exact hfresh.2 f (by rw [hfl]; exact List.mem_cons_self _ _) s.curenv A hm h.symm
  have hphys : (page_map_post s2 s.curenv s.curenv 0 PFTEMP 0 (ROUNDDOWN A PGSIZE)
      (PTE_U ||| PTE_P ||| PTE_W)).phys = fun fr off =>
      if fr = page2pa f ∧ off < PGSIZE then
        (upd s.phys (page2pa f) (fun _ => 0))
          (PTE_ADDR ((page_alloc_post s s.curenv 0 PFTEMP (PTE_W ||| PTE_U ||| PTE_P) f
            rest).cur.env_pgtab (PGNUM (ROUNDDOWN A PGSIZE)))) off
      else (upd s.phys (page2pa f) (fun _ => 0)) fr off := by
    show s2.phys = _
    rw [hs2]
    rfl
  -- the allocator's contract
  have hff1 := frames_fresh_page_alloc_post s s.curenv 0 PFTEMP (PTE_W ||| PTE_U ||| PTE_P) f rest
    rfl hfl hfresh
  have hff2 : frames_fresh s2 :=
    frames_fresh_mono _ s2 (by rw [hs2]) (by rw [he2]; exact fun k va h => ⟨h, rfl⟩) hff1
  have hff3 := frames_fresh_page_map_post s2 s.curenv s.curenv 0 PFTEMP 0 (ROUNDDOWN A PGSIZE)
    (PTE_U ||| PTE_P ||| PTE_W) rfl (by rw [hcur2, ← hcur1]; exact hmd) hff2
  refine ⟨page_map_post s2 s.curenv s.curenv 0 PFTEMP 0 (ROUNDDOWN A PGSIZE)
    (PTE_U ||| PTE_P ||| PTE_W), ?_, hc2, ?_, hmf, hfr, hgp, ?_, ?_, ?_, hff3, ?_⟩
  · unfold pgfault
    simp only [heq1, heq2, heq3]
    rw [hpte]
    simp [hw, hcow]
  · intro k hk
    show upd s2.envs s.curenv _ k = _
    rw [upd_other _ _ _ _ hk, he2]
    exact upd_other _ _ _ _ hk
  · intro hA off hoff
    rw [hphys]
    simp only [hoff, and_self, if_true]
    rw [hsrc hA, upd_other _ _ _ _ (fun h => hfr h.symm)]
  · intro fr off hne2
    rw [hphys]
    simp only [hne2, false_and, if_false]
    rw [upd_other _ _ _ _ hne2]
  · show s2.page_free_list = rest
    rw [hs2]; rfl
  · unfold pgfault
    simp only [hgp]
    simp [Outcome.isPanic]

/-- C4 (amended): for a write fault at `A` on a copy-on-write page other than
the scratch page at `PFTEMP`, with the allocation, the copy and the mapping
all succeeding, `pgfault` returns with the page of `A` mapped to the frame
just taken from the allocator, different from the original frame, with flags
exactly writable+present+user; the new frame holds the original page's
bytes; every other frame and every other environment is untouched; and the
handler's copy-on-write condition no longer holds for `A`. -/
theorem pgfault_private_copy (s s1 s2 s3 : Machine) (A err : Nat)
    (hw : err &&& FEC_WR ≠ 0)
    (hcow : get_pte s A &&& PTE_COW ≠ 0)
    (hA : ROUNDDOWN A PGSIZE ≠ PFTEMP)
    (hfresh : frames_fresh s)
    (h1 : sys_page_alloc s 0 PFTEMP (PTE_W ||| PTE_U ||| PTE_P) = (0, s1))
    (h2 : memcpy s1 PFTEMP (ROUNDDOWN A PGSIZE) PGSIZE = some s2)
    (h3 : sys_page_map s2 0 PFTEMP 0 (ROUNDDOWN A PGSIZE) (PTE_U ||| PTE_P ||| PTE_W) = (0, s3)) :
    pgfault s A err = Outcome.returned 0 s3 ∧
    ∃ f rest, s.page_free_list = f :: rest ∧
      mapped s.cur A = true ∧
      maps_frame s3.cur (ROUNDDOWN A PGSIZE) (page2pa f) (PTE_W ||| PTE_P ||| PTE_U) ∧
      page2pa f ≠ PTE_ADDR (get_pte s A) ∧
      get_pte s3 A &&& PTE_COW = 0 ∧
      (∀ off, off < PGSIZE → s3.phys (page2pa f) off = s.phys (PTE_ADDR (get_pte s A)) off) ∧
      (∀ fr off, fr ≠ page2pa f → s3.phys fr off = s.phys fr off) ∧
      s3.curenv = s.curenv ∧
      (∀ i, i ≠ s.curenv → s3.envs i = s.envs i) ∧
      (pgfault s3 A err).isPanic = true := by
  -- what the three successful calls imply
  obtain ⟨i, f, rest, hi, -, -, -, hfl, heq1⟩ :=
    sys_page_alloc_ok s 0 PFTEMP (PTE_W ||| PTE_U ||| PTE_P) (by rw [h1])
  have hic : i = s.curenv := by
    rw [envid2env_zero] at hi; exact (Option.some.inj hi).symm
  subst hic
  have hs1 : s1 = page_alloc_post s s.curenv 0 PFTEMP (PTE_W ||| PTE_U ||| PTE_P) f rest := by
    rw [heq1] at h1; exact (Prod.mk.inj h1).2.symm
  obtain ⟨hr, -, -⟩ := memcpy_ok _ _ _ _ _ h2
  obtain ⟨-, -, -, -, -, -, hr1, -, -, -, -⟩ :=
    sys_page_map_ok s2 0 PFTEMP 0 (ROUNDDOWN A PGSIZE) (PTE_U ||| PTE_P ||| PTE_W) (by rw [h3])
  have hcur1 : s1.cur = page_insert s.cur PFTEMP (page2pa f ||| (PTE_W ||| PTE_U ||| PTE_P)) := by
    rw [hs1]; simp [Machine.cur, page_alloc_post]
  have hne : PGNUM (ROUNDDOWN A PGSIZE) ≠ PGNUM PFTEMP := by
    intro h
    apply hA
    have h0 : ROUNDDOWN A PGSIZE % 4096 = 0 := ROUNDDOWN_mod A
    have h9 : ROUNDDOWN A PGSIZE / 4096 = 0x7FF000 / 4096 := h
    show ROUNDDOWN A PGSIZE = 0x7FF000
    omega
  simp only [user_readable, Bool.and_eq_true, decide_eq_true_eq] at hr
  rw [hcur1] at hr
  obtain ⟨hm0, he0⟩ := page_insert_mapped_other s.cur PFTEMP _ (ROUNDDOWN A PGSIZE) hne hr.1
  have hmA : mapped s.cur A = true := by rw [← mapped_ROUNDDOWN]; exact hm0
  have hpte : get_pte s A = s.cur.env_pgtab (PGNUM A) := get_pte_of_mapped s A hmA
  have hu : s.cur.env_pgtab (PGNUM A) &&& PTE_U ≠ 0 := by
    have := hr.2
    rw [he0, PGNUM_ROUNDDOWN] at this
    exact this
  -- the run of the handler
  obtain ⟨t3, hrun, hc, hoth, hmf, hfr, hgp, hph1, hph2, -, -, hpan⟩ :=
    pgfault_run s A err f rest hw hmA (by rw [← hpte]; exact hcow) hu hr1 hfl hfresh
  have hrun2 : pgfault s A err = Outcome.returned 0 s3 := by
    unfold pgfault
    simp only [h1, h2, h3]
    simp [hw, hcow]
  have ht : t3 = s3 := by
    rw [hrun] at hrun2
    injection hrun2
  subst ht
  rw [hpte]
  exact ⟨hrun, f, rest, hfl, hmA, hmf, hfr, hgp, hph1 hA, hph2, hc, hoth, hpan⟩

/-- C4 (as stated, refuted): a write fault on the scratch page itself, mapped
copy-on-write over frame 0x5000.  The allocation, the copy and the mapping
all succeed and the handler returns, but the allocation has already replaced
the page at `PFTEMP` by a zero-filled frame before the copy reads it, so the
new frame does not hold the original page's bytes. -/
theorem pgfault_scratch_page_loses_contents :
    FEC_WR &&& FEC_WR ≠ 0 ∧
    get_pte (sampleMachine 0x7FF (PTE_P ||| PTE_U ||| PTE_COW)) PFTEMP &&& PTE_COW ≠ 0 ∧
    (sys_page_alloc (sampleMachine 0x7FF (PTE_P ||| PTE_U ||| PTE_COW)) 0 PFTEMP
      (PTE_W ||| PTE_U ||| PTE_P)).1 = 0 ∧
    (memcpy (sys_page_alloc (sampleMachine 0x7FF (PTE_P ||| PTE_U ||| PTE_COW)) 0 PFTEMP
      (PTE_W ||| PTE_U ||| PTE_P)).2 PFTEMP (ROUNDDOWN PFTEMP PGSIZE) PGSIZE).isSome = true ∧
    (memcpy (sys_page_alloc (sampleMachine 0x7FF (PTE_P ||| PTE_U ||| PTE_COW)) 0 PFTEMP
      (PTE_W ||| PTE_U ||| PTE_P)).2 PFTEMP (ROUNDDOWN PFTEMP PGSIZE) PGSIZE).map
      (fun s2 => (sys_page_map s2 0 PFTEMP 0 (ROUNDDOWN PFTEMP PGSIZE)
        (PTE_U ||| PTE_P ||| PTE_W)).1) = some 0 ∧
    (pgfault (sampleMachine 0x7FF (PTE_P ||| PTE_U ||| PTE_COW)) PFTEMP FEC_WR).ret = some 0 ∧
    PTE_ADDR (get_pte (sampleMachine 0x7FF (PTE_P ||| PTE_U ||| PTE_COW)) PFTEMP) = 0x5000 ∧
    (sampleMachine 0x7FF (PTE_P ||| PTE_U ||| PTE_COW)).phys 0x5000 0 = 1 ∧
    PTE_ADDR (get_pte (pgfault (sampleMachine 0x7FF (PTE_P ||| PTE_U ||| PTE_COW)) PFTEMP
      FEC_WR).state PFTEMP) = page2pa 9 ∧
    (pgfault (sampleMachine 0x7FF (PTE_P ||| PTE_U ||| PTE_COW)) PFTEMP FEC_WR).state.phys
      (page2pa 9) 0 = 0 := by
  decide

theorem pgfault_private_copy_witness :
    FEC_WR &&& FEC_WR ≠ 0 ∧
    get_pte (sampleMachine 0x800 (PTE_P ||| PTE_U ||| PTE_COW)) 0x800123 &&& PTE_COW ≠ 0 ∧
    ROUNDDOWN 0x800123 PGSIZE ≠ PFTEMP ∧
    frames_fresh (sampleMachine 0x800 (PTE_P ||| PTE_U ||| PTE_COW)) ∧
    pgfault (sampleMachine 0x800 (PTE_P ||| PTE_U ||| PTE_COW)) 0x800123 FEC_WR
      = Outcome.returned 0 sampleFault3 ∧
    ∃ f rest, (sampleMachine 0x800 (PTE_P ||| PTE_U ||| PTE_COW)).page_free_list = f :: rest ∧
      mapped (sampleMachine 0x800 (PTE_P ||| PTE_U ||| PTE_COW)).cur 0x800123 = true ∧
      maps_frame sampleFault3.cur (ROUNDDOWN 0x800123 PGSIZE) (page2pa f)
        (PTE_W ||| PTE_P ||| PTE_U) ∧
      page2pa f ≠ PTE_ADDR (get_pte (sampleMachine 0x800 (PTE_P ||| PTE_U ||| PTE_COW)) 0x800123) ∧
      get_pte sampleFault3 0x800123 &&& PTE_COW = 0 ∧
      (∀ off, off < PGSIZE → sampleFault3.phys (page2pa f) off =
        (sampleMachine 0x800 (PTE_P ||| PTE_U ||| PTE_COW)).phys
          (PTE_ADDR (get_pte (sampleMachine 0x800 (PTE_P ||| PTE_U ||| PTE_COW)) 0x800123)) off) ∧
      (∀ fr off, fr ≠ page2pa f → sampleFault3.phys fr off =
        (sampleMachine 0x800 (PTE_P ||| PTE_U ||| PTE_COW)).phys fr off) ∧
      sampleFault3.curenv = (sampleMachine 0x800 (PTE_P ||| PTE_U ||| PTE_COW)).curenv ∧
      (∀ i, i ≠ (sampleMachine 0x800 (PTE_P ||| PTE_U ||| PTE_COW)).curenv →
        sampleFault3.envs i = (sampleMachine 0x800 (PTE_P ||| PTE_U ||| PTE_COW)).envs i) ∧
      (pgfault sampleFault3 0x800123 FEC_WR).isPanic = true :=
  ⟨by decide, by decide, by decide, sampleMachine_fresh _ _ rfl,
   pgfault_private_copy (sampleMachine 0x800 (PTE_P ||| PTE_U ||| PTE_COW))
     sampleFault1 sampleFault2 sampleFault3 0x800123 FEC_WR
     (by decide) (by decide) (by decide) (sampleMachine_fresh _ _ rfl)
     (sys_page_alloc_eq _ _ _ _ 0 9 [10, 11] rfl (by decide) (by decide) (by decide) rfl)
     (by unfold memcpy; rw [if_pos (by decide)]; rfl)
     (sys_page_map_eq _ _ _ _ _ _ 0 0 rfl rfl (by decide) (by decide) (by decide) (by decide)
       (by decide) (by decide))⟩


/-! ## What one `duppage` changes -/

theorem dup_post_frame (t : Machine) (j c va : Nat) :
    (dup_post t j c va).curenv = t.curenv ∧ (dup_post t j c va).phys = t.phys ∧
    (dup_post t j c va).page_free_list = t.page_free_list ∧
    (dup_post t j c va).console = t.console := by
  unfold dup_post
  split
  · exact ⟨rfl, rfl, rfl, rfl⟩
  · split
    · exact ⟨rfl, rfl, rfl, rfl⟩
    · split <;> exact ⟨rfl, rfl, rfl, rfl⟩

theorem page_map_post_ids (t : Machine) (i j a sva b dva perm k : Nat) :
    ((page_map_post t i j a sva b dva perm).envs k).env_status = (t.envs k).env_status ∧
    ((page_map_post t i j a sva b dva perm).envs k).env_id = (t.envs k).env_id ∧
    ((page_map_post t i j a sva b dva perm).envs k).env_parent_id = (t.envs k).env_parent_id := by
  by_cases hk : k = j
  · subst hk
    simp only [page_map_post, upd_same, page_insert_env_status, page_insert_env_id,
      page_insert_env_parent_id, and_self]
  · simp only [page_map_post, upd_other _ _ _ _ hk, and_self]

theorem dup_post_ids (t : Machine) (j c va k : Nat) :
    ((dup_post t j c va).envs k).env_status = (t.envs k).env_status ∧
    ((dup_post t j c va).envs k).env_id = (t.envs k).env_id ∧
    ((dup_post t j c va).envs k).env_parent_id = (t.envs k).env_parent_id := by
  unfold dup_post
  split
  · exact ⟨rfl, rfl, rfl⟩
  · split
    · exact page_map_post_ids _ _ _ _ _ _ _ _ _
    · split
      · obtain ⟨a1, a2, a3⟩ := page_map_post_ids t t.curenv j 0 va c va
          (PTE_U ||| PTE_COW ||| PTE_P) k
        obtain ⟨b1, b2, b3⟩ := page_map_post_ids
          (page_map_post t t.curenv j 0 va c va (PTE_U ||| PTE_COW ||| PTE_P))
          t.curenv t.curenv 0 va 0 va (PTE_U ||| PTE_COW ||| PTE_P) k
        exact ⟨b1.trans a1, b2.trans a2, b3.trans a3⟩
      · exact page_map_post_ids _ _ _ _ _ _ _ _ _

theorem envid2env_dup_post (t : Machine) (j c va x : Nat) (cp : Bool) :
    envid2env (dup_post t j c va) x cp = envid2env t x cp :=
  envid2env_congr t _ x cp (dup_post_frame t j c va).1 (dup_post_ids t j c va)

/-- The environments other than the caller and the target are untouched. -/
theorem dup_post_other (t : Machine) (j c va k : Nat) (hk : k ≠ j) (hkc : k ≠ t.curenv) :
    (dup_post t j c va).envs k = t.envs k := by
  unfold dup_post
  split
  · rfl
  · split
    · simp only [page_map_post, upd_other _ _ _ _ hk]
    · split
      · simp only [page_map_post, upd_other _ _ _ _ hk, upd_other _ _ _ _ hkc]
      · simp only [page_map_post, upd_other _ _ _ _ hk]

/-- The target environment either is untouched or received one entry for
the page, over the caller's frame. -/
theorem dup_post_child (t : Machine) (j c va : Nat) (hjc : j ≠ t.curenv) :
    (dup_post t j c va).envs j = t.envs j ∨
    ∃ perm, perm &&& 0xFFFFF000 = 0 ∧ mapped t.cur va = true ∧
      (dup_post t j c va).envs j =
        page_insert (t.envs j) va (PTE_ADDR (t.cur.env_pgtab (PGNUM va)) ||| perm) := by
  unfold dup_post
  split
  · exact Or.inl rfl
  · rename_i c0
    obtain ⟨hm, -⟩ := get_pte_present t va c0
    split
    · right
      refine ⟨PTE_P ||| PTE_U ||| PTE_W ||| PTE_SHARE, rfl, hm, ?_⟩
      simp only [page_map_post, upd_same]; rfl
    · split
      · right
        refine ⟨PTE_U ||| PTE_COW ||| PTE_P, rfl, hm, ?_⟩
        simp only [page_map_post, upd_other _ _ _ _ hjc, upd_same]
        rfl
      · right
        refine ⟨PTE_U ||| PTE_P, rfl, hm, ?_⟩
        simp only [page_map_post, upd_same]; rfl

/-- The caller's own tables either are untouched or have the entry of the
page replaced by the copy-on-write entry over the same frame. -/
theorem dup_post_parent (t : Machine) (j c va : Nat) (hjc : j ≠ t.curenv) :
    (dup_post t j c va).envs t.curenv = t.envs t.curenv ∨
    (mapped t.cur va = true ∧ get_pte t va &&& PTE_SHARE = 0 ∧
      (get_pte t va &&& PTE_W ≠ 0 ∨ get_pte t va &&& PTE_COW ≠ 0) ∧
      (dup_post t j c va).envs j =
        page_insert (t.envs j) va
          (PTE_ADDR (t.cur.env_pgtab (PGNUM va)) ||| (PTE_U ||| PTE_COW ||| PTE_P)) ∧
      (dup_post t j c va).envs t.curenv =
        page_insert t.cur va
          (PTE_ADDR (t.cur.env_pgtab (PGNUM va)) ||| (PTE_U ||| PTE_COW ||| PTE_P))) := by
  have hcj : t.curenv ≠ j := fun h => hjc h.symm
  unfold dup_post
  split
  · exact Or.inl rfl
  · rename_i c0
    obtain ⟨hm, -⟩ := get_pte_present t va c0
    split
    · left
      simp only [page_map_post, upd_other _ _ _ _ hcj]
    · rename_i c1
      split
      · rename_i c2
        right
        refine ⟨hm, by simpa using c1, c2, ?_, ?_⟩
        · simp only [page_map_post, upd_other _ _ _ _ hjc, upd_same]
          rfl
        · simp only [page_map_post, upd_same, upd_other _ _ _ _ hcj]
          rfl
      · left
        simp only [page_map_post, upd_other _ _ _ _ hcj]

/-- With the page table present, an insertion changes one entry only. -/
theorem page_insert_of_mapped (e : Env) (va p : Nat) (hm : mapped e va = true) :
    (page_insert e va p).env_pgdir = e.env_pgdir ∧
    ∀ pn, pn ≠ PGNUM va → (page_insert e va p).env_pgtab pn = e.env_pgtab pn := by
  simp only [mapped, Bool.and_eq_true, decide_eq_true_eq] at hm
  unfold page_insert
  rw [if_pos hm.1]
  exact ⟨rfl, fun pn hpn => upd_other _ _ _ _ hpn⟩

/-- The caller's page directory and its entries for other pages survive a
`duppage`. -/
theorem dup_post_parent_tables (t : Machine) (j c va : Nat) (hjc : j ≠ t.curenv) :
    ((dup_post t j c va).envs t.curenv).env_pgdir = t.cur.env_pgdir ∧
    ∀ pn, pn ≠ PGNUM va →
      ((dup_post t j c va).envs t.curenv).env_pgtab pn = t.cur.env_pgtab pn := by
  rcases dup_post_parent t j c va hjc with h | ⟨hm, -, -, -, h⟩
  · rw [h]; exact ⟨rfl, fun _ _ => rfl⟩
  · rw [h]; exact page_insert_of_mapped _ _ _ hm

/-- Pages the target already maps, other than the page itself, survive a
`duppage`. -/
theorem dup_post_child_keeps (t : Machine) (j c va va2 : Nat) (hjc : j ≠ t.curenv)
    (hne : PGNUM va2 ≠ PGNUM va) (hm : mapped (t.envs j) va2 = true) :
    mapped ((dup_post t j c va).envs j) va2 = true ∧
      ((dup_post t j c va).envs j).env_pgtab (PGNUM va2) = (t.envs j).env_pgtab (PGNUM va2) := by
  rcases dup_post_child t j c va hjc with h | ⟨perm, -, -, h⟩
  · rw [h]; exact ⟨hm, rfl⟩
  · rw [h]; exact page_insert_keeps_mapped _ _ _ _ hne hm

theorem frames_fresh_dup_post (t : Machine) (j c va : Nat) (h : frames_fresh t) :
    frames_fresh (dup_post t j c va) := by
  unfold dup_post
  split
  · exact h
  · rename_i c0
    obtain ⟨hm, -⟩ := get_pte_present t va c0
    split
    · exact frames_fresh_page_map_post _ _ _ _ _ _ _ _ rfl hm h
    · split
      · refine frames_fresh_page_map_post _ _ _ _ _ _ _ _ rfl ?_
          (frames_fresh_page_map_post _ _ _ _ _ _ _ _ rfl hm h)
        by_cases hjc : j = t.curenv
        · subst hjc
          simp only [page_map_post, upd_same]
          exact mapped_page_insert _ _ _ (by rw [flag_insert _ _ PTE_P rfl]; decide)
        · simp only [page_map_post, upd_other _ _ _ _ (fun h => hjc h.symm)]
          exact hm
      · exact frames_fresh_page_map_post _ _ _ _ _ _ _ _ rfl hm h

theorem get_pte_congr (t t0 : Machine) (va : Nat)
    (hd : t.cur.env_pgdir = t0.cur.env_pgdir)
    (he : t.cur.env_pgtab (PGNUM va) = t0.cur.env_pgtab (PGNUM va)) :
    get_pte t va = get_pte t0 va := by
  unfold get_pte
  rw [hd, he]

theorem mapped_congr (e e0 : Env) (va : Nat) (hd : e.env_pgdir = e0.env_pgdir)
    (he : e.env_pgtab (PGNUM va) = e0.env_pgtab (PGNUM va)) : mapped e va = mapped e0 va := by
  unfold mapped
  rw [hd, he]

theorem PGNUM_ne_of_lt (a b : Nat) (ha : a % PGSIZE = 0) (hb : b % PGSIZE = 0) (h : a < b) :
    PGNUM a ≠ PGNUM b := by
  unfold PGNUM
  unfold PGSIZE at ha hb ⊢
  omega

/-- The loop of `fork` over a caller one of whose pages, `P`, is present and
writable and not shared: every `duppage` returns, the loop returns, memory
and the free list are as before, and `P` ends copy-on-write over its old
frame in both the caller and the target. -/
theorem fork_loop_cow_page (t0 : Machine) (c j P : Nat)
    (hjc : j ≠ t0.curenv) (hj : envid2env t0 c true = some j)
    (hshare : ∀ va, va < UXSTACKTOP - PGSIZE → get_pte t0 va &&& PTE_SHARE ≠ 0 →
      get_pte t0 va &&& PTE_W ≠ 0)
    (hff : frames_fresh t0)
    (hPal : P % PGSIZE = 0) (hPb : P < UXSTACKTOP - PGSIZE)
    (hPm : mapped t0.cur P = true)
    (hPw : t0.cur.env_pgtab (PGNUM P) &&& PTE_W ≠ 0)
    (hPs : t0.cur.env_pgtab (PGNUM P) &&& PTE_SHARE = 0) :
    ∃ t1, fork_loop c 0 t0 = Outcome.returned 0 t1 ∧
      t1.curenv = t0.curenv ∧ envid2env t1 c true = some j ∧
      t1.phys = t0.phys ∧ t1.page_free_list = t0.page_free_list ∧ frames_fresh t1 ∧
      maps_frame t1.cur P (PTE_ADDR (t0.cur.env_pgtab (PGNUM P)))
        (PTE_P ||| PTE_U ||| PTE_COW) ∧
      maps_frame (t1.envs j) P (PTE_ADDR (t0.cur.env_pgtab (PGNUM P)))
        (PTE_P ||| PTE_U ||| PTE_COW) := by
  have key := fork_loop_total c
    (fun va t =>
      t.curenv = t0.curenv ∧ envid2env t c true = some j ∧
      t.cur.env_pgdir = t0.cur.env_pgdir ∧
      (∀ pn, va ≤ pn * PGSIZE → t.cur.env_pgtab pn = t0.cur.env_pgtab pn) ∧
      t.phys = t0.phys ∧ t.page_free_list = t0.page_free_list ∧ frames_fresh t ∧
      (P < va →
        maps_frame t.cur P (PTE_ADDR (t0.cur.env_pgtab (PGNUM P)))
          (PTE_P ||| PTE_U ||| PTE_COW) ∧
        maps_frame (t.envs j) P (PTE_ADDR (t0.cur.env_pgtab (PGNUM P)))
          (PTE_P ||| PTE_U ||| PTE_COW)))
    ?_ 977919 0 t0 (by decide) ⟨rfl, hj, rfl, fun _ _ => rfl, rfl, rfl, hff, fun h => absurd h (by omega)⟩
  · obtain ⟨t1, h1, hc, hj1, -, -, hp, hf, hfr, hP⟩ := key
    exact ⟨t1, h1, hc, hj1, hp, hf, hfr, (hP hPb).1, (hP hPb).2⟩
  · intro va t hlt hal ⟨hc, hjt, hd, he, hp, hf, hfr, hP⟩
    have hjct : j ≠ t.curenv := by rw [hc]; exact hjc
    have hpn : va / PGSIZE * PGSIZE % WORD = va := by
      simp only [UXSTACKTOP, PGSIZE, WORD] at hlt hal ⊢
      omega
    have hPG : PGNUM va * PGSIZE = va := by
      unfold PGNUM
      unfold PGSIZE at hal ⊢
      omega
    have hg : get_pte t va = get_pte t0 va :=
      get_pte_congr t t0 va hd (he _ (by rw [hPG]))
    have hU : va < UTOP := by
      simp only [UXSTACKTOP, PGSIZE, UTOP] at hlt ⊢
      omega
    have hdup := duppage_eq t c (va / PGSIZE) j hjt (by rw [hpn]; exact hU)
      (by rw [hpn, hg]; exact hshare va hlt)
    rw [hpn] at hdup
    refine ⟨_, hdup, ?_⟩
    obtain ⟨f1, f2, f3, -⟩ := dup_post_frame t j c va
    obtain ⟨g1, g2⟩ := dup_post_parent_tables t j c va hjct
    have hcur : (dup_post t j c va).cur = (dup_post t j c va).envs t.curenv := by
      simp only [Machine.cur]; rw [f1]
    refine ⟨f1.trans hc, by rw [envid2env_dup_post]; exact hjt, ?_, ?_, f2.trans hp, f3.trans hf,
      frames_fresh_dup_post t j c va hfr, ?_⟩
    · rw [hcur, g1]; exact hd
    · intro pn hpn2
      have hne : pn ≠ PGNUM va := by
        intro h
        rw [h, hPG] at hpn2
        unfold PGSIZE at hpn2
        omega
      rw [hcur, g2 pn hne]
      exact he pn (by omega)
    · intro hPlt
      by_cases hPva : P < va
      · obtain ⟨m1, m2⟩ := hP hPva
        have hne : PGNUM P ≠ PGNUM va := PGNUM_ne_of_lt P va hPal hal hPva
        constructor
        · have hm : mapped (dup_post t j c va).cur P = mapped t.cur P :=
            mapped_congr _ _ P (by rw [hcur, g1]) (by rw [hcur, g2 _ hne])
          refine ⟨by rw [hm]; exact m1.1, ?_, ?_⟩
          · rw [hcur, g2 _ hne]; exact m1.2.1
          · rw [hcur, g2 _ hne]; exact m1.2.2
        · obtain ⟨k1, k2⟩ := dup_post_child_keeps t j c va P hjct hne m2.1
          exact ⟨k1, by rw [k2]; exact m2.2.1, by rw [k2]; exact m2.2.2⟩
      · have hPe : P = va := by
          unfold PGSIZE at hPal hal hPlt
          omega
        subst hPe
        have hent : t.cur.env_pgtab (PGNUM P) = t0.cur.env_pgtab (PGNUM P) :=
          he _ (by rw [hPG])
        have hmt : mapped t.cur P = true := by
          rw [mapped_congr t.cur t0.cur P hd hent]; exact hPm
        have hgp : get_pte t P = t.cur.env_pgtab (PGNUM P) := get_pte_of_mapped t P hmt
        rcases dup_post_parent t j c P hjct with h | ⟨-, -, -, h1, h2⟩
        · -- the page is writable and not shared, so the copy-on-write branch ran
          exfalso
          unfold dup_post at h
          have c0 : ¬ (get_pte t P = NO_PTE ∨ get_pte t P &&& PTE_P = 0) := by
            rw [hgp, hent]
            intro hh
            rcases hh with hh | hh
            · rw [hh] at hPs; exact absurd hPs (by decide)
            · simp only [mapped, Bool.and_eq_true, decide_eq_true_eq] at hPm
              exact hPm.2 hh
          have c1 : ¬ (get_pte t P &&& PTE_SHARE ≠ 0) := by
            rw [hgp, hent]; exact fun hh => hh hPs
          have c2 : get_pte t P &&& PTE_W ≠ 0 ∨ get_pte t P &&& PTE_COW ≠ 0 := by
            rw [hgp, hent]; exact Or.inl hPw
          rw [if_neg c0, if_neg c1, if_pos c2] at h
          have hw : ((page_map_post (page_map_post t t.curenv j 0 P c P
              (PTE_U ||| PTE_COW ||| PTE_P)) t.curenv t.curenv 0 P 0 P
              (PTE_U ||| PTE_COW ||| PTE_P)).envs t.curenv).env_pgtab (PGNUM P) &&& PTE_W = 0 := by
            simp only [page_map_post, upd_same, page_insert_pgtab_self]
            rw [flag_insert _ _ PTE_W rfl]
            rfl
          rw [h] at hw
          have hw2 : t.cur.env_pgtab (PGNUM P) &&& PTE_W = 0 := hw
          rw [hent] at hw2
          exact hPw hw2
        · rw [hcur, h1, h2, hent]
          exact ⟨maps_frame_insert _ _ _ _ rfl (by decide),
            maps_frame_insert _ _ _ _ rfl (by decide)⟩

/-! ## The whole of `fork`, for a caller with a writable page -/

theorem SameTables_trans (a b c : Machine) (h1 : SameTables a b) (h2 : SameTables b c) :
    SameTables a c :=
  ⟨h2.1.trans h1.1, h2.2.1.trans h1.2.1, h2.2.2.1.trans h1.2.2.1, fun k =>
    ⟨(h2.2.2.2 k).1.trans (h1.2.2.2 k).1, (h2.2.2.2 k).2.1.trans (h1.2.2.2 k).2.1,
      (h2.2.2.2 k).2.2.trans (h1.2.2.2 k).2.2⟩⟩

theorem SameTables_sys_env_set_pgfault_upcall (s : Machine) (a entry : Nat) :
    SameTables s (sys_env_set_pgfault_upcall s a entry).2 := by
  unfold sys_env_set_pgfault_upcall
  simp only [envid2env_log]
  cases hi : envid2env s a true with
  | none => exact ⟨rfl, rfl, rfl, fun _ => ⟨rfl, rfl, rfl⟩⟩
  | some i =>
    refine ⟨rfl, rfl, rfl, fun k => ?_⟩
    by_cases hk : k = i
    · subst hk; simp only [upd_same]; exact ⟨rfl, rfl, rfl⟩
    · simp only [upd_other _ _ _ _ hk]; exact ⟨rfl, rfl, rfl⟩

theorem SameTables_sys_env_set_status (s : Machine) (a st : Nat) :
    SameTables s (sys_env_set_status s a st).2 := by
  unfold sys_env_set_status
  simp only [envid2env_log]
  split
  · exact ⟨rfl, rfl, rfl, fun _ => ⟨rfl, rfl, rfl⟩⟩
  · cases hi : envid2env s a true with
    | none => exact ⟨rfl, rfl, rfl, fun _ => ⟨rfl, rfl, rfl⟩⟩
    | some i =>
      refine ⟨rfl, rfl, rfl, fun k => ?_⟩
      by_cases hk : k = i
      · subst hk; simp only [upd_same]; exact ⟨rfl, rfl, rfl⟩
      · simp only [upd_other _ _ _ _ hk]; exact ⟨rfl, rfl, rfl⟩

theorem SameTables_mapped (s t : Machine) (h : SameTables s t) (k va : Nat) :
    mapped (t.envs k) va = mapped (s.envs k) va :=
  mapped_congr _ _ va (h.2.2.2 k).1 (by rw [(h.2.2.2 k).2.1])

theorem SameTables_maps_frame (s t : Machine) (h : SameTables s t) (k va fr fl : Nat)
    (hm : maps_frame (s.envs k) va fr fl) : maps_frame (t.envs k) va fr fl := by
  unfold maps_frame at hm ⊢
  rw [SameTables_mapped s t h, (h.2.2.2 k).2.1]
  exact hm

theorem SameTables_frames_fresh (s t : Machine) (h : SameTables s t) (hf : frames_fresh s) :
    frames_fresh t :=
  frames_fresh_mono s t h.1
    (fun k va hm => ⟨by rw [← SameTables_mapped s t h]; exact hm, by rw [(h.2.2.2 k).2.1]⟩) hf

/-- A run of `fork` by an environment that has its handler registered, while
a slot and a frame are free, every shared page below the exception stack is
writable, and page `P` is present, writable and not shared: `fork` returns
the positive id of the child, which sits in another slot; `P` is
copy-on-write over its old frame in both; the child's exception stack took
the first free frame and nothing else in memory changed. -/
theorem fork_run (s : Machine) (pgfault_entry upcall_entry P f0 : Nat) (rest0 : List Nat)
    (hlive : s.cur.env_status ≠ ENV_FREE)
    (hreg : s.cur.pgfault_handler ≠ 0)
    (hslot : ∃ i, i < NENV ∧ (s.envs i).env_status = ENV_FREE)
    (hshare : ∀ va, va < UXSTACKTOP - PGSIZE → get_pte s va &&& PTE_SHARE ≠ 0 →
      get_pte s va &&& PTE_W ≠ 0)
    (hff : frames_fresh s)
    (hfl : s.page_free_list = f0 :: rest0)
    (hPal : P % PGSIZE = 0) (hPb : P < UXSTACKTOP - PGSIZE)
    (hPm : mapped s.cur P = true)
    (hPw : s.cur.env_pgtab (PGNUM P) &&& PTE_W ≠ 0)
    (hPs : s.cur.env_pgtab (PGNUM P) &&& PTE_SHARE = 0) :
    ∃ c j s1, fork s pgfault_entry upcall_entry = Outcome.returned (Int.ofNat c) s1 ∧
      0 < c ∧ j = c % NENV ∧ j ≠ s.curenv ∧ (s1.envs j).env_id = c ∧
      s1.curenv = s.curenv ∧
      maps_frame s1.cur P (PTE_ADDR (s.cur.env_pgtab (PGNUM P))) (PTE_P ||| PTE_U ||| PTE_COW) ∧
      maps_frame (s1.envs j) P (PTE_ADDR (s.cur.env_pgtab (PGNUM P)))
        (PTE_P ||| PTE_U ||| PTE_COW) ∧
      s1.page_free_list = rest0 ∧ frames_fresh s1 ∧
      page2pa f0 ≠ PTE_ADDR (s.cur.env_pgtab (PGNUM P)) ∧
      (∀ fr off, fr ≠ page2pa f0 → s1.phys fr off = s.phys fr off) := by
  -- the handler is registered already
  have hset : set_pgfault_handler s pgfault_entry upcall_entry =
      Outcome.returned 0 (s.setEnv s.curenv { s.cur with pgfault_handler := pgfault_entry }) := by
    unfold set_pgfault_handler
    rw [if_neg hreg]
  have hA : ∀ k, ((s.setEnv s.curenv { s.cur with pgfault_handler := pgfault_entry }).envs
        k).env_status = (s.envs k).env_status ∧
      ((s.setEnv s.curenv { s.cur with pgfault_handler := pgfault_entry }).envs k).env_pgdir
        = (s.envs k).env_pgdir ∧
      ((s.setEnv s.curenv { s.cur with pgfault_handler := pgfault_entry }).envs k).env_pgtab
        = (s.envs k).env_pgtab ∧
      ((s.setEnv s.curenv { s.cur with pgfault_handler := pgfault_entry }).envs k).env_id
        = (s.envs k).env_id := by
    intro k
    by_cases hk : k = s.curenv
    · subst hk
      simp [Machine.setEnv, Machine.cur]
    · simp [Machine.setEnv, upd, hk]
  generalize hsA : s.setEnv s.curenv { s.cur with pgfault_handler := pgfault_entry } = sA
    at hset hA
  have hAc : sA.curenv = s.curenv := by rw [← hsA]; rfl
  have hAf : sA.page_free_list = s.page_free_list := by rw [← hsA]; rfl
  have hAp : sA.phys = s.phys := by rw [← hsA]; rfl
  -- the duplication
  rcases sys_exofork_cases sA with ⟨-, hnone⟩ | ⟨i, hi, hfree, hexo⟩
  · obtain ⟨i, hi, hfree⟩ := hslot
    exact absurd ((hA i).1.trans hfree) (hnone i hi)
  have hic : i ≠ s.curenv := by
    intro h
    apply hlive
    rw [← hfree, h, (hA _).1]
    rfl
  have hicA : i ≠ sA.curenv := by rw [hAc]; exact hic
  have hcpos := mkenvid_pos (sA.envs i).env_id i
  have hcmod := mkenvid_mod (sA.envs i).env_id i hi
  generalize hc : mkenvid (sA.envs i).env_id i = c at hexo hcpos hcmod
  have hBenv : (exofork_post sA i).envs i =
      { env_id := c, env_parent_id := sA.cur.env_id, env_status := ENV_NOT_RUNNABLE,
        env_pgfault_upcall := 0, env_pgdir := fun _ => 0, env_pgtab := fun _ => 0,
        thisenv := sA.cur.thisenv, pgfault_handler := sA.cur.pgfault_handler } := by
    simp only [exofork_post, upd_same, hc]
  have hBoth : ∀ k, k ≠ i → (exofork_post sA i).envs k = sA.envs k := by
    intro k hk
    simp only [exofork_post, upd_other _ _ _ _ hk]
  have hBcur : (exofork_post sA i).cur = sA.cur := by
    show (exofork_post sA i).envs sA.curenv = sA.envs sA.curenv
    exact hBoth _ (fun h => hicA h.symm)
  have hBj : envid2env (exofork_post sA i) c true = some i := by
    unfold envid2env
    have hc0 : c ≠ 0 := by omega
    rw [if_neg hc0]
    simp only [hcmod, hBenv, hBcur]
    simp [ENV_NOT_RUNNABLE, ENV_FREE]
  have hcurtab : sA.cur.env_pgdir = s.cur.env_pgdir ∧ sA.cur.env_pgtab = s.cur.env_pgtab := by
    have := hA s.curenv
    simp only [Machine.cur, hAc]
    exact ⟨this.2.1, this.2.2.1⟩
  have hBg : ∀ va, get_pte (exofork_post sA i) va = get_pte s va := by
    intro va
    apply get_pte_congr
    · rw [hBcur]; exact hcurtab.1
    · rw [hBcur, hcurtab.2]
  have hBff : frames_fresh (exofork_post sA i) := by
    refine frames_fresh_mono s _ hAf ?_ hff
    intro k va hm
    by_cases hk : k = i
    · subst hk
      rw [hBenv] at hm
      simp [mapped] at hm
    · rw [hBoth k hk] at hm ⊢
      have hmm := mapped_congr (sA.envs k) (s.envs k) va (hA k).2.1 (by rw [(hA k).2.2.1])
      exact ⟨by rw [← hmm]; exact hm, by rw [(hA k).2.2.1]⟩
  -- the loop
  obtain ⟨t1, hloop, ht1c, ht1j, ht1p, ht1f, ht1ff, ht1P, ht1C⟩ :=
    fork_loop_cow_page (exofork_post sA i) c i P hicA hBj
      (fun va hva => by rw [hBg]; exact hshare va hva) hBff hPal hPb
      (by rw [hBcur, mapped_congr sA.cur s.cur P hcurtab.1 (by rw [hcurtab.2])]; exact hPm)
      (by rw [hBcur, hcurtab.2]; exact hPw) (by rw [hBcur, hcurtab.2]; exact hPs)
  rw [hBcur, hcurtab.2] at ht1P ht1C
  have ht1fl : t1.page_free_list = f0 :: rest0 := by
    rw [ht1f]; exact hAf.trans hfl
  have ht1phys : t1.phys = s.phys := by rw [ht1p]; exact hAp
  have ht1cur : t1.curenv = s.curenv := by rw [ht1c]; exact hAc
  -- the child's exception stack
  have halloc := sys_page_alloc_eq t1 c (UXSTACKTOP - PGSIZE) (PTE_P ||| PTE_U ||| PTE_W) i f0
    rest0 ht1j (by decide) (by decide) (by decide) ht1fl
  have hneS : PGNUM P ≠ PGNUM (UXSTACKTOP - PGSIZE) :=
    PGNUM_ne_of_lt P _ hPal (by decide) hPb
  have h2ff := frames_fresh_page_alloc_post t1 i c (UXSTACKTOP - PGSIZE)
    (PTE_P ||| PTE_U ||| PTE_W) f0 rest0 rfl ht1fl ht1ff
  have hict1 : i ≠ t1.curenv := by rw [ht1cur]; exact hic
  have h2P : maps_frame ((page_alloc_post t1 i c (UXSTACKTOP - PGSIZE)
      (PTE_P ||| PTE_U ||| PTE_W) f0 rest0).envs s.curenv) P
      (PTE_ADDR (s.cur.env_pgtab (PGNUM P))) (PTE_P ||| PTE_U ||| PTE_COW) := by
    simp only [page_alloc_post, upd_other _ _ _ _ (fun h => hic h.symm)]
    have : t1.cur = t1.envs s.curenv := by simp only [Machine.cur, ht1cur]
    rw [← this]; exact ht1P
  have h2C : maps_frame ((page_alloc_post t1 i c (UXSTACKTOP - PGSIZE)
      (PTE_P ||| PTE_U ||| PTE_W) f0 rest0).envs i) P
      (PTE_ADDR (s.cur.env_pgtab (PGNUM P))) (PTE_P ||| PTE_U ||| PTE_COW) := by
    simp only [page_alloc_post, upd_same]
    obtain ⟨k1, k2⟩ := page_insert_keeps_mapped (t1.envs i) (UXSTACKTOP - PGSIZE)
      (page2pa f0 ||| (PTE_P ||| PTE_U ||| PTE_W)) P hneS ht1C.1
    exact ⟨k1, by rw [k2]; exact ht1C.2.1, by rw [k2]; exact ht1C.2.2⟩
  -- the two registrations
  generalize hs2 : page_alloc_post t1 i c (UXSTACKTOP - PGSIZE) (PTE_P ||| PTE_U ||| PTE_W) f0
    rest0 = s2 at halloc h2ff h2P h2C
  have h2c : s2.curenv = s.curenv := by rw [← hs2]; exact ht1cur
  have h2id : (s2.envs i).env_id = c := by
    rw [← hs2]
    simp only [page_alloc_post, upd_same, page_insert_env_id]
    have := ht1j
    unfold envid2env at this
    rw [if_neg (by omega : c ≠ 0)] at this
    simp only [hcmod] at this
    split at this
    · exact absurd this (by simp)
    · rename_i hx
      simp only [not_or, not_not] at hx
      exact hx.2
  have h2fl : s2.page_free_list = rest0 := by rw [← hs2]; rfl
  have h2phys : s2.phys = upd s.phys (page2pa f0) (fun _ => 0) := by
    rw [← hs2, ← ht1phys]; rfl
  have hST := SameTables_trans _ _ _
    (SameTables_sys_env_set_pgfault_upcall s2 c (s2.envs s2.cur.thisenv).env_pgfault_upcall)
    (SameTables_sys_env_set_status
      (sys_env_set_pgfault_upcall s2 c (s2.envs s2.cur.thisenv).env_pgfault_upcall).2 c
      ENV_RUNNABLE)
  generalize hs4 : (sys_env_set_status
      (sys_env_set_pgfault_upcall s2 c (s2.envs s2.cur.thisenv).env_pgfault_upcall).2 c
      ENV_RUNNABLE).2 = s4 at hST
  have hfr0 : page2pa f0 ≠ PTE_ADDR (s.cur.env_pgtab (PGNUM P)) := by
    intro h
    exact hff.2 f0 (by rw [hfl]; exact List.mem_cons_self _ _) s.curenv P hPm h.symm
  refine ⟨c, i, s4, ?_, hcpos, hcmod.symm, hic, ?_, hST.2.2.1.trans h2c, ?_, ?_, ?_, ?_, hfr0, ?_⟩
  · unfold fork
    rw [hset]
    simp only [hexo]
    unfold fork_after
    rw [if_pos (show Int.ofNat c > 0 from Int.ofNat_lt.mpr hcpos)]
    simp only [show (Int.ofNat c).toNat = c from rfl, hloop, halloc, hs4]
  · rw [(hST.2.2.2 i).2.2]; exact h2id
  · have : s4.cur = s4.envs s.curenv := by
      simp only [Machine.cur]; rw [hST.2.2.1, h2c]
    rw [this]
    exact SameTables_maps_frame _ _ hST _ _ _ _ h2P
  · exact SameTables_maps_frame _ _ hST _ _ _ _ h2C
  · rw [hST.1]; exact h2fl
  · exact SameTables_frames_fresh _ _ hST h2ff
  · intro fr off hne
    rw [hST.2.1, h2phys, upd_other _ _ _ _ hne]

/-! ## The copy-on-write scenario, end to end -/

theorem maps_frame_flag (e : Env) (va fr fl c : Nat) (h : maps_frame e va fr fl)
    (hc : 0xFFF &&& c = c) : e.env_pgtab (PGNUM va) &&& c = fl &&& c := by
  have h2 := h.2.2
  unfold PTE_FLAGS at h2
  rw [← h2, Nat.and_assoc, hc]

theorem maps_frame_of_page (e : Env) (A P fr fl : Nat) (hA : ROUNDDOWN A PGSIZE = P)
    (h : maps_frame e P fr fl) :
    mapped e A = true ∧ PTE_ADDR (e.env_pgtab (PGNUM A)) = fr ∧
      e.env_pgtab (PGNUM A) &&& PTE_COW = fl &&& PTE_COW ∧
      e.env_pgtab (PGNUM A) &&& PTE_U = fl &&& PTE_U := by
  have hp : PGNUM A = PGNUM P := by rw [← hA, PGNUM_ROUNDDOWN]
  refine ⟨?_, ?_, ?_, ?_⟩
  · rw [← mapped_ROUNDDOWN, hA]; exact h.1
  · rw [hp]; exact h.2.1
  · rw [hp]; exact maps_frame_flag e P fr fl PTE_COW h rfl
  · rw [hp]; exact maps_frame_flag e P fr fl PTE_U h rfl

/-- C6: the parent maps page `P` present and writable and forks; afterwards
`P` is present and copy-on-write, not writable, over the same frame in parent
and child.  The parent's write fault on `P` then leaves the parent with `P`
writable over a new frame and the child's mapping, the old frame and its
bytes untouched; the child's write fault leaves the child with `P` writable
over yet another frame holding the old bytes, and the parent's frame
untouched. -/
theorem cow_fork_scenario (s : Machine) (pgfault_entry upcall_entry P A err f0 f1 f2 : Nat)
    (rest : List Nat)
    (hlive : s.cur.env_status ≠ ENV_FREE)
    (hreg : s.cur.pgfault_handler ≠ 0)
    (hslot : ∃ i, i < NENV ∧ (s.envs i).env_status = ENV_FREE)
    (hshare : ∀ va, va < UXSTACKTOP - PGSIZE → get_pte s va &&& PTE_SHARE ≠ 0 →
      get_pte s va &&& PTE_W ≠ 0)
    (hff : frames_fresh s)
    (hfl : s.page_free_list = f0 :: f1 :: f2 :: rest)
    (hPal : P % PGSIZE = 0) (hPb : P < UXSTACKTOP - PGSIZE)
    (hPm : mapped s.cur P = true)
    (hPw : s.cur.env_pgtab (PGNUM P) &&& PTE_W ≠ 0)
    (hPs : s.cur.env_pgtab (PGNUM P) &&& PTE_SHARE = 0)
    (hA : ROUNDDOWN A PGSIZE = P) (hw : err &&& FEC_WR ≠ 0) :
    ∃ c j s1 s2 s3,
      fork s pgfault_entry upcall_entry = Outcome.returned (Int.ofNat c) s1 ∧
      0 < c ∧ j = c % NENV ∧ j ≠ s.curenv ∧ (s1.envs j).env_id = c ∧ s1.curenv = s.curenv ∧
      maps_frame s1.cur P (PTE_ADDR (s.cur.env_pgtab (PGNUM P))) (PTE_P ||| PTE_U ||| PTE_COW) ∧
      maps_frame (s1.envs j) P (PTE_ADDR (s.cur.env_pgtab (PGNUM P)))
        (PTE_P ||| PTE_U ||| PTE_COW) ∧
      pgfault s1 A err = Outcome.returned 0 s2 ∧ s2.curenv = s.curenv ∧
      maps_frame s2.cur P (page2pa f1) (PTE_W ||| PTE_P ||| PTE_U) ∧
      page2pa f1 ≠ PTE_ADDR (s.cur.env_pgtab (PGNUM P)) ∧
      maps_frame (s2.envs j) P (PTE_ADDR (s.cur.env_pgtab (PGNUM P)))
        (PTE_P ||| PTE_U ||| PTE_COW) ∧
      (∀ off, s2.phys (PTE_ADDR (s.cur.env_pgtab (PGNUM P))) off
        = s.phys (PTE_ADDR (s.cur.env_pgtab (PGNUM P))) off) ∧
      (P ≠ PFTEMP → ∀ off, off < PGSIZE →
        s2.phys (page2pa f1) off = s.phys (PTE_ADDR (s.cur.env_pgtab (PGNUM P))) off) ∧
      pgfault { s2 with curenv := j } A err = Outcome.returned 0 s3 ∧
      maps_frame (s3.envs j) P (page2pa f2) (PTE_W ||| PTE_P ||| PTE_U) ∧
      page2pa f2 ≠ PTE_ADDR (s.cur.env_pgtab (PGNUM P)) ∧
      page2pa f2 ≠ page2pa f1 ∧
      maps_frame (s3.envs s.curenv) P (page2pa f1) (PTE_W ||| PTE_P ||| PTE_U) ∧
      (P ≠ PFTEMP → ∀ off, off < PGSIZE →
        s3.phys (page2pa f2) off = s.phys (PTE_ADDR (s.cur.env_pgtab (PGNUM P))) off) ∧
      (∀ off, s3.phys (page2pa f1) off = s2.phys (page2pa f1) off) := by
  obtain ⟨c, j, s1, hfork, hc, hj, hjc, hid, h1c, h1P, h1C, h1fl, h1ff, hf0, h1phys⟩ :=
    fork_run s pgfault_entry upcall_entry P f0 (f1 :: f2 :: rest) hlive hreg hslot hshare hff hfl
      hPal hPb hPm hPw hPs
  have hU : ROUNDDOWN A PGSIZE < UTOP := by
    rw [hA]
    simp only [UXSTACKTOP, PGSIZE, UTOP] at hPb ⊢
    omega
  -- the parent's fault
  obtain ⟨a1, a2, a3, a4⟩ := maps_frame_of_page s1.cur A P _ _ hA h1P
  obtain ⟨s2, hpf, h2c, h2oth, h2P, h2ne, -, h2copy, h2phys, h2fl, h2ff, -⟩ :=
    pgfault_run s1 A err f1 (f2 :: rest) hw a1 (by rw [a3]; decide) (by rw [a4]; decide)
      hU h1fl h1ff
  rw [a2] at h2ne h2copy
  rw [hA] at h2P h2copy
  have hj1 : j ≠ s1.curenv := by rw [h1c]; exact hjc
  have h2C : s2.envs j = s1.envs j := h2oth j hj1
  have h2F : ∀ off, s2.phys (PTE_ADDR (s.cur.env_pgtab (PGNUM P))) off
      = s.phys (PTE_ADDR (s.cur.env_pgtab (PGNUM P))) off := by
    intro off
    rw [h2phys _ off (fun h => h2ne h.symm), h1phys _ off (fun h => hf0 h.symm)]
  -- the child's fault
  have h2ff2 : frames_fresh { s2 with curenv := j } :=
    frames_fresh_mono s2 _ rfl (fun k va h => ⟨h, rfl⟩) h2ff
  have hcurC : ({ s2 with curenv := j } : Machine).cur = s1.envs j := h2C
  obtain ⟨b1, b2, b3, b4⟩ := maps_frame_of_page (s1.envs j) A P _ _ hA h1C
  obtain ⟨s3, hcf, h3c, h3oth, h3P, h3ne, -, h3copy, h3phys, -, -, -⟩ :=
    pgfault_run { s2 with curenv := j } A err f2 rest hw (by rw [hcurC]; exact b1)
      (by rw [hcurC, b3]; decide) (by rw [hcurC, b4]; decide) hU h2fl h2ff2
  rw [hcurC, b2] at h3ne h3copy
  rw [hA] at h3P h3copy
  have h3c2 : s3.curenv = j := h3c
  have h3j : s3.cur = s3.envs j := by
    simp only [Machine.cur]; rw [h3c2]
  have hpar2 : s2.cur = s2.envs s.curenv := by
    simp only [Machine.cur]; rw [h2c, h1c]
  have h21 : page2pa f2 ≠ page2pa f1 := by
    intro h
    have := h2ff.2 f2 (by rw [h2fl]; exact List.mem_cons_self _ _) s.curenv P
      (by rw [← hpar2]; exact h2P.1)
    apply this
    rw [← hpar2, h2P.2.1, h]
  refine ⟨c, j, s1, s2, s3, hfork, hc, hj, hjc, hid, h1c, h1P, h1C, hpf, h2c.trans h1c, h2P,
    h2ne, by rw [h2C]; exact h1C, h2F, ?_, hcf, by rw [← h3j]; exact h3P, h3ne, h21, ?_, ?_, ?_⟩
  · intro hPne off hoff
    rw [h2copy hPne off hoff, h1phys _ off (fun h => hf0 h.symm)]
  · have : s3.envs s.curenv = s2.envs s.curenv := h3oth s.curenv (fun h => hjc h.symm)
    rw [this, ← hpar2]; exact h2P
  · intro hPne off hoff
    rw [h3copy hPne off hoff]
    exact h2F off
  · intro off
    exact h3phys _ off (fun h => h21 h.symm)

theorem sampleMachine_share (pn flags : Nat)
    (hf : flags &&& PTE_SHARE ≠ 0 → flags &&& PTE_W ≠ 0) (va : Nat)
    (hs : get_pte (sampleMachine pn flags) va &&& PTE_SHARE ≠ 0) :
    get_pte (sampleMachine pn flags) va &&& PTE_W ≠ 0 := by
  unfold get_pte at hs ⊢
  by_cases hd : (sampleMachine pn flags).cur.env_pgdir (PDX va) &&& PTE_P ≠ 0
  · rw [if_pos hd] at hs ⊢
    by_cases hp : PGNUM va = pn
    · have he : (sampleMachine pn flags).cur.env_pgtab (PGNUM va) = 0x5000 ||| flags := by
        simp [sampleMachine, Machine.cur, upd, parentEnv, hp]
      rw [he, flag_frame 0x5000 flags _ rfl rfl] at hs ⊢
      exact hf hs
    · have he : (sampleMachine pn flags).cur.env_pgtab (PGNUM va) = 0 := by
        simp [sampleMachine, Machine.cur, upd, parentEnv, hp]
      rw [he] at hs
      exact absurd (Nat.zero_and _) hs
  · rw [if_neg hd]
    decide

theorem cow_fork_scenario_witness :
    sampleW.cur.env_status ≠ ENV_FREE ∧ sampleW.cur.pgfault_handler ≠ 0 ∧
    (∃ i, i < NENV ∧ (sampleW.envs i).env_status = ENV_FREE) ∧
    frames_fresh sampleW ∧ sampleW.page_free_list = [9, 10, 11] ∧
    mapped sampleW.cur 0x800000 = true ∧
    sampleW.cur.env_pgtab (PGNUM 0x800000) &&& PTE_W ≠ 0 ∧
    sampleW.cur.env_pgtab (PGNUM 0x800000) &&& PTE_SHARE = 0 ∧
    ∃ c j s1 s2 s3,
      fork sampleW 0x802000 0x801000 = Outcome.returned (Int.ofNat c) s1 ∧
      0 < c ∧ j = c % NENV ∧ j ≠ sampleW.curenv ∧ (s1.envs j).env_id = c ∧
      s1.curenv = sampleW.curenv ∧
      maps_frame s1.cur 0x800000 (PTE_ADDR (sampleW.cur.env_pgtab (PGNUM 0x800000)))
        (PTE_P ||| PTE_U ||| PTE_COW) ∧
      maps_frame (s1.envs j) 0x800000 (PTE_ADDR (sampleW.cur.env_pgtab (PGNUM 0x800000)))
        (PTE_P ||| PTE_U ||| PTE_COW) ∧
      pgfault s1 0x800010 FEC_WR = Outcome.returned 0 s2 ∧ s2.curenv = sampleW.curenv ∧
      maps_frame s2.cur 0x800000 (page2pa 10) (PTE_W ||| PTE_P ||| PTE_U) ∧
      page2pa 10 ≠ PTE_ADDR (sampleW.cur.env_pgtab (PGNUM 0x800000)) ∧
      maps_frame (s2.envs j) 0x800000 (PTE_ADDR (sampleW.cur.env_pgtab (PGNUM 0x800000)))
        (PTE_P ||| PTE_U ||| PTE_COW) ∧
      (∀ off, s2.phys (PTE_ADDR (sampleW.cur.env_pgtab (PGNUM 0x800000))) off
        = sampleW.phys (PTE_ADDR (sampleW.cur.env_pgtab (PGNUM 0x800000))) off) ∧
      ((0x800000 : Nat) ≠ PFTEMP → ∀ off, off < PGSIZE → s2.phys (page2pa 10) off
        = sampleW.phys (PTE_ADDR (sampleW.cur.env_pgtab (PGNUM 0x800000))) off) ∧
      pgfault { s2 with curenv := j } 0x800010 FEC_WR = Outcome.returned 0 s3 ∧
      maps_frame (s3.envs j) 0x800000 (page2pa 11) (PTE_W ||| PTE_P ||| PTE_U) ∧
      page2pa 11 ≠ PTE_ADDR (sampleW.cur.env_pgtab (PGNUM 0x800000)) ∧
      page2pa 11 ≠ page2pa 10 ∧
      maps_frame (s3.envs sampleW.curenv) 0x800000 (page2pa 10) (PTE_W ||| PTE_P ||| PTE_U) ∧
      ((0x800000 : Nat) ≠ PFTEMP → ∀ off, off < PGSIZE → s3.phys (page2pa 11) off
        = sampleW.phys (PTE_ADDR (sampleW.cur.env_pgtab (PGNUM 0x800000))) off) ∧
      (∀ off, s3.phys (page2pa 10) off = s2.phys (page2pa 10) off) :=
  ⟨by decide, by decide, ⟨2, by decide, by decide⟩, sampleMachine_fresh _ _ rfl, rfl,
   by decide, by decide, by decide,
   cow_fork_scenario sampleW 0x802000 0x801000 0x800000 0x800010 FEC_WR 9 10 11 []
     (by decide) (by decide) ⟨2, by decide, by decide⟩
     (fun va _ hs => sampleMachine_share _ _ (by decide) va hs)
     (sampleMachine_fresh _ _ rfl) rfl (by decide) (by decide) (by decide)
     (by decide) (by decide) (by decide) (by decide)⟩

/-! ## Unknown operation ids -/

/-- C11: for every operation id other than `SYS_cputs`, `SYS_cgetc`,
`SYS_getenvid` and `SYS_env_destroy`, with enough or with no fuel at all,
`syscall` returns `-E_INVAL`; the state it leaves differs from the one it
was entered in only by the line the dispatcher prints for every call: the
environment table (every environment and its page tables), the running
slot, physical memory, the free frames, the log of requested operations and
the pending console input are the same. -/
theorem Kern.syscall_unknown_id (fuel : Nat) (s : Machine) (syscallno a1 a2 a3 a4 a5 : Nat)
    (h0 : syscallno ≠ SYS_cputs) (h1 : syscallno ≠ SYS_cgetc)
    (h2 : syscallno ≠ SYS_getenvid) (h3 : syscallno ≠ SYS_env_destroy) :
    ∃ s1, Kern.syscall fuel s syscallno a1 a2 a3 a4 a5 =
        some (Kern.KOutcome.returned (-E_INVAL) s1) ∧
      s1.envs = s.envs ∧ s1.curenv = s.curenv ∧ s1.phys = s.phys ∧
      s1.page_free_list = s.page_free_list ∧ s1.trace = s.trace ∧
      s1.console_in = s.console_in ∧
      s1.console = s.console ++ [ConsoleEvent.syscallno syscallno] := by
  refine ⟨Kern.cprintf s (ConsoleEvent.syscallno syscallno), ?_, rfl, rfl, rfl, rfl, rfl, rfl, rfl⟩
  unfold Kern.syscall
  simp only []
  rw [if_neg h0, if_neg h1, if_neg h2, if_neg h3]

/-- C11 at `NSYSCALLS` itself, on the sample machine. -/
theorem Kern.syscall_unknown_id_witness :
    NSYSCALLS ≠ SYS_cputs ∧ NSYSCALLS ≠ SYS_cgetc ∧ NSYSCALLS ≠ SYS_getenvid ∧
    NSYSCALLS ≠ SYS_env_destroy ∧
    ∃ s1, Kern.syscall 0 sampleW NSYSCALLS 1 2 3 4 5 =
        some (Kern.KOutcome.returned (-E_INVAL) s1) ∧
      s1.envs = sampleW.envs ∧ s1.curenv = sampleW.curenv ∧ s1.phys = sampleW.phys ∧
      s1.page_free_list = sampleW.page_free_list ∧ s1.trace = sampleW.trace ∧
      s1.console_in = sampleW.console_in ∧
      s1.console = sampleW.console ++ [ConsoleEvent.syscallno NSYSCALLS] :=
  ⟨by decide, by decide, by decide, by decide,
   Kern.syscall_unknown_id 0 sampleW NSYSCALLS 1 2 3 4 5 (by decide) (by decide) (by decide)
     (by decide)⟩

/-! ## `duppage` on read-only and on absent pages -/

/-- C16: for a page whose entry in the parent is present and neither
shared-always, writable nor copy-on-write, `duppage` (when the kernel accepts
the mapping) issues exactly one mapping call, into the target environment at
the same address with flags exactly present+user over the parent's frame,
and returns 0; no call names the parent as destination, every environment
other than the target is as before, and when the target is not the caller
itself the caller's tables and its entry for the page are unchanged. -/
theorem duppage_readonly_maps_child_only (s : Machine) (envid pn va : Nat)
    (hva : va = pn * PGSIZE % WORD)
    (hP : get_pte s va &&& PTE_P ≠ 0)
    (hS : get_pte s va &&& PTE_SHARE = 0)
    (hW : get_pte s va &&& PTE_W = 0)
    (hC : get_pte s va &&& PTE_COW = 0)
    (hok : 0 ≤ (sys_page_map s 0 va envid va (PTE_U ||| PTE_P)).1) :
    ∃ child s1,
      envid2env s envid true = some child ∧
      duppage s envid pn = Outcome.returned 0 s1 ∧
      s1.trace = s.trace ++ [Call.page_map 0 va envid va (PTE_U ||| PTE_P)] ∧
      maps_frame (s1.envs child) va (PTE_ADDR (get_pte s va)) (PTE_P ||| PTE_U) ∧
      s1.curenv = s.curenv ∧ s1.phys = s.phys ∧ s1.page_free_list = s.page_free_list ∧
      (∀ k, k ≠ child → s1.envs k = s.envs k) ∧
      (child ≠ s.curenv → s1.cur = s.cur ∧ get_pte s1 va = get_pte s va) := by
  obtain ⟨hd, hpte, hne⟩ := get_pte_of_not_share s va hS
  obtain ⟨i, j, hi, hj, h1, h2, -, -, h5, -, heq⟩ := sys_page_map_ok _ _ _ _ _ _ hok
  have hic : i = s.curenv := by
    rw [envid2env_zero] at hi; exact (Option.some.inj hi).symm
  subst hic
  have hoth : ∀ k, k ≠ j →
      (page_map_post s s.curenv j 0 va envid va (PTE_U ||| PTE_P)).envs k = s.envs k := by
    intro k hk
    simp only [page_map_post, upd_other _ _ _ _ hk]
  refine ⟨j, page_map_post s s.curenv j 0 va envid va (PTE_U ||| PTE_P), hj, ?_, rfl, ?_, rfl,
    rfl, rfl, hoth, ?_⟩
  · have c0 : ¬ (get_pte s va = NO_PTE ∨ get_pte s va &&& PTE_P = 0) := by
      intro h; rcases h with h | h
      · exact hne h
      · exact hP h
    have c1 : ¬ (get_pte s va &&& PTE_SHARE ≠ 0) := fun h => h hS
    have c2 : ¬ (get_pte s va &&& PTE_W ≠ 0 ∨ get_pte s va &&& PTE_COW ≠ 0) := by
      intro h; rcases h with h | h
      · exact h hW
      · exact h hC
    rw [duppage_def, ← hva, if_neg c0, if_neg c1, if_neg c2, heq, ite_fst_zero]
  · rw [hpte]
    simp only [page_map_post, upd_same]
    exact maps_frame_insert _ _ _ _ rfl (by decide)
  · intro hjc
    have hcur : (page_map_post s s.curenv j 0 va envid va (PTE_U ||| PTE_P)).cur = s.cur :=
      hoth s.curenv (fun h => hjc h.symm)
    refine ⟨hcur, ?_⟩
    unfold get_pte
    rw [hcur]

theorem duppage_readonly_maps_child_only_witness :
    get_pte (sampleMachine 0x800 (PTE_P ||| PTE_U)) 0x800000 &&& PTE_P ≠ 0 ∧
    get_pte (sampleMachine 0x800 (PTE_P ||| PTE_U)) 0x800000 &&& PTE_SHARE = 0 ∧
    get_pte (sampleMachine 0x800 (PTE_P ||| PTE_U)) 0x800000 &&& PTE_W = 0 ∧
    get_pte (sampleMachine 0x800 (PTE_P ||| PTE_U)) 0x800000 &&& PTE_COW = 0 ∧
    0 ≤ (sys_page_map (sampleMachine 0x800 (PTE_P ||| PTE_U)) 0 0x800000 0x1001 0x800000
      (PTE_U ||| PTE_P)).1 ∧
    ∃ child s1,
      envid2env (sampleMachine 0x800 (PTE_P ||| PTE_U)) 0x1001 true = some child ∧
      duppage (sampleMachine 0x800 (PTE_P ||| PTE_U)) 0x1001 0x800 = Outcome.returned 0 s1 ∧
      s1.trace = (sampleMachine 0x800 (PTE_P ||| PTE_U)).trace ++
        [Call.page_map 0 0x800000 0x1001 0x800000 (PTE_U ||| PTE_P)] ∧
      maps_frame (s1.envs child) 0x800000
        (PTE_ADDR (get_pte (sampleMachine 0x800 (PTE_P ||| PTE_U)) 0x800000))
        (PTE_P ||| PTE_U) ∧
      s1.curenv = (sampleMachine 0x800 (PTE_P ||| PTE_U)).curenv ∧
      s1.phys = (sampleMachine 0x800 (PTE_P ||| PTE_U)).phys ∧
      s1.page_free_list = (sampleMachine 0x800 (PTE_P ||| PTE_U)).page_free_list ∧
      (∀ k, k ≠ child → s1.envs k = (sampleMachine 0x800 (PTE_P ||| PTE_U)).envs k) ∧
      (child ≠ (sampleMachine 0x800 (PTE_P ||| PTE_U)).curenv →
        s1.cur = (sampleMachine 0x800 (PTE_P ||| PTE_U)).cur ∧
        get_pte s1 0x800000 = get_pte (sampleMachine 0x800 (PTE_P ||| PTE_U)) 0x800000) :=
  ⟨by decide, by decide, by decide, by decide, by decide,
   duppage_readonly_maps_child_only (sampleMachine 0x800 (PTE_P ||| PTE_U)) 0x1001 0x800
     0x800000 (by decide) (by decide) (by decide) (by decide) (by decide) (by decide)⟩

/-! ## Faults on the exception stack -/

/-- C19 (the code diverges): `get_pte` answers `NO_PTE` when the directory
entry lacks the present bit and the page-table entry itself otherwise.
Address 0x20000004 has no page table in the sample environment, so `get_pte`
answers `NO_PTE`.  `duppage` compares with `NO_PTE` first and skips the
page, but `pgfault` reads the copy-on-write flag out of the answer: bit 11
of `NO_PTE` is set, the handler takes the absent page for a copy-on-write
mapping, does not panic and allocates the scratch page, whereas for the
mapped page 0x800000, whose entry has no copy-on-write flag, it panics. -/
theorem get_pte_absent_read_as_flags :
    (∀ (s : Machine) (va : Nat), s.cur.env_pgdir (PDX va) &&& PTE_P = 0 →
      get_pte s va = NO_PTE) ∧
    (∀ (s : Machine) (va : Nat), s.cur.env_pgdir (PDX va) &&& PTE_P ≠ 0 →
      get_pte s va = s.cur.env_pgtab (PGNUM va)) ∧
    sampleW.cur.env_pgdir (PDX 0x20000004) &&& PTE_P = 0 ∧
    get_pte sampleW 0x20000004 = NO_PTE ∧
    NO_PTE &&& PTE_COW ≠ 0 ∧
    (duppage sampleW 0x1001 0x20000).ret = some 0 ∧
    (duppage sampleW 0x1001 0x20000).state.trace = [] ∧
    (pgfault sampleW 0x20000004 FEC_WR).isPanic = false ∧
    (pgfault sampleW 0x20000004 FEC_WR).state.trace =
      [Call.page_alloc 0 PFTEMP (PTE_W ||| PTE_U ||| PTE_P)] ∧
    (pgfault sampleW 0x20000004 FEC_WR).state.page_free_list = [10, 11] ∧
    get_pte sampleW 0x800000 &&& PTE_COW = 0 ∧
    (pgfault sampleW 0x800000 FEC_WR).isPanic = true := by
  refine ⟨?_, ?_, by decide⟩
  · intro s va h
    unfold get_pte
    rw [if_neg (fun hn => hn h)]
  · intro s va h
    unfold get_pte
    rw [if_pos h]

/-! ## Termination of the validation loop of `sys_cputs` -/

/-- The loop of `sys_cputs`, started at a page-aligned `va` with `n`
acceptable pages up to its page-aligned bound, examines exactly these `n`
pages and returns. -/
theorem Kern.sys_cputs_loop_completes (end_va : Nat) (hend : end_va < WORD)
    (s : Machine) (n : Nat) :
    ∀ (va fuel : Nat) (seen : List Nat), n < fuel →
      (va + n * PGSIZE = end_va ∨ (n = 0 ∧ end_va ≤ va)) →
      (∀ j, j < n → Kern.cputs_violation s.cur (va + j * PGSIZE) = false) →
      Kern.sys_cputs_loop end_va fuel va s seen =
        some (Kern.KOutcome.returned 0 s,
          seen ++ (List.range n).map (fun j => va + j * PGSIZE)) := by
  induction n with
  | zero =>
    intro va fuel seen hfuel hpos _
    obtain ⟨m, rfl⟩ : ∃ m, fuel = m + 1 := ⟨fuel - 1, by omega⟩
    have hge : ¬ va < end_va := by
      rcases hpos with h | ⟨-, h⟩ <;> omega
    rw [Kern.sys_cputs_loop, if_neg hge]
    simp
  | succ n ih =>
    intro va fuel seen hfuel hpos hok
    obtain ⟨m, rfl⟩ : ∃ m, fuel = m + 1 := ⟨fuel - 1, by omega⟩
    have hsum : va + (n + 1) * PGSIZE = end_va := by
      rcases hpos with h | ⟨h, -⟩
      · exact h
      · omega
    have hshift : ∀ j, va + PGSIZE + j * PGSIZE = va + (j + 1) * PGSIZE := by
      intro j; rw [Nat.succ_mul]; omega
    have hva : va < end_va := by
      have : PGSIZE ≤ (n + 1) * PGSIZE := Nat.le_mul_of_pos_left _ (Nat.succ_pos n)
      have : 0 < PGSIZE := by decide
      omega
    have h0 : Kern.cputs_violation s.cur va = false := by
      have := hok 0 (Nat.succ_pos n)
      simpa using this
    have hstep : (va + PGSIZE) % WORD = va + PGSIZE := by
      apply Nat.mod_eq_of_lt
      have : PGSIZE ≤ (n + 1) * PGSIZE := Nat.le_mul_of_pos_left _ (Nat.succ_pos n)
      omega
    have := ih (va + PGSIZE) m (seen ++ [va]) (by omega)
      (Or.inl (by rw [hshift]; exact hsum))
      (by intro j hj; rw [hshift]; exact hok (j + 1) (by omega))
    rw [Kern.sys_cputs_loop, if_pos hva, h0]
    simp only [Bool.false_eq_true, if_false]
    have hlist : (seen ++ [va]) ++ (List.range n).map (fun j => va + PGSIZE + j * PGSIZE)
        = seen ++ (List.range (n + 1)).map (fun j => va + j * PGSIZE) := by
      rw [List.range_succ_eq_map n, List.map_cons, List.map_map, List.append_assoc]
      have hf : ((fun j => va + j * PGSIZE) ∘ Nat.succ)
          = (fun j => va + PGSIZE + j * PGSIZE) := by
        funext j
        simp only [Function.comp]
        exact (hshift j).symm
      rw [hf]
      simp
    rw [hstep, this, hlist]

/-- Page-aligned bounds: the number of pages between them. -/
theorem pages_between (a e : Nat) (ha : a % 4096 = 0) (he : e % 4096 = 0) :
    (a + (e - a) / 4096 * 4096 = e ∨ ((e - a) / 4096 = 0 ∧ e ≤ a)) ∧
    ∀ k, a + k * 4096 < e → k < (e - a) / 4096 := by
  constructor
  · omega
  · intro k hk
    omega

/-- C20 (as stated it fails): a two-page buffer at 0x801000 whose first page
has no user mapping.  The bounds give (end_va - start_va) / PGSIZE = 2, but
the caller is destroyed at the first page and the loop body runs once. -/
theorem Kern.sys_cputs_loop_cut_short :
    (ROUNDUP ((0x801000 + 0x2000) % WORD) PGSIZE - ROUNDDOWN 0x801000 PGSIZE) / PGSIZE = 2 ∧
    Kern.cputs_violation sampleW.cur 0x801000 = true ∧
    ∀ fuel, 0 < fuel →
      (Kern.sys_cputs fuel sampleW 0x801000 0x2000).map
        (fun r => (r.2, r.2.length, r.1.ret)) = some ([0x801000], 1, none) := by
  refine ⟨by decide, by decide, ?_⟩
  intro fuel hfuel
  obtain ⟨n, rfl⟩ : ∃ n, fuel = n + 1 := ⟨fuel - 1, by omega⟩
  rfl

/-- C20, amended: for every start address and length, with fuel above
(end_va - start_va) / PGSIZE the loop of `sys_cputs` ends.  The pages it
examines are start_va, start_va + PGSIZE, ... in order, without wrapping,
and at most (end_va - start_va) / PGSIZE of them (none when the bound is not
above the start).  When no page fails the test the loop runs exactly that
many times and the call returns; otherwise it stops at the first failing
page, the `k`-th, after `k + 1` iterations, and does not return. -/
theorem Kern.sys_cputs_loop_terminates (s : Machine) (str len fuel : Nat)
    (hfuel : (ROUNDUP ((str + len) % WORD) PGSIZE - ROUNDDOWN str PGSIZE) / PGSIZE < fuel) :
    ∃ out seen, Kern.sys_cputs fuel s str len = some (out, seen) ∧
      seen = (List.range seen.length).map (fun j => ROUNDDOWN str PGSIZE + j * PGSIZE) ∧
      seen.length ≤
        (ROUNDUP ((str + len) % WORD) PGSIZE - ROUNDDOWN str PGSIZE) / PGSIZE ∧
      (∀ va, va ∈ seen → va < ROUNDUP ((str + len) % WORD) PGSIZE ∧ va % PGSIZE = 0) ∧
      ((out.ret = some 0 ∧
          seen.length =
            (ROUNDUP ((str + len) % WORD) PGSIZE - ROUNDDOWN str PGSIZE) / PGSIZE ∧
          ∀ va, va ∈ seen → Kern.cputs_violation s.cur va = false) ∨
       (out.ret = none ∧ ∃ k, seen.length = k + 1 ∧
          Kern.cputs_violation s.cur (ROUNDDOWN str PGSIZE + k * PGSIZE) = true ∧
          ∀ j, j < k → Kern.cputs_violation s.cur (ROUNDDOWN str PGSIZE + j * PGSIZE) = false)) := by
  have ha : ROUNDDOWN str PGSIZE % 4096 = 0 := ROUNDDOWN_mod str
  have he : ROUNDUP ((str + len) % WORD) PGSIZE % 4096 = 0 := by
    unfold ROUNDUP
    exact ROUNDDOWN_mod _
  have hlt := ROUNDUP_lt_WORD ((str + len) % WORD)
  generalize hA : ROUNDDOWN str PGSIZE = a at ha hfuel ⊢
  generalize hE : ROUNDUP ((str + len) % WORD) PGSIZE = e at he hfuel hlt ⊢
  obtain ⟨hN, hk⟩ := pages_between a e ha he
  have hP : PGSIZE = 4096 := rfl
  have hmem : ∀ (m : Nat) (va : Nat),
      va ∈ (List.range m).map (fun j => a + j * PGSIZE) → ∃ j, j < m ∧ va = a + j * PGSIZE := by
    intro m va hva
    obtain ⟨j, hj, rfl⟩ := List.mem_map.mp hva
    exact ⟨j, List.mem_range.mp hj, rfl⟩
  by_cases hv : ∃ j, j < (e - a) / PGSIZE ∧ Kern.cputs_violation s.cur (a + j * PGSIZE) = true
  · obtain ⟨j, hj, hbad⟩ := hv
    have hjlt : a + j * 4096 < e := by
      rw [hP] at hj
      rcases hN with h | ⟨h, -⟩
      · have : (j + 1) * 4096 ≤ (e - a) / 4096 * 4096 := Nat.mul_le_mul_right _ hj
        rw [Nat.succ_mul] at this
        omega
      · omega
    obtain ⟨k, hle, hklt, hkbad, hmin⟩ := first_violation (Kern.cputs_violation s.cur)
      a e (a + j * 4096) ha (by omega) hjlt (by omega) hbad
    have hkN := hk k hklt
    have hloop := Kern.sys_cputs_loop_stops e (Nat.le_of_lt hlt) s k a fuel []
      (by rw [hP] at hfuel; omega) hklt hkbad hmin
    refine ⟨Kern.KOutcome.noreturn
        (Kern.env_free (Kern.cprintf s ConsoleEvent.memory_error) s.curenv),
      (List.range (k + 1)).map (fun j => a + j * PGSIZE), ?_, ?_, ?_, ?_,
      Or.inr ⟨rfl, k, ?_, hkbad, hmin⟩⟩
    · unfold Kern.sys_cputs
      simp only [hA, hE, hloop, List.nil_append]
    · simp
    · simp only [List.length_map, List.length_range]
      rw [hP]; omega
    · intro va hva
      obtain ⟨i, hi, rfl⟩ := hmem _ _ hva
      have : a + i * 4096 ≤ a + k * 4096 := by
        have : i * 4096 ≤ k * 4096 := Nat.mul_le_mul_right _ (by omega)
        omega
      rw [hP]
      constructor
      · omega
      · omega
    · simp
  · have hok : ∀ j, j < (e - a) / PGSIZE →
        Kern.cputs_violation s.cur (a + j * PGSIZE) = false := by
      intro j hj
      cases hc : Kern.cputs_violation s.cur (a + j * PGSIZE) with
      | false => rfl
      | true => exact absurd ⟨j, hj, hc⟩ hv
    have hloop := Kern.sys_cputs_loop_completes e hlt s ((e - a) / PGSIZE) a fuel [] hfuel
      (by rw [hP]; exact hN) hok
    refine ⟨Kern.KOutcome.returned 0 (Kern.cprintf s (ConsoleEvent.puts str len)),
      (List.range ((e - a) / PGSIZE)).map (fun j => a + j * PGSIZE), ?_, ?_, ?_, ?_,
      Or.inl ⟨rfl, ?_, ?_⟩⟩
    · unfold Kern.sys_cputs
      simp only [hA, hE, hloop, List.nil_append]
    · simp
    · simp
    · intro va hva
      obtain ⟨i, hi, rfl⟩ := hmem _ _ hva
      rw [hP] at hi ⊢
      rcases hN with h | ⟨h, -⟩
      · have : (i + 1) * 4096 ≤ (e - a) / 4096 * 4096 := Nat.mul_le_mul_right _ hi
        rw [Nat.succ_mul] at this
        constructor
        · omega
        · omega
      · omega
    · simp
    · intro va hva
      obtain ⟨i, hi, rfl⟩ := hmem _ _ hva
      exact hok i hi

theorem Kern.sys_cputs_loop_terminates_witness :
    (ROUNDUP ((0x800FF0 + 0x20) % WORD) PGSIZE - ROUNDDOWN 0x800FF0 PGSIZE) / PGSIZE < 3 ∧
    ∃ out seen, Kern.sys_cputs 3 sampleW 0x800FF0 0x20 = some (out, seen) ∧
      seen = (List.range seen.length).map (fun j => ROUNDDOWN 0x800FF0 PGSIZE + j * PGSIZE) ∧
      seen.length ≤
        (ROUNDUP ((0x800FF0 + 0x20) % WORD) PGSIZE - ROUNDDOWN 0x800FF0 PGSIZE) / PGSIZE ∧
      (∀ va, va ∈ seen → va < ROUNDUP ((0x800FF0 + 0x20) % WORD) PGSIZE ∧ va % PGSIZE = 0) ∧
      ((out.ret = some 0 ∧
          seen.length =
            (ROUNDUP ((0x800FF0 + 0x20) % WORD) PGSIZE - ROUNDDOWN 0x800FF0 PGSIZE) / PGSIZE ∧
          ∀ va, va ∈ seen → Kern.cputs_violation sampleW.cur va = false) ∨
       (out.ret = none ∧ ∃ k, seen.length = k + 1 ∧
          Kern.cputs_violation sampleW.cur (ROUNDDOWN 0x800FF0 PGSIZE + k * PGSIZE) = true ∧
          ∀ j, j < k →
            Kern.cputs_violation sampleW.cur (ROUNDDOWN 0x800FF0 PGSIZE + j * PGSIZE) = false)) :=
  ⟨by decide, Kern.sys_cputs_loop_terminates sampleW 0x800FF0 0x20 3 (by decide)⟩

/-! ## The calls of the loop of `fork` -/

theorem fork_loop_calls_initial (child : Nat) :
    ∀ (n va : Nat) (s : Machine), va + n * PGSIZE = UXSTACKTOP - PGSIZE →
      fork_loop_calls child va s <+: List.range' (va / PGSIZE) n := by
  intro n
  induction n with
  | zero =>
    intro va s hn
    rw [fork_loop_calls, dif_neg (by omega)]
    exact List.nil_prefix
  | succ n ih =>
    intro va s hn
    have hlt : va < UXSTACKTOP - PGSIZE := by
      rw [Nat.succ_mul] at hn
      simp only [UXSTACKTOP, PGSIZE] at hn ⊢
      omega
    have hw : (va + PGSIZE) % WORD = va + PGSIZE := by
      apply Nat.mod_eq_of_lt
      simp only [UXSTACKTOP, PGSIZE, WORD] at hlt ⊢
      omega
    have hdiv : (va + PGSIZE) / PGSIZE = va / PGSIZE + 1 := by
      unfold PGSIZE; omega
    rw [fork_loop_calls, dif_pos hlt, List.range'_succ]
    cases hd : duppage s child (va / PGSIZE) with
    | returned r0 s0 =>
      simp only []
      rw [hw, List.prefix_cons_inj, ← hdiv]
      exact ih (va + PGSIZE) s0 (by rw [Nat.succ_mul] at hn; omega)
    | panicked s0 =>
      simp only []
      rw [List.prefix_cons_inj]
      exact List.nil_prefix
    | faulted s0 =>
      simp only []
      rw [List.prefix_cons_inj]
      exact List.nil_prefix

theorem fork_loop_calls_full (child : Nat) :
    ∀ (n va : Nat) (s : Machine) (r : Int) (s1 : Machine),
      va + n * PGSIZE = UXSTACKTOP - PGSIZE →
      fork_loop child va s = Outcome.returned r s1 →
      fork_loop_calls child va s = List.range' (va / PGSIZE) n := by
  intro n
  induction n with
  | zero =>
    intro va s r s1 hn _
    rw [fork_loop_calls, dif_neg (by omega)]
    rfl
  | succ n ih =>
    intro va s r s1 hn h
    have hlt : va < UXSTACKTOP - PGSIZE := by
      rw [Nat.succ_mul] at hn
      simp only [UXSTACKTOP, PGSIZE] at hn ⊢
      omega
    have hw : (va + PGSIZE) % WORD = va + PGSIZE := by
      apply Nat.mod_eq_of_lt
      simp only [UXSTACKTOP, PGSIZE, WORD] at hlt ⊢
      omega
    have hdiv : (va + PGSIZE) / PGSIZE = va / PGSIZE + 1 := by
      unfold PGSIZE; omega
    rw [fork_loop, dif_pos hlt] at h
    rw [fork_loop_calls, dif_pos hlt, List.range'_succ]
    cases hd : duppage s child (va / PGSIZE) with
    | returned r0 s0 =>
      rw [hd] at h
      simp only [] at h ⊢
      rw [hw] at h ⊢
      rw [← hdiv, ih (va + PGSIZE) s0 r s1 (by rw [Nat.succ_mul] at hn; omega) h]
    | panicked s0 => rw [hd] at h; exact Outcome.noConfusion h
    | faulted s0 => rw [hd] at h; exact Outcome.noConfusion h

/-! ## What the loop of `fork` leaves alone -/

theorem SameRegs_refl (s : Machine) : SameRegs s s :=
  ⟨rfl, fun _ => ⟨rfl, rfl, rfl, rfl, rfl, rfl⟩⟩

theorem SameRegs_trans (a b c : Machine) (h1 : SameRegs a b) (h2 : SameRegs b c) :
    SameRegs a c :=
  ⟨h2.1.trans h1.1, fun k =>
    ⟨(h2.2 k).1.trans (h1.2 k).1, (h2.2 k).2.1.trans (h1.2 k).2.1,
      (h2.2 k).2.2.1.trans (h1.2 k).2.2.1, (h2.2 k).2.2.2.1.trans (h1.2 k).2.2.2.1,
      (h2.2 k).2.2.2.2.1.trans (h1.2 k).2.2.2.2.1,
      (h2.2 k).2.2.2.2.2.trans (h1.2 k).2.2.2.2.2⟩⟩

theorem SameRegs_log (s : Machine) (c : Call) : SameRegs s (s.log c) :=
  ⟨rfl, fun _ => ⟨rfl, rfl, rfl, rfl, rfl, rfl⟩⟩

theorem SameRegs_page_map_post (t : Machine) (i j a sva b dva perm : Nat) :
    SameRegs t (page_map_post t i j a sva b dva perm) := by
  refine ⟨rfl, fun k => ?_⟩
  by_cases hk : k = j
  · subst hk
    simp only [page_map_post, upd_same, page_insert_env_status, page_insert_env_id,
      page_insert_env_parent_id, page_insert_env_pgfault_upcall, page_insert_thisenv,
      page_insert_pgfault_handler, and_self]
  · simp only [page_map_post, upd_other _ _ _ _ hk, and_self]

theorem SameRegs_page_alloc_post (t : Machine) (i a va perm f : Nat) (rest : List Nat) :
    SameRegs t (page_alloc_post t i a va perm f rest) := by
  refine ⟨rfl, fun k => ?_⟩
  by_cases hk : k = i
  · subst hk
    simp only [page_alloc_post, upd_same, page_insert_env_status, page_insert_env_id,
      page_insert_env_parent_id, page_insert_env_pgfault_upcall, page_insert_thisenv,
      page_insert_pgfault_handler, and_self]
  · simp only [page_alloc_post, upd_other _ _ _ _ hk, and_self]

theorem SameRegs_sys_page_alloc (s : Machine) (a va perm : Nat) :
    SameRegs s (sys_page_alloc s a va perm).2 := by
  rcases sys_page_alloc_cases s a va perm with h | ⟨i, f, rest, -, -, -, -, h⟩
  · rw [h]; exact SameRegs_log _ _
  · rw [h]; exact SameRegs_page_alloc_post _ _ _ _ _ _ _

theorem SameRegs_dup_post (t : Machine) (j c va : Nat) : SameRegs t (dup_post t j c va) := by
  unfold dup_post
  split
  · exact SameRegs_refl t
  · split
    · exact SameRegs_page_map_post _ _ _ _ _ _ _ _
    · split
      · exact SameRegs_trans _ _ _ (SameRegs_page_map_post _ _ _ _ _ _ _ _)
          (SameRegs_page_map_post _ _ _ _ _ _ _ _)
      · exact SameRegs_page_map_post _ _ _ _ _ _ _ _

/-- The environment lookup gives the same answer in states with the same
records. -/
theorem envid2env_SameRegs (s t : Machine) (h : SameRegs s t) (x : Nat) (cp : Bool) :
    envid2env t x cp = envid2env s x cp :=
  envid2env_congr s t x cp h.1 (fun k => ⟨(h.2 k).2.2.1, (h.2 k).1, (h.2 k).2.1⟩)

/-- The requests `duppage` logs for the page at `va`. -/
theorem dup_post_trace (t : Machine) (j c va : Nat) :
    ∃ L, (dup_post t j c va).trace = t.trace ++ L ∧
      ∀ x, x ∈ L → ∃ dst perm, x = Call.page_map 0 va dst va perm ∧ (dst = c ∨ dst = 0) := by
  unfold dup_post
  split
  · exact ⟨[], by simp, by simp⟩
  · split
    · refine ⟨[Call.page_map 0 va c va (PTE_P ||| PTE_U ||| PTE_W ||| PTE_SHARE)], rfl, ?_⟩
      intro x hx
      rw [List.mem_singleton] at hx
      exact ⟨c, _, hx, Or.inl rfl⟩
    · split
      · refine ⟨[Call.page_map 0 va c va (PTE_U ||| PTE_COW ||| PTE_P),
          Call.page_map 0 va 0 va (PTE_U ||| PTE_COW ||| PTE_P)], ?_, ?_⟩
        · simp [page_map_post]
        · intro x hx
          rcases List.mem_cons.mp hx with h | h
          · exact ⟨c, _, h, Or.inl rfl⟩
          · rw [List.mem_singleton] at h
            exact ⟨0, _, h, Or.inr rfl⟩
      · refine ⟨[Call.page_map 0 va c va (PTE_U ||| PTE_P)], rfl, ?_⟩
        intro x hx
        rw [List.mem_singleton] at hx
        exact ⟨c, _, hx, Or.inl rfl⟩

theorem LoopRel_refl (child : Nat) (s : Machine) : LoopRel child s s :=
  ⟨SameRegs_refl s, rfl, rfl, id, [], by simp, by simp⟩

theorem LoopRel_trans (child : Nat) (a b c : Machine) (h1 : LoopRel child a b)
    (h2 : LoopRel child b c) : LoopRel child a c := by
  obtain ⟨r1, p1, f1, g1, L1, t1, d1⟩ := h1
  obtain ⟨r2, p2, f2, g2, L2, t2, d2⟩ := h2
  refine ⟨SameRegs_trans _ _ _ r1 r2, p2.trans p1, f2.trans f1, fun h => g2 (g1 h),
    L1 ++ L2, by rw [t2, t1, List.append_assoc], ?_⟩
  intro x hx
  rcases List.mem_append.mp hx with h | h
  · exact d1 x h
  · exact d2 x h

theorem LoopRel_duppage (child : Nat) (va : Nat) (s : Machine) (r : Int) (s1 : Machine)
    (hlt : va < UXSTACKTOP - PGSIZE)
    (h : duppage s child (va / PGSIZE) = Outcome.returned r s1) : LoopRel child s s1 := by
  rcases (duppage_returned s child _ r s1 h).2 with h1 | ⟨j, -, -, -, h1⟩
  · rw [h1]; exact LoopRel_refl child s
  · rw [h1]
    obtain ⟨L, hL, hd⟩ := dup_post_trace s j child (va / PGSIZE * PGSIZE % WORD)
    obtain ⟨-, f2, f3, -⟩ := dup_post_frame s j child (va / PGSIZE * PGSIZE % WORD)
    refine ⟨SameRegs_dup_post _ _ _ _, f2, f3, frames_fresh_dup_post _ _ _ _, L, hL, ?_⟩
    intro x hx
    obtain ⟨dst, perm, hx1, hx2⟩ := hd x hx
    refine ⟨_, dst, perm, hx1, ?_, hx2⟩
    simp only [UXSTACKTOP, PGSIZE, WORD] at hlt ⊢
    omega

/-- Anything that every returning `duppage` of the loop preserves, the whole
loop preserves when it returns. -/
theorem fork_loop_preserves_below (child : Nat) (R : Machine → Machine → Prop)
    (hrefl : ∀ s, R s s) (htrans : ∀ a b c, R a b → R b c → R a c)
    (hstep : ∀ va s r s1, va < UXSTACKTOP - PGSIZE →
      duppage s child (va / PGSIZE) = Outcome.returned r s1 → R s s1) :
    ∀ (n va : Nat) (s : Machine) (r : Int) (s1 : Machine), UXSTACKTOP - PGSIZE - va ≤ n →
      fork_loop child va s = Outcome.returned r s1 → R s s1 := by
  intro n
  induction n with
  | zero =>
    intro va s r s1 hn h
    rw [fork_loop, dif_neg (by omega)] at h
    injection h with _ hs
    rw [← hs]; exact hrefl s
  | succ n ih =>
    intro va s r s1 hn h
    rw [fork_loop] at h
    by_cases hlt : va < UXSTACKTOP - PGSIZE
    · rw [dif_pos hlt] at h
      cases hd : duppage s child (va / PGSIZE) with
      | returned r0 s0 =>
        rw [hd] at h
        simp only [] at h
        have hdec : UXSTACKTOP - PGSIZE - (va + PGSIZE) % WORD ≤ n := by
          simp only [UXSTACKTOP, PGSIZE, WORD] at hlt hn ⊢
          omega
        exact htrans _ _ _ (hstep _ _ _ _ hlt hd) (ih _ _ _ _ hdec h)
      | panicked s0 => rw [hd] at h; exact Outcome.noConfusion h
      | faulted s0 => rw [hd] at h; exact Outcome.noConfusion h
    · rw [dif_neg hlt] at h
      injection h with _ hs
      rw [← hs]; exact hrefl s

theorem LoopRel_fork_loop (child va : Nat) (s : Machine) (r : Int) (s1 : Machine)
    (h : fork_loop child va s = Outcome.returned r s1) : LoopRel child s s1 :=
  fork_loop_preserves_below child (LoopRel child) (LoopRel_refl child) (LoopRel_trans child)
    (fun va s r s1 hlt hd => LoopRel_duppage child va s r s1 hlt hd)
    (UXSTACKTOP - PGSIZE - va) va s r s1 (le_refl _) h

theorem mapped_of_PGNUM_eq (e : Env) (a b : Nat) (h : PGNUM a = PGNUM b) :
    mapped e a = mapped e b := by
  have hd : PDX a = PDX b := by
    rw [← PDX_PGNUM a, ← PDX_PGNUM b, h]
  unfold mapped
  rw [hd, h]

/-- The loop of `fork` returns when the target exists in another slot and
every mapped shared page below the exception stack is writable; a target
that started with no mapping ends with mappings below the exception stack
only, and only of pages the caller had mapped. -/
theorem fork_loop_returns (t0 : Machine) (c j : Nat)
    (hjc : j ≠ t0.curenv) (hj : envid2env t0 c true = some j)
    (hshare : ∀ va, va < UXSTACKTOP - PGSIZE → mapped t0.cur va = true →
      get_pte t0 va &&& PTE_SHARE ≠ 0 → get_pte t0 va &&& PTE_W ≠ 0)
    (hempty : ∀ va, mapped (t0.envs j) va = false) :
    ∃ t1, fork_loop c 0 t0 = Outcome.returned 0 t1 ∧
      ∀ va, mapped (t1.envs j) va = true →
        PGNUM va * PGSIZE < UXSTACKTOP - PGSIZE ∧ mapped t0.cur va = true := by
  have key := fork_loop_total c
    (fun va t =>
      t.curenv = t0.curenv ∧ envid2env t c true = some j ∧
      t.cur.env_pgdir = t0.cur.env_pgdir ∧
      (∀ pn, va ≤ pn * PGSIZE → t.cur.env_pgtab pn = t0.cur.env_pgtab pn) ∧
      (∀ va2, mapped (t.envs j) va2 = true →
        PGNUM va2 * PGSIZE < va ∧ mapped t0.cur va2 = true))
    ?_ 977919 0 t0 (by decide)
    ⟨rfl, hj, rfl, fun _ _ => rfl, fun va2 h => by rw [hempty] at h; exact absurd h (by simp)⟩
  · obtain ⟨t1, h1, -, -, -, -, hch⟩ := key
    exact ⟨t1, h1, hch⟩
  · intro va t hlt hal ⟨hc, hjt, hd, he, hch⟩
    have hjct : j ≠ t.curenv := by rw [hc]; exact hjc
    have hpn : va / PGSIZE * PGSIZE % WORD = va := by
      simp only [UXSTACKTOP, PGSIZE, WORD] at hlt hal ⊢
      omega
    have hPG : PGNUM va * PGSIZE = va := by
      unfold PGNUM
      unfold PGSIZE at hal ⊢
      omega
    have hg : get_pte t va = get_pte t0 va :=
      get_pte_congr t t0 va hd (he _ (by rw [hPG]))
    have hU : va < UTOP := by
      simp only [UXSTACKTOP, PGSIZE, UTOP] at hlt ⊢
      omega
    have hdup : duppage t c (va / PGSIZE) = Outcome.returned 0 (dup_post t j c va) := by
      by_cases c0 : get_pte t va = NO_PTE ∨ get_pte t va &&& PTE_P = 0
      · rw [duppage_def, hpn, if_pos c0]
        unfold dup_post
        rw [if_pos c0]
      · obtain ⟨hm, -⟩ := get_pte_present t va c0
        have hm0 : mapped t0.cur va = true := by
          rw [← mapped_congr t.cur t0.cur va hd (he _ (by rw [hPG]))]; exact hm
        have := duppage_eq t c (va / PGSIZE) j hjt (by rw [hpn]; exact hU)
          (by rw [hpn, hg]; exact hshare va hlt hm0)
        rw [hpn] at this
        exact this
    refine ⟨_, hdup, ?_⟩
    obtain ⟨f1, -, -, -⟩ := dup_post_frame t j c va
    obtain ⟨g1, g2⟩ := dup_post_parent_tables t j c va hjct
    have hcur : (dup_post t j c va).cur = (dup_post t j c va).envs t.curenv := by
      simp only [Machine.cur]; rw [f1]
    refine ⟨f1.trans hc, by rw [envid2env_dup_post]; exact hjt, ?_, ?_, ?_⟩
    · rw [hcur, g1]; exact hd
    · intro pn hpn2
      have hne : pn ≠ PGNUM va := by
        intro h
        rw [h, hPG] at hpn2
        unfold PGSIZE at hpn2
        omega
      rw [hcur, g2 pn hne]
      exact he pn (by omega)
    · intro va2 hm
      rcases dup_post_child t j c va hjct with h | ⟨perm, -, hmt, h⟩
      · rw [h] at hm
        have := hch va2 hm
        exact ⟨by omega, this.2⟩
      · rw [h] at hm
        rcases page_insert_mapped_cases _ _ _ _ hm with ⟨h1, -⟩ | ⟨h1, -⟩
        · refine ⟨?_, ?_⟩
          · rw [h1, hPG]
            unfold PGSIZE
            omega
          · rw [mapped_of_PGNUM_eq _ _ _ h1,
              ← mapped_congr t.cur t0.cur va hd (he _ (by rw [hPG]))]
            exact hmt
        · have := hch va2 h1
          exact ⟨by omega, this.2⟩

/-! ## The calls after the loop of `fork` -/

theorem fork_after_eq (c : Nat) (hc : 0 < c) (s s1 : Machine) (r : Int)
    (hl : fork_loop c 0 s = Outcome.returned r s1) :
    fork_after (Int.ofNat c) s = Outcome.returned (Int.ofNat c) (fork_tail c s1) := by
  unfold fork_after
  rw [if_pos (show Int.ofNat c > 0 from Int.ofNat_lt.mpr hc)]
  simp only [show (Int.ofNat c).toNat = c from rfl, hl]
  rfl

theorem sys_page_alloc_trace (s : Machine) (a va perm : Nat) :
    (sys_page_alloc s a va perm).2.trace = s.trace ++ [Call.page_alloc a va perm] := by
  rcases sys_page_alloc_cases s a va perm with h | ⟨i, f, rest, -, -, -, -, h⟩
  · rw [h]; rfl
  · rw [h]; rfl

theorem sys_env_set_pgfault_upcall_trace (s : Machine) (a entry : Nat) :
    (sys_env_set_pgfault_upcall s a entry).2.trace =
      s.trace ++ [Call.env_set_pgfault_upcall a entry] := by
  unfold sys_env_set_pgfault_upcall
  simp only [envid2env_log]
  cases envid2env s a true <;> rfl

theorem sys_env_set_status_trace (s : Machine) (a st : Nat) :
    (sys_env_set_status s a st).2.trace = s.trace ++ [Call.env_set_status a st] := by
  unfold sys_env_set_status
  simp only [envid2env_log]
  split
  · rfl
  · cases envid2env s a true <;> rfl

/-- The three requests that follow the loop, in order, end the log. -/
theorem fork_tail_trace (c : Nat) (t1 : Machine) :
    (fork_tail c t1).trace = t1.trace ++
      [Call.page_alloc c (UXSTACKTOP - PGSIZE) (PTE_P ||| PTE_U ||| PTE_W),
       Call.env_set_pgfault_upcall c
        ((sys_page_alloc t1 c (UXSTACKTOP - PGSIZE) (PTE_P ||| PTE_U ||| PTE_W)).2.envs
          (sys_page_alloc t1 c (UXSTACKTOP - PGSIZE)
            (PTE_P ||| PTE_U ||| PTE_W)).2.cur.thisenv).env_pgfault_upcall,
       Call.env_set_status c ENV_RUNNABLE] := by
  unfold fork_tail
  rw [sys_env_set_status_trace, sys_env_set_pgfault_upcall_trace, sys_page_alloc_trace]
  simp

theorem sys_env_set_pgfault_upcall_eq (s : Machine) (a entry i : Nat)
    (hi : envid2env s a true = some i) :
    sys_env_set_pgfault_upcall s a entry =
      (0, { s.log (Call.env_set_pgfault_upcall a entry) with
            envs := upd s.envs i { s.envs i with env_pgfault_upcall := entry } }) := by
  unfold sys_env_set_pgfault_upcall
  simp only [envid2env_log, hi]
  rfl

theorem sys_env_set_status_eq (s : Machine) (a st i : Nat)
    (hst : st = ENV_RUNNABLE ∨ st = ENV_NOT_RUNNABLE)
    (hi : envid2env s a true = some i) :
    sys_env_set_status s a st =
      (0, { s.log (Call.env_set_status a st) with
            envs := upd s.envs i { s.envs i with env_status := st } }) := by
  unfold sys_env_set_status
  have c : ¬ (st ≠ ENV_RUNNABLE ∧ st ≠ ENV_NOT_RUNNABLE) := by
    intro h; rcases hst with h1 | h1
    · exact h.1 h1
    · exact h.2 h1
  simp only [envid2env_log, hi]
  rw [if_neg c]
  rfl

/-- With no free frame the allocation call answers `-E_NO_MEM` and changes
nothing but the log. -/
theorem sys_page_alloc_no_mem (s : Machine) (a va perm i : Nat)
    (hi : envid2env s a true = some i) (h1 : va < UTOP) (h2 : va % PGSIZE = 0)
    (h3 : perm &&& PTE_SYSCALL = perm) (h4 : s.page_free_list = []) :
    sys_page_alloc s a va perm = (-E_NO_MEM, s.log (Call.page_alloc a va perm)) := by
  unfold sys_page_alloc
  simp only [envid2env_log, hi]
  have c1 : ¬ (UTOP ≤ va ∨ va % PGSIZE ≠ 0) := by omega
  have c2 : ¬ (perm &&& PTE_SYSCALL ≠ perm) := by simpa using h3
  have hf2 : (s.log (Call.page_alloc a va perm)).page_free_list = [] := h4
  simp only [c1, c2, if_false, hf2]

/-- The allocation call touches no environment but its target. -/
theorem sys_page_alloc_other (s : Machine) (a va perm i k : Nat)
    (hi : envid2env s a true = some i) (hk : k ≠ i) :
    (sys_page_alloc s a va perm).2.envs k = s.envs k := by
  rcases sys_page_alloc_cases s a va perm with h | ⟨i2, f, rest, hi2, -, -, -, h⟩
  · rw [h]; rfl
  · rw [h]
    have : i2 = i := Option.some.inj (hi2.symm.trans hi)
    subst this
    simp only [page_alloc_post, upd_other _ _ _ _ hk]

/-- What the three calls after the loop do when the target exists in a slot
other than the caller's: the target becomes runnable with the upcall of the
environment the caller's `thisenv` names, every other environment is
untouched, and after the allocation no table, frame or byte changes. -/
theorem fork_tail_spec (t1 : Machine) (c i : Nat) (hj : envid2env t1 c true = some i)
    (hic : i ≠ t1.curenv) :
    (fork_tail c t1).curenv = t1.curenv ∧
    (∀ k, k ≠ i → (fork_tail c t1).envs k = t1.envs k) ∧
    ((fork_tail c t1).envs i).env_status = ENV_RUNNABLE ∧
    ((fork_tail c t1).envs i).env_pgfault_upcall =
      (t1.envs t1.cur.thisenv).env_pgfault_upcall ∧
    ((fork_tail c t1).envs i).env_id = (t1.envs i).env_id ∧
    ((fork_tail c t1).envs i).env_parent_id = (t1.envs i).env_parent_id ∧
    (fork_tail c t1).trace = t1.trace ++
      [Call.page_alloc c (UXSTACKTOP - PGSIZE) (PTE_P ||| PTE_U ||| PTE_W),
       Call.env_set_pgfault_upcall c (t1.envs t1.cur.thisenv).env_pgfault_upcall,
       Call.env_set_status c ENV_RUNNABLE] ∧
    SameTables (sys_page_alloc t1 c (UXSTACKTOP - PGSIZE) (PTE_P ||| PTE_U ||| PTE_W)).2
      (fork_tail c t1) := by
  have hR := SameRegs_sys_page_alloc t1 c (UXSTACKTOP - PGSIZE) (PTE_P ||| PTE_U ||| PTE_W)
  have hO := fun k hk => sys_page_alloc_other t1 c (UXSTACKTOP - PGSIZE)
    (PTE_P ||| PTE_U ||| PTE_W) i k hj hk
  have hT := fork_tail_trace c t1
  have hST := SameTables_trans _ _ _
    (SameTables_sys_env_set_pgfault_upcall
      (sys_page_alloc t1 c (UXSTACKTOP - PGSIZE) (PTE_P ||| PTE_U ||| PTE_W)).2 c
      ((sys_page_alloc t1 c (UXSTACKTOP - PGSIZE) (PTE_P ||| PTE_U ||| PTE_W)).2.envs
        (sys_page_alloc t1 c (UXSTACKTOP - PGSIZE)
          (PTE_P ||| PTE_U ||| PTE_W)).2.cur.thisenv).env_pgfault_upcall)
    (SameTables_sys_env_set_status
      (sys_env_set_pgfault_upcall
        (sys_page_alloc t1 c (UXSTACKTOP - PGSIZE) (PTE_P ||| PTE_U ||| PTE_W)).2 c
        ((sys_page_alloc t1 c (UXSTACKTOP - PGSIZE) (PTE_P ||| PTE_U ||| PTE_W)).2.envs
          (sys_page_alloc t1 c (UXSTACKTOP - PGSIZE)
            (PTE_P ||| PTE_U ||| PTE_W)).2.cur.thisenv).env_pgfault_upcall).2 c ENV_RUNNABLE)
  have hj2 := (envid2env_SameRegs _ _ hR c true).trans hj
  have hdef : fork_tail c t1 = (sys_env_set_status
      (sys_env_set_pgfault_upcall
        (sys_page_alloc t1 c (UXSTACKTOP - PGSIZE) (PTE_P ||| PTE_U ||| PTE_W)).2 c
        ((sys_page_alloc t1 c (UXSTACKTOP - PGSIZE) (PTE_P ||| PTE_U ||| PTE_W)).2.envs
          (sys_page_alloc t1 c (UXSTACKTOP - PGSIZE)
            (PTE_P ||| PTE_U ||| PTE_W)).2.cur.thisenv).env_pgfault_upcall).2 c
      ENV_RUNNABLE).2 := rfl
  rw [← hdef] at hST
  generalize (sys_page_alloc t1 c (UXSTACKTOP - PGSIZE) (PTE_P ||| PTE_U ||| PTE_W)).2 = s2
    at hR hO hT hST hj2 hdef
  have hcur2 : s2.cur = t1.cur := by
    show s2.envs s2.curenv = t1.envs t1.curenv
    rw [hR.1]; exact hO _ (fun h => hic h.symm)
  have hentry : (s2.envs s2.cur.thisenv).env_pgfault_upcall =
      (t1.envs t1.cur.thisenv).env_pgfault_upcall := by
    rw [hcur2]; exact (hR.2 _).2.2.2.1
  rw [hentry] at hT hdef
  generalize (t1.envs t1.cur.thisenv).env_pgfault_upcall = entry at hT hdef ⊢
  rw [sys_env_set_pgfault_upcall_eq s2 c entry i hj2] at hdef
  have hj3 : envid2env ({ s2.log (Call.env_set_pgfault_upcall c entry) with
      envs := upd s2.envs i { s2.envs i with env_pgfault_upcall := entry } } : Machine) c true
      = some i := by
    rw [← hj2]
    apply envid2env_congr
    · rfl
    · intro k
      by_cases hk : k = i
      · subst hk
        simp only [upd_same, and_self]
      · simp only [upd_other _ _ _ _ hk, and_self]
  rw [sys_env_set_status_eq _ c ENV_RUNNABLE i (Or.inl rfl) hj3] at hdef
  refine ⟨?_, ?_, ?_, ?_, ?_, ?_, hT, hST⟩
  · rw [hdef]; exact hR.1
  · intro k hk
    rw [hdef]
    simp only [upd_other _ _ _ _ hk]
    exact hO k hk
  · rw [hdef]
    simp only [upd_same]
  · rw [hdef]
    simp only [upd_same]
  · rw [hdef]
    simp only [upd_same]
    exact (hR.2 i).1
  · rw [hdef]
    simp only [upd_same]
    exact (hR.2 i).2.1

/-! ## Runs of `fork` -/

/-- When `set_pgfault_handler` returns, the running slot and every
environment's id, parent, status and `thisenv` are as before, and the log
grew by requests on the caller itself only. -/
theorem set_pgfault_handler_returned (s : Machine) (h u : Nat) (r : Int) (s0 : Machine)
    (hr : set_pgfault_handler s h u = Outcome.returned r s0) :
    s0.curenv = s.curenv ∧
    (∀ k, (s0.envs k).env_id = (s.envs k).env_id ∧
      (s0.envs k).env_parent_id = (s.envs k).env_parent_id ∧
      (s0.envs k).env_status = (s.envs k).env_status ∧
      (s0.envs k).thisenv = (s.envs k).thisenv) ∧
    ∃ pre, s0.trace = s.trace ++ pre ∧
      ∀ x, x ∈ pre → x = Call.page_alloc 0 (UXSTACKTOP - PGSIZE) (PTE_W ||| PTE_U ||| PTE_P) ∨
        x = Call.env_set_pgfault_upcall 0 u := by
  have hsetEnv : ∀ (t : Machine) (k : Nat),
      ((t.setEnv t.curenv { t.cur with pgfault_handler := h }).envs k).env_id = (t.envs k).env_id ∧
      ((t.setEnv t.curenv { t.cur with pgfault_handler := h }).envs k).env_parent_id
        = (t.envs k).env_parent_id ∧
      ((t.setEnv t.curenv { t.cur with pgfault_handler := h }).envs k).env_status
        = (t.envs k).env_status ∧
      ((t.setEnv t.curenv { t.cur with pgfault_handler := h }).envs k).thisenv
        = (t.envs k).thisenv := by
    intro t k
    by_cases hk : k = t.curenv
    · subst hk
      simp [Machine.setEnv, Machine.cur]
    · simp [Machine.setEnv, upd, hk]
  unfold set_pgfault_handler at hr
  split at hr
  · simp only [] at hr
    split at hr
    · exact Outcome.noConfusion hr
    · split at hr
      · exact Outcome.noConfusion hr
      · injection hr with _ hs
        have hR := SameRegs_sys_page_alloc s 0 (UXSTACKTOP - PGSIZE) (PTE_W ||| PTE_U ||| PTE_P)
        have hT := sys_page_alloc_trace s 0 (UXSTACKTOP - PGSIZE) (PTE_W ||| PTE_U ||| PTE_P)
        generalize (sys_page_alloc s 0 (UXSTACKTOP - PGSIZE) (PTE_W ||| PTE_U ||| PTE_P)).2 = sa
          at hs hR hT
        have hT2 := sys_env_set_pgfault_upcall_trace sa 0 u
        have hU : (sys_env_set_pgfault_upcall sa 0 u).2.curenv = sa.curenv ∧
            ∀ k, ((sys_env_set_pgfault_upcall sa 0 u).2.envs k).env_id = (sa.envs k).env_id ∧
              ((sys_env_set_pgfault_upcall sa 0 u).2.envs k).env_parent_id
                = (sa.envs k).env_parent_id ∧
              ((sys_env_set_pgfault_upcall sa 0 u).2.envs k).env_status
                = (sa.envs k).env_status ∧
              ((sys_env_set_pgfault_upcall sa 0 u).2.envs k).thisenv = (sa.envs k).thisenv := by
          rw [sys_env_set_pgfault_upcall_eq sa 0 u sa.curenv (envid2env_zero _ _)]
          refine ⟨rfl, fun k => ?_⟩
          by_cases hk : k = sa.curenv
          · subst hk
            simp only [upd_same, and_self]
          · simp only [upd_other _ _ _ _ hk, and_self]
        generalize (sys_env_set_pgfault_upcall sa 0 u).2 = sb at hs hT2 hU
        rw [← hs]
        refine ⟨hU.1.trans hR.1, fun k => ?_, ?_⟩
        · obtain ⟨a1, a2, a3, a4⟩ := hsetEnv sb k
          obtain ⟨b1, b2, b3, b4⟩ := hU.2 k
          obtain ⟨c1, c2, c3, -, c5, -⟩ := hR.2 k
          exact ⟨a1.trans (b1.trans c1), a2.trans (b2.trans c2), a3.trans (b3.trans c3),
            a4.trans (b4.trans c5)⟩
        · refine ⟨[Call.page_alloc 0 (UXSTACKTOP - PGSIZE) (PTE_W ||| PTE_U ||| PTE_P),
            Call.env_set_pgfault_upcall 0 u], ?_, ?_⟩
          · show sb.trace = _
            rw [hT2, hT]
            simp
          · intro x hx
            rcases List.mem_cons.mp hx with h1 | h1
            · exact Or.inl h1
            · rw [List.mem_singleton] at h1
              exact Or.inr h1
  · injection hr with _ hs
    rw [← hs]
    exact ⟨rfl, hsetEnv s, [], by simp [Machine.setEnv], by simp⟩

/-- The environment a successful duplication creates is found under its
id, from the caller, when it sits in another slot. -/
theorem envid2env_exofork_post (s0 : Machine) (i : Nat) (hi : i < NENV)
    (hic : i ≠ s0.curenv) :
    envid2env (exofork_post s0 i) (mkenvid (s0.envs i).env_id i) true = some i ∧
    (exofork_post s0 i).cur = s0.cur ∧ (exofork_post s0 i).curenv = s0.curenv ∧
    (∀ va, mapped ((exofork_post s0 i).envs i) va = false) := by
  have hcpos := mkenvid_pos (s0.envs i).env_id i
  have hcmod := mkenvid_mod (s0.envs i).env_id i hi
  have hBcur : (exofork_post s0 i).cur = s0.cur := by
    show (exofork_post s0 i).envs s0.curenv = s0.envs s0.curenv
    simp only [exofork_post, upd_other _ _ _ _ (fun h => hic h.symm)]
  refine ⟨?_, hBcur, rfl, ?_⟩
  · generalize hc : mkenvid (s0.envs i).env_id i = c at hcpos hcmod
    have hBenv : (exofork_post s0 i).envs i =
        { env_id := c, env_parent_id := s0.cur.env_id, env_status := ENV_NOT_RUNNABLE,
          env_pgfault_upcall := 0, env_pgdir := fun _ => 0, env_pgtab := fun _ => 0,
          thisenv := s0.cur.thisenv, pgfault_handler := s0.cur.pgfault_handler } := by
      simp only [exofork_post, upd_same, hc]
    unfold envid2env
    have hc0 : c ≠ 0 := by omega
    rw [if_neg hc0]
    simp only [hcmod, hBenv, hBcur]
    simp [ENV_NOT_RUNNABLE, ENV_FREE]
  · intro va
    simp [exofork_post, mapped]

/-- A run of `fork` that returns a positive value: the handler registration
returned, the duplication took a free slot and returned the id of the new
environment, the loop returned, and the three calls after it were made. -/
theorem fork_returned (s : Machine) (h u : Nat) (r : Int) (s1 : Machine)
    (hf : fork s h u = Outcome.returned r s1) (hr : 0 < r) :
    ∃ s0 i t1, (∃ r0, set_pgfault_handler s h u = Outcome.returned r0 s0) ∧
      i < NENV ∧ (s0.envs i).env_status = ENV_FREE ∧
      sys_exofork s0 = (Int.ofNat (mkenvid (s0.envs i).env_id i), exofork_post s0 i) ∧
      r = Int.ofNat (mkenvid (s0.envs i).env_id i) ∧
      fork_loop (mkenvid (s0.envs i).env_id i) 0 (exofork_post s0 i) = Outcome.returned 0 t1 ∧
      s1 = fork_tail (mkenvid (s0.envs i).env_id i) t1 := by
  unfold fork at hf
  cases hset : set_pgfault_handler s h u with
  | returned r0 s0 =>
    rw [hset] at hf
    simp only [] at hf
    rcases sys_exofork_cases s0 with ⟨hexo, -⟩ | ⟨i, hi, hfree, hexo⟩
    · rw [hexo] at hf
      unfold fork_after at hf
      rw [if_neg (show ¬ (-E_NO_FREE_ENV > 0) by decide)] at hf
      injection hf with hr0 _
      rw [← hr0] at hr
      exact absurd hr (show ¬ (0 < -E_NO_FREE_ENV) by decide)
    · rw [hexo] at hf
      have hpos : (0 : Int) < Int.ofNat (mkenvid (s0.envs i).env_id i) :=
        Int.ofNat_lt.mpr (mkenvid_pos _ _)
      obtain ⟨h1, t1, hl, hs⟩ := fork_after_returned _ hpos _ _ _ hf
      exact ⟨s0, i, t1, ⟨r0, rfl⟩, hi, hfree, hexo, h1, hl, hs⟩
  | panicked s0 => rw [hset] at hf; exact Outcome.noConfusion hf
  | faulted s0 => rw [hset] at hf; exact Outcome.noConfusion hf

/-- A run of `fork` by an environment that has its handler registered, while
a slot is free and every mapped shared page below the exception stack is
writable: `duppage` is called for each page number below the exception stack in
order, the loop returns, and `fork` returns the positive id of the new
environment, which sits in another slot and maps only pages below the
exception stack when the three final calls are made. -/
theorem fork_total (s : Machine) (h u : Nat)
    (hlive : s.cur.env_status ≠ ENV_FREE)
    (hreg : s.cur.pgfault_handler ≠ 0)
    (hslot : ∃ i, i < NENV ∧ (s.envs i).env_status = ENV_FREE)
    (hshare : ∀ va, va < UXSTACKTOP - PGSIZE → mapped s.cur va = true →
      get_pte s va &&& PTE_SHARE ≠ 0 → get_pte s va &&& PTE_W ≠ 0) :
    ∃ i c t1, i < NENV ∧ i ≠ s.curenv ∧ 0 < c ∧ c % NENV = i ∧
      fork s h u = Outcome.returned (Int.ofNat c) (fork_tail c t1) ∧
      fork_calls s h u = List.range ((UXSTACKTOP - PGSIZE) / PGSIZE) ∧
      t1.curenv = s.curenv ∧ envid2env t1 c true = some i ∧
      t1.phys = s.phys ∧ t1.page_free_list = s.page_free_list ∧
      (frames_fresh s → frames_fresh t1) ∧
      (∀ va, mapped (t1.envs i) va = true →
        PGNUM va * PGSIZE < UXSTACKTOP - PGSIZE ∧ mapped s.cur va = true) ∧
      (t1.envs i).env_id = c ∧ (t1.envs i).env_parent_id = s.cur.env_id ∧
      t1.cur.thisenv = s.cur.thisenv ∧
      t1.cur.env_pgfault_upcall = s.cur.env_pgfault_upcall := by
  have hset : set_pgfault_handler s h u =
      Outcome.returned 0 (s.setEnv s.curenv { s.cur with pgfault_handler := h }) := by
    unfold set_pgfault_handler
    rw [if_neg hreg]
  have hA : ∀ k, ((s.setEnv s.curenv { s.cur with pgfault_handler := h }).envs
        k).env_status = (s.envs k).env_status ∧
      ((s.setEnv s.curenv { s.cur with pgfault_handler := h }).envs k).env_pgdir
        = (s.envs k).env_pgdir ∧
      ((s.setEnv s.curenv { s.cur with pgfault_handler := h }).envs k).env_pgtab
        = (s.envs k).env_pgtab ∧
      ((s.setEnv s.curenv { s.cur with pgfault_handler := h }).envs k).env_id
        = (s.envs k).env_id ∧
      ((s.setEnv s.curenv { s.cur with pgfault_handler := h }).envs k).thisenv
        = (s.envs k).thisenv ∧
      ((s.setEnv s.curenv { s.cur with pgfault_handler := h }).envs k).env_pgfault_upcall
        = (s.envs k).env_pgfault_upcall := by
    intro k
    by_cases hk : k = s.curenv
    · subst hk
      simp [Machine.setEnv, Machine.cur]
    · simp [Machine.setEnv, upd, hk]
  generalize hsA : s.setEnv s.curenv { s.cur with pgfault_handler := h } = sA at hset hA
  have hAc : sA.curenv = s.curenv := by rw [← hsA]; rfl
  have hAf : sA.page_free_list = s.page_free_list := by rw [← hsA]; rfl
  have hAp : sA.phys = s.phys := by rw [← hsA]; rfl
  rcases sys_exofork_cases sA with ⟨-, hnone⟩ | ⟨i, hi, hfree, hexo⟩
  · obtain ⟨i, hi, hfree⟩ := hslot
    exact absurd ((hA i).1.trans hfree) (hnone i hi)
  have hic : i ≠ s.curenv := by
    intro hh
    apply hlive
    rw [← hfree, hh, (hA _).1]
    rfl
  have hicA : i ≠ sA.curenv := by rw [hAc]; exact hic
  have hcpos := mkenvid_pos (sA.envs i).env_id i
  have hcmod := mkenvid_mod (sA.envs i).env_id i hi
  obtain ⟨hBj, hBcur, hBc, hBempty⟩ := envid2env_exofork_post sA i hi hicA
  have hBid : ((exofork_post sA i).envs i).env_id = mkenvid (sA.envs i).env_id i ∧
      ((exofork_post sA i).envs i).env_parent_id = sA.cur.env_id := by
    simp only [exofork_post, upd_same, and_self]
  generalize hc : mkenvid (sA.envs i).env_id i = c at hexo hcpos hcmod hBj hBid
  have hBoth : ∀ k, k ≠ i → (exofork_post sA i).envs k = sA.envs k := by
    intro k hk
    simp only [exofork_post, upd_other _ _ _ _ hk]
  have hcurA : sA.cur = sA.envs s.curenv := by simp only [Machine.cur, hAc]
  have hcurtab : sA.cur.env_pgdir = s.cur.env_pgdir ∧ sA.cur.env_pgtab = s.cur.env_pgtab := by
    have := hA s.curenv
    rw [hcurA]
    exact ⟨this.2.1, this.2.2.1⟩
  have hBg : ∀ va, get_pte (exofork_post sA i) va = get_pte s va := by
    intro va
    apply get_pte_congr
    · rw [hBcur]; exact hcurtab.1
    · rw [hBcur, hcurtab.2]
  have hBm : ∀ va, mapped (exofork_post sA i).cur va = mapped s.cur va := by
    intro va
    rw [hBcur]
    exact mapped_congr _ _ va hcurtab.1 (by rw [hcurtab.2])
  have hBff : frames_fresh s → frames_fresh (exofork_post sA i) := by
    intro hff
    refine frames_fresh_mono s _ hAf ?_ hff
    intro k va hm
    by_cases hk : k = i
    · subst hk
      rw [hBempty] at hm
      exact absurd hm (by simp)
    · rw [hBoth k hk] at hm ⊢
      have hmm := mapped_congr (sA.envs k) (s.envs k) va (hA k).2.1 (by rw [(hA k).2.2.1])
      exact ⟨by rw [← hmm]; exact hm, by rw [(hA k).2.2.1]⟩
  obtain ⟨t1, hloop, hch⟩ := fork_loop_returns (exofork_post sA i) c i hicA hBj
    (fun va hva hm => by rw [hBg]; exact hshare va hva (by rw [← hBm]; exact hm)) hBempty
  obtain ⟨hR, hp, hfl, hfr, -⟩ := LoopRel_fork_loop c 0 _ 0 t1 hloop
  have ht1c : t1.curenv = s.curenv := hR.1.trans hAc
  have ht1cur : t1.cur = t1.envs s.curenv := by simp only [Machine.cur, ht1c]
  have hBcur2 : (exofork_post sA i).envs s.curenv = sA.envs s.curenv :=
    hBoth _ (fun hh => hic hh.symm)
  refine ⟨i, c, t1, hi, hic, hcpos, hcmod, ?_, ?_, ht1c, ?_, hp.trans hAp, hfl.trans hAf,
    fun hff => hfr (hBff hff), ?_, ?_, ?_, ?_, ?_⟩
  · unfold fork
    rw [hset]
    simp only [hexo]
    exact fork_after_eq c hcpos _ _ _ hloop
  · unfold fork_calls
    rw [hset]
    simp only [hexo]
    rw [if_pos (show Int.ofNat c > 0 from Int.ofNat_lt.mpr hcpos)]
    have hN : (UXSTACKTOP - PGSIZE) / PGSIZE = 977919 := by decide
    rw [hN, List.range_eq_range']
    have := fork_loop_calls_full c 977919 0 (exofork_post sA i) 0 t1 (by decide) hloop
    rw [Nat.zero_div] at this
    exact this
  · rw [envid2env_SameRegs _ _ hR]; exact hBj
  · intro va hm
    obtain ⟨h1, h2⟩ := hch va hm
    exact ⟨h1, by rw [← hBm]; exact h2⟩
  · rw [(hR.2 i).1]; exact hBid.1
  · rw [(hR.2 i).2.1, hBid.2, hcurA, (hA _).2.2.2.1]
    rfl
  · rw [ht1cur, (hR.2 _).2.2.2.2.1, hBcur2, (hA _).2.2.2.2.1]
    rfl
  · rw [ht1cur, (hR.2 _).2.2.2.1, hBcur2, (hA _).2.2.2.2.2]
    rfl

/-! ## The pages `fork` duplicates and the child's exception stack -/

theorem fork_calls_initial (s : Machine) (h u : Nat) :
    fork_calls s h u <+: List.range ((UXSTACKTOP - PGSIZE) / PGSIZE) := by
  have hN : (UXSTACKTOP - PGSIZE) / PGSIZE = 977919 := by decide
  rw [hN, List.range_eq_range']
  unfold fork_calls
  cases set_pgfault_handler s h u with
  | returned r0 s0 =>
    simp only []
    split
    · have := fork_loop_calls_initial (sys_exofork s0).1.toNat 977919 0 (sys_exofork s0).2
        (by decide)
      rw [Nat.zero_div] at this
      exact this
    · exact List.nil_prefix
  | panicked s0 => exact List.nil_prefix
  | faulted s0 => exact List.nil_prefix

theorem maps_frame_alloc (e : Env) (va f q : Nat) (hq : q &&& 0xFFFFF000 = 0)
    (hp : q &&& PTE_P ≠ 0) (hq2 : q &&& 0xFFF = q) :
    maps_frame (page_insert e va (page2pa f ||| q)) va (page2pa f) q := by
  refine ⟨mapped_page_insert _ _ _ ?_, ?_, ?_⟩
  · rw [flag_alloc f q PTE_P rfl]; exact hp
  · rw [page_insert_pgtab_self, PTE_ADDR_alloc f q hq]
  · rw [page_insert_pgtab_self]
    unfold PTE_FLAGS
    rw [flag_alloc f q 0xFFF rfl, hq2]

/-- C12: the loop of `fork` hands `duppage` the page numbers 0, 1, 2, ... in
this order: in every run the calls made are an initial segment of the page
numbers below (UXSTACKTOP - PGSIZE) / PGSIZE, and in every run that returns
on the parent branch they are exactly all of them, so no page is passed
twice and none at or above the exception stack.  When, further, the handler
is registered, a slot and a frame are free and every mapped shared page is
writable, `fork` returns and the child's page at UXSTACKTOP - PGSIZE maps the
frame taken from the free list, zero-filled, with flags exactly
present+user+writable (no copy-on-write, no shared flag); no mapping of any
environment referenced that frame before, no mapping of the parent or of
any other environment references it afterwards, and every other page the
child maps lies below the exception stack, was mapped by the parent, and is
over another frame. -/
theorem fork_duppage_range_and_child_stack (s : Machine) (pgfault_entry upcall_entry f0 : Nat)
    (rest0 : List Nat) :
    fork_calls s pgfault_entry upcall_entry <+: List.range ((UXSTACKTOP - PGSIZE) / PGSIZE) ∧
    (∀ r s1, fork s pgfault_entry upcall_entry = Outcome.returned r s1 → 0 < r →
      fork_calls s pgfault_entry upcall_entry = List.range ((UXSTACKTOP - PGSIZE) / PGSIZE)) ∧
    (s.cur.env_status ≠ ENV_FREE → s.cur.pgfault_handler ≠ 0 →
      (∃ i, i < NENV ∧ (s.envs i).env_status = ENV_FREE) →
      (∀ va, va < UXSTACKTOP - PGSIZE → mapped s.cur va = true →
        get_pte s va &&& PTE_SHARE ≠ 0 → get_pte s va &&& PTE_W ≠ 0) →
      frames_fresh s → s.page_free_list = f0 :: rest0 →
      ∃ c j s1, fork s pgfault_entry upcall_entry = Outcome.returned (Int.ofNat c) s1 ∧
        0 < c ∧ j = c % NENV ∧ j ≠ s.curenv ∧ (s1.envs j).env_id = c ∧
        s1.curenv = s.curenv ∧
        maps_frame (s1.envs j) (UXSTACKTOP - PGSIZE) (page2pa f0) (PTE_P ||| PTE_U ||| PTE_W) ∧
        (s1.envs j).env_pgtab (PGNUM (UXSTACKTOP - PGSIZE)) &&& PTE_COW = 0 ∧
        (s1.envs j).env_pgtab (PGNUM (UXSTACKTOP - PGSIZE)) &&& PTE_SHARE = 0 ∧
        (∀ k va, mapped (s.envs k) va = true →
          PTE_ADDR ((s.envs k).env_pgtab (PGNUM va)) ≠ page2pa f0) ∧
        (∀ k va, k ≠ j → mapped (s1.envs k) va = true →
          PTE_ADDR ((s1.envs k).env_pgtab (PGNUM va)) ≠ page2pa f0) ∧
        (∀ va, mapped (s1.envs j) va = true → PGNUM va ≠ PGNUM (UXSTACKTOP - PGSIZE) →
          PGNUM va * PGSIZE < UXSTACKTOP - PGSIZE ∧ mapped s.cur va = true ∧
          PTE_ADDR ((s1.envs j).env_pgtab (PGNUM va)) ≠ page2pa f0) ∧
        (∀ off, s1.phys (page2pa f0) off = 0)) := by
  refine ⟨fork_calls_initial s pgfault_entry upcall_entry, ?_, ?_⟩
  · intro r s1 hf hr
    obtain ⟨s0, i, t1, ⟨r0, hset⟩, hi, hfree, hexo, hrc, hloop, hs1⟩ :=
      fork_returned s pgfault_entry upcall_entry r s1 hf hr
    have hN : (UXSTACKTOP - PGSIZE) / PGSIZE = 977919 := by decide
    rw [hN, List.range_eq_range']
    unfold fork_calls
    rw [hset]
    simp only [hexo]
    rw [if_pos (show Int.ofNat (mkenvid (s0.envs i).env_id i) > 0 from
      Int.ofNat_lt.mpr (mkenvid_pos _ _))]
    have := fork_loop_calls_full (mkenvid (s0.envs i).env_id i) 977919 0 (exofork_post s0 i) 0
      t1 (by decide) hloop
    rw [Nat.zero_div] at this
    exact this
  · intro hlive hreg hslot hshare hff hfl
    obtain ⟨i, c, t1, hi, hic, hcpos, hcmod, hfork, -, ht1c, hj, hp, hfl1, hfr, hch, hid, -, -,
      -⟩ := fork_total s pgfault_entry upcall_entry hlive hreg hslot hshare
    have hict : i ≠ t1.curenv := by rw [ht1c]; exact hic
    obtain ⟨k1, k2, -, -, k5, -, -, hST⟩ := fork_tail_spec t1 c i hj hict
    have ht1fl : t1.page_free_list = f0 :: rest0 := hfl1.trans hfl
    have hmem : f0 ∈ t1.page_free_list := by rw [ht1fl]; exact List.mem_cons_self _ _
    have halloc := sys_page_alloc_eq t1 c (UXSTACKTOP - PGSIZE) (PTE_P ||| PTE_U ||| PTE_W) i f0
      rest0 hj (by decide) (by decide) (by decide) ht1fl
    rw [halloc] at hST
    have hST2 : SameTables (page_alloc_post t1 i c (UXSTACKTOP - PGSIZE)
        (PTE_P ||| PTE_U ||| PTE_W) f0 rest0) (fork_tail c t1) := hST
    have hff1 := hfr hff
    have hchild : (page_alloc_post t1 i c (UXSTACKTOP - PGSIZE) (PTE_P ||| PTE_U ||| PTE_W) f0
        rest0).envs i = page_insert (t1.envs i) (UXSTACKTOP - PGSIZE)
          (page2pa f0 ||| (PTE_P ||| PTE_U ||| PTE_W)) := by
      simp only [page_alloc_post, upd_same]
    have hstack : maps_frame ((fork_tail c t1).envs i) (UXSTACKTOP - PGSIZE) (page2pa f0)
        (PTE_P ||| PTE_U ||| PTE_W) := by
      apply SameTables_maps_frame _ _ hST2
      rw [hchild]
      exact maps_frame_alloc _ _ _ _ rfl (by decide) rfl
    refine ⟨c, i, fork_tail c t1, hfork, hcpos, hcmod.symm, hic, k5.trans hid, k1.trans ht1c,
      hstack, ?_, ?_, ?_, ?_, ?_, ?_⟩
    · rw [maps_frame_flag _ _ _ _ PTE_COW hstack rfl]; rfl
    · rw [maps_frame_flag _ _ _ _ PTE_SHARE hstack rfl]; rfl
    · intro k va hm
      exact hff.2 f0 (by rw [hfl]; exact List.mem_cons_self _ _) k va hm
    · intro k va hk hm
      rw [k2 k hk] at hm ⊢
      exact hff1.2 f0 hmem k va hm
    · intro va hm hne
      rw [SameTables_mapped _ _ hST2, hchild] at hm
      rw [(hST2.2.2.2 i).2.1, hchild]
      obtain ⟨h1, h2⟩ := page_insert_mapped_other _ _ _ _ hne hm
      rw [h2]
      exact ⟨(hch va h1).1, (hch va h1).2, hff1.2 f0 hmem i va h1⟩
    · intro off
      rw [hST2.2.1]
      show upd t1.phys (page2pa f0) (fun _ => 0) (page2pa f0) off = 0
      rw [upd_same]

theorem fork_duppage_range_and_child_stack_witness :
    sampleW.cur.env_status ≠ ENV_FREE ∧ sampleW.cur.pgfault_handler ≠ 0 ∧
    (∃ i, i < NENV ∧ (sampleW.envs i).env_status = ENV_FREE) ∧
    frames_fresh sampleW ∧ sampleW.page_free_list = [9, 10, 11] ∧
    fork_calls sampleW 0x802000 0x801000 <+: List.range ((UXSTACKTOP - PGSIZE) / PGSIZE) ∧
    ∃ c j s1, fork sampleW 0x802000 0x801000 = Outcome.returned (Int.ofNat c) s1 ∧
      0 < c ∧ j = c % NENV ∧ j ≠ sampleW.curenv ∧ (s1.envs j).env_id = c ∧
      s1.curenv = sampleW.curenv ∧
      maps_frame (s1.envs j) (UXSTACKTOP - PGSIZE) (page2pa 9) (PTE_P ||| PTE_U ||| PTE_W) ∧
      (s1.envs j).env_pgtab (PGNUM (UXSTACKTOP - PGSIZE)) &&& PTE_COW = 0 ∧
      (s1.envs j).env_pgtab (PGNUM (UXSTACKTOP - PGSIZE)) &&& PTE_SHARE = 0 ∧
      (∀ k va, mapped (sampleW.envs k) va = true →
        PTE_ADDR ((sampleW.envs k).env_pgtab (PGNUM va)) ≠ page2pa 9) ∧
      (∀ k va, k ≠ j → mapped (s1.envs k) va = true →
        PTE_ADDR ((s1.envs k).env_pgtab (PGNUM va)) ≠ page2pa 9) ∧
      (∀ va, mapped (s1.envs j) va = true → PGNUM va ≠ PGNUM (UXSTACKTOP - PGSIZE) →
        PGNUM va * PGSIZE < UXSTACKTOP - PGSIZE ∧ mapped sampleW.cur va = true ∧
        PTE_ADDR ((s1.envs j).env_pgtab (PGNUM va)) ≠ page2pa 9) ∧
      (∀ off, s1.phys (page2pa 9) off = 0) :=
  ⟨by decide, by decide, ⟨2, by decide, by decide⟩, sampleMachine_fresh _ _ rfl, rfl,
   (fork_duppage_range_and_child_stack sampleW 0x802000 0x801000 9 [10, 11]).1,
   (fork_duppage_range_and_child_stack sampleW 0x802000 0x801000 9 [10, 11]).2.2
     (by decide) (by decide) ⟨2, by decide, by decide⟩
     (fun va _ _ hs => sampleMachine_share _ _ (by decide) va hs)
     (sampleMachine_fresh _ _ rfl) rfl⟩

/-! ## The order of the calls of `fork` -/

theorem getLast_append_three {α : Type} (l : List α) (a b c : α) :
    (l ++ [a, b, c]).getLast? = some c := by
  have : l ++ [a, b, c] = (l ++ [a, b]) ++ [c] := by simp
  rw [this, List.getLast?_concat]

/-- C13: in every run of `fork` that returns on the parent branch with child
id `r`, the log of requests grew by: the handler registration's requests on
the caller itself (if any), the duplication, the mapping requests of
`duppage`, then the allocation of the child's exception stack, the
registration of the child's upcall, and last of all the request that makes
the child runnable.  When the caller's `thisenv` names the caller (and the
caller's slot is in use), the registered value is the caller's own upcall
entry, and the child ends with that entry and runnable. -/
theorem fork_runnable_last (s : Machine) (pgfault_entry upcall_entry : Nat) (r : Int)
    (s1 : Machine)
    (hf : fork s pgfault_entry upcall_entry = Outcome.returned r s1) (hr : 0 < r) :
    ∃ pre maps entry,
      s1.trace = s.trace ++ pre ++ [Call.exofork] ++ maps ++
        [Call.page_alloc r.toNat (UXSTACKTOP - PGSIZE) (PTE_P ||| PTE_U ||| PTE_W),
         Call.env_set_pgfault_upcall r.toNat entry,
         Call.env_set_status r.toNat ENV_RUNNABLE] ∧
      (∀ x, x ∈ pre →
        x = Call.page_alloc 0 (UXSTACKTOP - PGSIZE) (PTE_W ||| PTE_U ||| PTE_P) ∨
        x = Call.env_set_pgfault_upcall 0 upcall_entry) ∧
      (∀ x, x ∈ maps → dup_call r.toNat x) ∧
      s1.trace.getLast? = some (Call.env_set_status r.toNat ENV_RUNNABLE) ∧
      (s.cur.thisenv = s.curenv → s.cur.env_status ≠ ENV_FREE →
        r.toNat % NENV ≠ s1.curenv ∧
        entry = s1.cur.env_pgfault_upcall ∧
        (s1.envs (r.toNat % NENV)).env_id = r.toNat ∧
        (s1.envs (r.toNat % NENV)).env_pgfault_upcall = entry ∧
        (s1.envs (r.toNat % NENV)).env_status = ENV_RUNNABLE) := by
  obtain ⟨s0, i, t1, ⟨r0, hset⟩, hi, hfree, hexo, hrc, hloop, hs1⟩ :=
    fork_returned s pgfault_entry upcall_entry r s1 hf hr
  obtain ⟨h0c, h0f, pre, hpre, hpre2⟩ :=
    set_pgfault_handler_returned s pgfault_entry upcall_entry r0 s0 hset
  have hcmod := mkenvid_mod (s0.envs i).env_id i hi
  have hrt : r.toNat = mkenvid (s0.envs i).env_id i := by rw [hrc]; rfl
  rw [hrt]
  generalize hc : mkenvid (s0.envs i).env_id i = c at hexo hrc hloop hs1 hcmod
  obtain ⟨hR, -, -, -, L, hL, hL2⟩ := LoopRel_fork_loop c 0 _ 0 t1 hloop
  have hT := fork_tail_trace c t1
  rw [← hs1] at hT
  have h0t : (exofork_post s0 i).trace = s0.trace ++ [Call.exofork] := rfl
  have htrace : s1.trace = s.trace ++ pre ++ [Call.exofork] ++ L ++
      [Call.page_alloc c (UXSTACKTOP - PGSIZE) (PTE_P ||| PTE_U ||| PTE_W),
       Call.env_set_pgfault_upcall c
        ((sys_page_alloc t1 c (UXSTACKTOP - PGSIZE) (PTE_P ||| PTE_U ||| PTE_W)).2.envs
          (sys_page_alloc t1 c (UXSTACKTOP - PGSIZE)
            (PTE_P ||| PTE_U ||| PTE_W)).2.cur.thisenv).env_pgfault_upcall,
       Call.env_set_status c ENV_RUNNABLE] := by
    rw [hT, hL, h0t, hpre]
  refine ⟨pre, L, _, htrace, hpre2, hL2, ?_, ?_⟩
  · rw [htrace]
    exact getLast_append_three _ _ _ _
  · intro hthis hlive
    have hic : i ≠ s0.curenv := by
      intro hh
      apply hlive
      rw [← hfree, hh, (h0f _).2.2.1, h0c]
      rfl
    obtain ⟨hBj, hBcur, hBc, -⟩ := envid2env_exofork_post s0 i hi hic
    rw [hc] at hBj
    have hj1 : envid2env t1 c true = some i := by
      rw [envid2env_SameRegs _ _ hR]; exact hBj
    have ht1c : t1.curenv = s0.curenv := hR.1.trans hBc
    have hict : i ≠ t1.curenv := by rw [ht1c]; exact hic
    obtain ⟨k1, k2, k3, k4, k5, -, k7, -⟩ := fork_tail_spec t1 c i hj1 hict
    rw [← hs1] at k1 k2 k3 k4 k5 k7
    -- the value registered
    have hsame := List.append_cancel_left (hT.symm.trans k7)
    have hentry : ((sys_page_alloc t1 c (UXSTACKTOP - PGSIZE) (PTE_P ||| PTE_U ||| PTE_W)).2.envs
        (sys_page_alloc t1 c (UXSTACKTOP - PGSIZE)
          (PTE_P ||| PTE_U ||| PTE_W)).2.cur.thisenv).env_pgfault_upcall =
        (t1.envs t1.cur.thisenv).env_pgfault_upcall := by
      simpa using hsame
    have hth : t1.cur.thisenv = t1.curenv := by
      have e1 : t1.cur.thisenv = ((exofork_post s0 i).envs t1.curenv).thisenv :=
        (hR.2 t1.curenv).2.2.2.2.1
      have e2 : (exofork_post s0 i).envs t1.curenv = s0.cur := by
        rw [ht1c]; exact hBcur
      have e3 : s0.cur.thisenv = (s.envs s0.curenv).thisenv := (h0f s0.curenv).2.2.2
      rw [e1, e2, e3, h0c, ht1c, h0c]
      exact hthis
    have hcur1 : s1.cur = t1.cur := by
      show s1.envs s1.curenv = t1.envs t1.curenv
      rw [k1]
      exact k2 _ (fun hh => hict hh.symm)
    rw [hcmod]
    refine ⟨by rw [k1]; exact hict, ?_, ?_, ?_, k3⟩
    · rw [hentry, hth, hcur1]
      rfl
    · have : (t1.envs i).env_id = ((exofork_post s0 i).envs i).env_id := (hR.2 i).1
      rw [k5, this]
      simp only [exofork_post, upd_same]
      exact hc
    · rw [k4, hentry]

theorem fork_runnable_last_witness :
    sampleW.cur.thisenv = sampleW.curenv ∧ sampleW.cur.env_status ≠ ENV_FREE ∧
    ∃ r s1, fork sampleW 0x802000 0x801000 = Outcome.returned r s1 ∧ 0 < r ∧
      ∃ pre maps entry,
        s1.trace = sampleW.trace ++ pre ++ [Call.exofork] ++ maps ++
          [Call.page_alloc r.toNat (UXSTACKTOP - PGSIZE) (PTE_P ||| PTE_U ||| PTE_W),
           Call.env_set_pgfault_upcall r.toNat entry,
           Call.env_set_status r.toNat ENV_RUNNABLE] ∧
        (∀ x, x ∈ pre →
          x = Call.page_alloc 0 (UXSTACKTOP - PGSIZE) (PTE_W ||| PTE_U ||| PTE_P) ∨
          x = Call.env_set_pgfault_upcall 0 0x801000) ∧
        (∀ x, x ∈ maps → dup_call r.toNat x) ∧
        s1.trace.getLast? = some (Call.env_set_status r.toNat ENV_RUNNABLE) ∧
        (sampleW.cur.thisenv = sampleW.curenv → sampleW.cur.env_status ≠ ENV_FREE →
          r.toNat % NENV ≠ s1.curenv ∧
          entry = s1.cur.env_pgfault_upcall ∧
          (s1.envs (r.toNat % NENV)).env_id = r.toNat ∧
          (s1.envs (r.toNat % NENV)).env_pgfault_upcall = entry ∧
          (s1.envs (r.toNat % NENV)).env_status = ENV_RUNNABLE) :=
  ⟨by decide, by decide,
   let ⟨_, c, t1, _, _, hc, _, hfork, _⟩ := fork_total sampleW 0x802000 0x801000 (by decide)
     (by decide) ⟨2, by decide, by decide⟩
     (fun va _ _ hs => sampleMachine_share _ _ (by decide) va hs)
   ⟨Int.ofNat c, fork_tail c t1, hfork, Int.ofNat_lt.mpr hc,
    fork_runnable_last sampleW 0x802000 0x801000 (Int.ofNat c) (fork_tail c t1) hfork
      (Int.ofNat_lt.mpr hc)⟩⟩

/-! ## The child branch of `fork` -/

/-- The loop of the child branch, from index `i` on: it only asks for the
caller's id, and either no slot from `i` on carries that id and no
environment changes, or `thisenv` of the caller is set to the first such
slot and nothing else changes. -/
theorem fix_thisenv_spec : ∀ (n i : Nat) (s : Machine), 1024 - i ≤ n →
    ∃ k, (fix_thisenv i s).trace = s.trace ++ List.replicate k Call.getenvid ∧
      (fix_thisenv i s).curenv = s.curenv ∧ (fix_thisenv i s).phys = s.phys ∧
      (fix_thisenv i s).page_free_list = s.page_free_list ∧
      (((∀ j, i ≤ j → j < 1024 → (s.envs j).env_id ≠ s.cur.env_id) ∧
          (fix_thisenv i s).envs = s.envs) ∨
        ∃ m, i ≤ m ∧ m < 1024 ∧ (s.envs m).env_id = s.cur.env_id ∧
          (∀ j, i ≤ j → j < m → (s.envs j).env_id ≠ s.cur.env_id) ∧
          (fix_thisenv i s).envs = upd s.envs s.curenv { s.cur with thisenv := m }) := by
  intro n
  induction n with
  | zero =>
    intro i s hn
    rw [fix_thisenv, dif_neg (by omega)]
    exact ⟨0, by simp, rfl, rfl, rfl, Or.inl ⟨fun j h1 h2 => by omega, rfl⟩⟩
  | succ n ih =>
    intro i s hn
    by_cases hlt : i < 1024
    · rw [fix_thisenv, dif_pos hlt]
      simp only []
      by_cases hcond : Int.ofNat ((sys_getenvid s).2.envs i).env_id = (sys_getenvid s).1
      · rw [if_pos hcond]
        have hm : (s.envs i).env_id = s.cur.env_id := Int.ofNat.inj hcond
        refine ⟨1, rfl, rfl, rfl, rfl, Or.inr ⟨i, le_refl _, hlt, hm, fun j h1 h2 => by omega, rfl⟩⟩
      · rw [if_neg hcond]
        have hm : (s.envs i).env_id ≠ s.cur.env_id := by
          intro h
          apply hcond
          show Int.ofNat (s.envs i).env_id = Int.ofNat s.cur.env_id
          rw [h]
        obtain ⟨k, h1, h2, h3, h4, h5⟩ := ih (i + 1) (sys_getenvid s).2 (by omega)
        refine ⟨k + 1, ?_, h2, h3, h4, ?_⟩
        · rw [h1]
          show s.trace ++ [Call.getenvid] ++ List.replicate k Call.getenvid = _
          rw [List.replicate_succ, List.append_assoc]
          rfl
        · have hstep : ∀ j, i ≤ j → j ≠ i → i + 1 ≤ j := fun j h1 h2 => by omega
          rcases h5 with ⟨a1, a2⟩ | ⟨m, b1, b2, b3, b4, b5⟩
          · left
            refine ⟨fun j hj1 hj2 => ?_, a2⟩
            by_cases hji : j = i
            · rw [hji]; exact hm
            · exact a1 j (hstep j hj1 hji) hj2
          · right
            refine ⟨m, by omega, b2, b3, fun j hj1 hj2 => ?_, b5⟩
            by_cases hji : j = i
            · rw [hji]; exact hm
            · exact b4 j (hstep j hj1 hji) hj2
    · rw [fix_thisenv, dif_neg hlt]
      exact ⟨0, by simp, rfl, rfl, rfl, Or.inl ⟨fun j h1 h2 => by omega, rfl⟩⟩

theorem Keeps_fork_tail (c : Nat) (t1 : Machine) : Keeps t1 (fork_tail c t1) :=
  Keeps.trans _ _ _ (Keeps.trans _ _ _ (Keeps_sys_page_alloc _ _ _ _ (by decide))
    (Keeps_sys_env_set_pgfault_upcall _ _ _)) (Keeps_sys_env_set_status _ _ _)

/-- C14: what `fork` returns to each side.  In the parent, `fork` returns
either the error of a failed duplication or a positive value, and that value
is the id of the environment the duplication created in a slot that was
free.  In the child, where the duplication returned 0, `fork` returns 0; the
only requests it makes ask for its own id, memory and the free list are as
before, and either no environment changes at all or the one change is that
the caller's `thisenv` names the first slot whose id is the caller's: no
page is allocated or mapped, no upcall is registered, no status changes. -/
theorem fork_child_only_fixes_thisenv (s : Machine) (pgfault_entry upcall_entry : Nat) :
    (∀ r s1, fork s pgfault_entry upcall_entry = Outcome.returned r s1 →
      r = -E_NO_FREE_ENV ∨
      (0 < r ∧ (s.envs (r.toNat % NENV)).env_status = ENV_FREE ∧
        (s1.envs (r.toNat % NENV)).env_id = r.toNat)) ∧
    ∃ k t, fork_after 0 s = Outcome.returned 0 t ∧
      t.trace = s.trace ++ List.replicate k Call.getenvid ∧
      t.curenv = s.curenv ∧ t.phys = s.phys ∧ t.page_free_list = s.page_free_list ∧
      (((∀ j, j < 1024 → (s.envs j).env_id ≠ s.cur.env_id) ∧ t.envs = s.envs) ∨
        ∃ m, m < 1024 ∧ (s.envs m).env_id = s.cur.env_id ∧
          (∀ j, j < m → (s.envs j).env_id ≠ s.cur.env_id) ∧
          t.envs = upd s.envs s.curenv { s.cur with thisenv := m }) := by
  constructor
  · intro r s1 hf
    by_cases hr : 0 < r
    · right
      obtain ⟨s0, i, t1, ⟨r0, hset⟩, hi, hfree, hexo, hrc, hloop, hs1⟩ :=
        fork_returned s pgfault_entry upcall_entry r s1 hf hr
      obtain ⟨-, h0f, -⟩ := set_pgfault_handler_returned s pgfault_entry upcall_entry r0 s0 hset
      have hrt : r.toNat = mkenvid (s0.envs i).env_id i := by rw [hrc]; rfl
      obtain ⟨hR, -⟩ := LoopRel_fork_loop _ 0 _ 0 t1 hloop
      refine ⟨hr, ?_, ?_⟩
      · rw [hrt, mkenvid_mod _ _ hi, ← (h0f i).2.2.1]
        exact hfree
      · rw [hrt, mkenvid_mod _ _ hi, hs1, ((Keeps_fork_tail _ t1).2 i).1, (hR.2 i).1]
        simp only [exofork_post, upd_same]
    · left
      unfold fork at hf
      cases hset : set_pgfault_handler s pgfault_entry upcall_entry with
      | returned r0 s0 =>
        rw [hset] at hf
        simp only [] at hf
        rcases sys_exofork_cases s0 with ⟨hexo, -⟩ | ⟨i, hi, hfree, hexo⟩
        · rw [hexo] at hf
          unfold fork_after at hf
          rw [if_neg (show ¬ (-E_NO_FREE_ENV > 0) by decide)] at hf
          exact (Outcome.returned.inj hf).1.symm
        · rw [hexo] at hf
          have hpos : (0 : Int) < Int.ofNat (mkenvid (s0.envs i).env_id i) :=
            Int.ofNat_lt.mpr (mkenvid_pos _ _)
          obtain ⟨h1, -⟩ := fork_after_returned _ hpos _ _ _ hf
          rw [h1] at hr
          exact absurd hpos hr
      | panicked s0 => rw [hset] at hf; exact Outcome.noConfusion hf
      | faulted s0 => rw [hset] at hf; exact Outcome.noConfusion hf
  · obtain ⟨k, h1, h2, h3, h4, h5⟩ := fix_thisenv_spec 1024 0 s (by omega)
    refine ⟨k, fix_thisenv 0 s, ?_, h1, h2, h3, h4, ?_⟩
    · unfold fork_after
      rw [if_neg (show ¬ ((0 : Int) > 0) by decide)]
    · rcases h5 with ⟨a1, a2⟩ | ⟨m, -, b2, b3, b4, b5⟩
      · exact Or.inl ⟨fun j hj => a1 j (Nat.zero_le _) hj, a2⟩
      · exact Or.inr ⟨m, b2, b3, fun j hj => b4 j (Nat.zero_le _) hj, b5⟩

theorem fork_child_only_fixes_thisenv_witness :
    (∃ r s1, fork sampleW 0x802000 0x801000 = Outcome.returned r s1 ∧ 0 < r ∧
      (sampleW.envs (r.toNat % NENV)).env_status = ENV_FREE ∧
      (s1.envs (r.toNat % NENV)).env_id = r.toNat) ∧
    ∃ k t, fork_after 0 sampleW = Outcome.returned 0 t ∧
      t.trace = sampleW.trace ++ List.replicate k Call.getenvid ∧
      t.curenv = sampleW.curenv ∧ t.phys = sampleW.phys ∧
      t.page_free_list = sampleW.page_free_list ∧
      (((∀ j, j < 1024 → (sampleW.envs j).env_id ≠ sampleW.cur.env_id) ∧
          t.envs = sampleW.envs) ∨
        ∃ m, m < 1024 ∧ (sampleW.envs m).env_id = sampleW.cur.env_id ∧
          (∀ j, j < m → (sampleW.envs j).env_id ≠ sampleW.cur.env_id) ∧
          t.envs = upd sampleW.envs sampleW.curenv { sampleW.cur with thisenv := m }) :=
  ⟨let ⟨_, c, t1, _, _, hc, _, hfork, _⟩ := fork_total sampleW 0x802000 0x801000 (by decide)
     (by decide) ⟨2, by decide, by decide⟩
     (fun va _ _ hs => sampleMachine_share _ _ (by decide) va hs)
   ⟨Int.ofNat c, fork_tail c t1, hfork, Int.ofNat_lt.mpr hc,
    (((fork_child_only_fixes_thisenv sampleW 0x802000 0x801000).1 (Int.ofNat c)
      (fork_tail c t1) hfork).resolve_left
        (fun h => by
          have h2 : (0 : Int) < Int.ofNat c := Int.ofNat_lt.mpr hc
          rw [h] at h2
          exact absurd h2 (by decide))).2⟩,
   (fork_child_only_fixes_thisenv sampleW 0x802000 0x801000).2⟩

/-! ## `fork` when a call after the loop fails -/

/-- A run of `fork` while no frame is free (handler registered, a slot free,
every mapped shared page writable): the allocation of the child's exception
stack answers `-E_NO_MEM`, and `fork` still makes the child runnable and
returns its positive id; the child has no page at the exception stack. -/
theorem fork_no_frames (s : Machine) (h u : Nat)
    (hlive : s.cur.env_status ≠ ENV_FREE)
    (hreg : s.cur.pgfault_handler ≠ 0)
    (hslot : ∃ i, i < NENV ∧ (s.envs i).env_status = ENV_FREE)
    (hshare : ∀ va, va < UXSTACKTOP - PGSIZE → mapped s.cur va = true →
      get_pte s va &&& PTE_SHARE ≠ 0 → get_pte s va &&& PTE_W ≠ 0)
    (hfl : s.page_free_list = []) :
    ∃ c t1, fork s h u = Outcome.returned (Int.ofNat c) (fork_tail c t1) ∧ 0 < c ∧
      c % NENV ≠ s.curenv ∧
      (sys_page_alloc t1 c (UXSTACKTOP - PGSIZE) (PTE_P ||| PTE_U ||| PTE_W)).1 = -E_NO_MEM ∧
      ((fork_tail c t1).envs (c % NENV)).env_id = c ∧
      ((fork_tail c t1).envs (c % NENV)).env_status = ENV_RUNNABLE ∧
      mapped ((fork_tail c t1).envs (c % NENV)) (UXSTACKTOP - PGSIZE) = false ∧
      (fork_tail c t1).trace.getLast? = some (Call.env_set_status c ENV_RUNNABLE) := by
  obtain ⟨i, c, t1, hi, hic, hcpos, hcmod, hfork, -, ht1c, hj, -, hfl1, -, hch, hid, -, -, -⟩ :=
    fork_total s h u hlive hreg hslot hshare
  have hict : i ≠ t1.curenv := by rw [ht1c]; exact hic
  obtain ⟨-, -, k3, -, k5, -, k7, hST⟩ := fork_tail_spec t1 c i hj hict
  have halloc := sys_page_alloc_no_mem t1 c (UXSTACKTOP - PGSIZE) (PTE_P ||| PTE_U ||| PTE_W) i
    hj (by decide) (by decide) (by decide) (hfl1.trans hfl)
  rw [halloc] at hST
  have hST2 : SameTables (t1.log (Call.page_alloc c (UXSTACKTOP - PGSIZE)
      (PTE_P ||| PTE_U ||| PTE_W))) (fork_tail c t1) := hST
  refine ⟨c, t1, hfork, hcpos, ?_, by rw [halloc], ?_, ?_, ?_, ?_⟩
  · rw [hcmod]; exact hic
  · rw [hcmod]; exact k5.trans hid
  · rw [hcmod]; exact k3
  rw [hcmod]
  · rw [SameTables_mapped _ _ hST2]
    show mapped (t1.envs i) (UXSTACKTOP - PGSIZE) = false
    cases hm : mapped (t1.envs i) (UXSTACKTOP - PGSIZE) with
    | false => rfl
    | true => exact absurd (hch _ hm).1 (by decide)
  · rw [k7]
    exact getLast_append_three _ _ _ _

/-- C15 (the code diverges): `fork` on the sample machine with no free
frame.  The allocation of the child's exception stack fails with
`-E_NO_MEM`; `fork` ignores the result, goes on to make the child runnable
(its last request) and returns the child's positive id, although the child
has no exception-stack page. -/
theorem fork_ignores_failed_stack_alloc :
    sampleNoFrames.page_free_list = [] ∧
    ∃ c t1, fork sampleNoFrames 0x802000 0x801000 =
        Outcome.returned (Int.ofNat c) (fork_tail c t1) ∧ 0 < c ∧
      c % NENV ≠ sampleNoFrames.curenv ∧
      (sys_page_alloc t1 c (UXSTACKTOP - PGSIZE) (PTE_P ||| PTE_U ||| PTE_W)).1 = -E_NO_MEM ∧
      ((fork_tail c t1).envs (c % NENV)).env_id = c ∧
      ((fork_tail c t1).envs (c % NENV)).env_status = ENV_RUNNABLE ∧
      mapped ((fork_tail c t1).envs (c % NENV)) (UXSTACKTOP - PGSIZE) = false ∧
      (fork_tail c t1).trace.getLast? = some (Call.env_set_status c ENV_RUNNABLE) :=
  ⟨rfl, fork_no_frames sampleNoFrames 0x802000 0x801000 (by decide) (by decide)
    ⟨2, by decide, by decide⟩
    (fun va _ _ hs => sampleMachine_share 0x800 (PTE_P ||| PTE_U ||| PTE_W) (by decide) va hs)
    rfl⟩

/-! ## Absent pages -/

theorem PGNUM_pgaddr (va : Nat) : PGNUM (PGNUM va * PGSIZE) = PGNUM va := by
  unfold PGNUM PGSIZE; omega

theorem sampleStackOnly_none (va : Nat) (hva : va < UXSTACKTOP - PGSIZE) :
    mapped sampleStackOnly.cur va = false := by
  have hp : PGNUM va ≠ 0xEEBFF := by
    unfold PGNUM
    simp only [UXSTACKTOP, PGSIZE] at hva ⊢
    omega
  have he : sampleStackOnly.cur.env_pgtab (PGNUM va) = 0 := by
    simp [sampleStackOnly, sampleMachine, Machine.cur, upd, parentEnv, hp]
  simp [mapped, he]

/-- C17: for a page that is absent in the caller (no page table covers it,
or its entry lacks the present bit) `duppage` returns 0 and leaves the
machine exactly as it was: no request is logged and no environment's tables
change.  And when the caller maps no page below the exception stack (handler
registered, a slot and a frame free), `fork` returns the positive id of a
child that is runnable and whose only mapped page is the one at
UXSTACKTOP - PGSIZE, over the frame just allocated, present+user+writable. -/
theorem duppage_absent_noop_and_empty_fork (s : Machine) (pgfault_entry upcall_entry f0 : Nat)
    (rest0 : List Nat) :
    (∀ child pn,
      (s.cur.env_pgdir (PDX (pn * PGSIZE % WORD)) &&& PTE_P = 0 ∨
        s.cur.env_pgtab (PGNUM (pn * PGSIZE % WORD)) &&& PTE_P = 0) →
      duppage s child pn = Outcome.returned 0 s) ∧
    (s.cur.env_status ≠ ENV_FREE → s.cur.pgfault_handler ≠ 0 →
      (∃ i, i < NENV ∧ (s.envs i).env_status = ENV_FREE) →
      (∀ va, va < UXSTACKTOP - PGSIZE → mapped s.cur va = false) →
      s.page_free_list = f0 :: rest0 →
      ∃ c j s1, fork s pgfault_entry upcall_entry = Outcome.returned (Int.ofNat c) s1 ∧
        0 < c ∧ j = c % NENV ∧ j ≠ s.curenv ∧ (s1.envs j).env_id = c ∧
        (s1.envs j).env_status = ENV_RUNNABLE ∧
        maps_frame (s1.envs j) (UXSTACKTOP - PGSIZE) (page2pa f0) (PTE_P ||| PTE_U ||| PTE_W) ∧
        (∀ va, mapped (s1.envs j) va = true → PGNUM va = PGNUM (UXSTACKTOP - PGSIZE))) := by
  constructor
  · intro child pn habs
    rw [duppage_def, if_pos]
    unfold get_pte
    by_cases hd : s.cur.env_pgdir (PDX (pn * PGSIZE % WORD)) &&& PTE_P ≠ 0
    · rw [if_pos hd]
      rcases habs with h | h
      · exact absurd h hd
      · exact Or.inr h
    · rw [if_neg hd]
      exact Or.inl rfl
  · intro hlive hreg hslot hnone hfl
    obtain ⟨i, c, t1, hi, hic, hcpos, hcmod, hfork, -, ht1c, hj, -, hfl1, -, hch, hid, -, -,
      -⟩ := fork_total s pgfault_entry upcall_entry hlive hreg hslot
        (fun va hva hm => by rw [hnone va hva] at hm; exact absurd hm (by simp))
    have hict : i ≠ t1.curenv := by rw [ht1c]; exact hic
    obtain ⟨-, -, k3, -, k5, -, -, hST⟩ := fork_tail_spec t1 c i hj hict
    have halloc := sys_page_alloc_eq t1 c (UXSTACKTOP - PGSIZE) (PTE_P ||| PTE_U ||| PTE_W) i f0
      rest0 hj (by decide) (by decide) (by decide) (hfl1.trans hfl)
    rw [halloc] at hST
    have hST2 : SameTables (page_alloc_post t1 i c (UXSTACKTOP - PGSIZE)
        (PTE_P ||| PTE_U ||| PTE_W) f0 rest0) (fork_tail c t1) := hST
    have hchild : (page_alloc_post t1 i c (UXSTACKTOP - PGSIZE) (PTE_P ||| PTE_U ||| PTE_W) f0
        rest0).envs i = page_insert (t1.envs i) (UXSTACKTOP - PGSIZE)
          (page2pa f0 ||| (PTE_P ||| PTE_U ||| PTE_W)) := by
      simp only [page_alloc_post, upd_same]
    have hempty : ∀ va, mapped (t1.envs i) va = false := by
      intro va
      cases hm : mapped (t1.envs i) va with
      | false => rfl
      | true =>
        obtain ⟨h1, h2⟩ := hch va hm
        rw [mapped_of_PGNUM_eq s.cur va (PGNUM va * PGSIZE) (PGNUM_pgaddr va).symm,
          hnone _ h1] at h2
        exact absurd h2 (by simp)
    refine ⟨c, i, fork_tail c t1, hfork, hcpos, hcmod.symm, hic, k5.trans hid, k3, ?_, ?_⟩
    · apply SameTables_maps_frame _ _ hST2
      rw [hchild]
      exact maps_frame_alloc _ _ _ _ rfl (by decide) rfl
    · intro va hm
      rw [SameTables_mapped _ _ hST2, hchild] at hm
      rcases page_insert_mapped_cases _ _ _ _ hm with ⟨h1, -⟩ | ⟨h1, -⟩
      · exact h1
      · rw [hempty] at h1
        exact absurd h1 (by simp)

theorem duppage_absent_noop_and_empty_fork_witness :
    (sampleStackOnly.cur.env_pgdir (PDX (0x800 * PGSIZE % WORD)) &&& PTE_P = 0 ∨
      sampleStackOnly.cur.env_pgtab (PGNUM (0x800 * PGSIZE % WORD)) &&& PTE_P = 0) ∧
    duppage sampleStackOnly 0x1001 0x800 = Outcome.returned 0 sampleStackOnly ∧
    sampleStackOnly.cur.env_status ≠ ENV_FREE ∧ sampleStackOnly.cur.pgfault_handler ≠ 0 ∧
    (∃ i, i < NENV ∧ (sampleStackOnly.envs i).env_status = ENV_FREE) ∧
    (∀ va, va < UXSTACKTOP - PGSIZE → mapped sampleStackOnly.cur va = false) ∧
    sampleStackOnly.page_free_list = [9, 10, 11] ∧
    ∃ c j s1, fork sampleStackOnly 0x802000 0x801000 = Outcome.returned (Int.ofNat c) s1 ∧
      0 < c ∧ j = c % NENV ∧ j ≠ sampleStackOnly.curenv ∧ (s1.envs j).env_id = c ∧
      (s1.envs j).env_status = ENV_RUNNABLE ∧
      maps_frame (s1.envs j) (UXSTACKTOP - PGSIZE) (page2pa 9) (PTE_P ||| PTE_U ||| PTE_W) ∧
      (∀ va, mapped (s1.envs j) va = true → PGNUM va = PGNUM (UXSTACKTOP - PGSIZE)) :=
  ⟨by decide,
   (duppage_absent_noop_and_empty_fork sampleStackOnly 0x802000 0x801000 9 [10, 11]).1
     0x1001 0x800 (by decide),
   by decide, by decide, ⟨2, by decide, by decide⟩, sampleStackOnly_none, rfl,
   (duppage_absent_noop_and_empty_fork sampleStackOnly 0x802000 0x801000 9 [10, 11]).2
     (by decide) (by decide) ⟨2, by decide, by decide⟩ sampleStackOnly_none rfl⟩

end Jos
